import Mathlib

/-!
Linux.do stream side panel: store, filters and refresh.

A shallow embedding of the reconciliation code of the side panel
(`src/sidepanel/state/index.js`, `src/sidepanel/events/index.js`,
`src/sidepanel/components/topic-list.js`, `src/sidepanel/services/notifications.js`,
`src/sidepanel/utils/formatter.js`, `src/sidepanel/utils/constants.js`).

Conventions of the embedding:

* a JavaScript string is a `List Char`; `str "abc"` writes a literal;
* a JavaScript `Set` of numbers is the list of its elements in insertion order,
  a `Map` the list of its entries in insertion order;
* a method of the mutable `Store` is a function from the state before the call to
  the state after it (paired with the returned value when there is one);
* an exception is an `Except JsError` result;
* `Date.now()` / `new Date()` is an explicit argument `now` (milliseconds);
* `String.prototype.toLowerCase` is a field of the argument `host` of the functions that call
  it, so that what is proved holds whatever the case mappings of the host are; the worked
  examples are evaluated on `latin1Host`;
* `Array.prototype.sort` is the sort of the engine on arrays of fewer than 64 elements (a run
  and binary insertion); when the comparator is consistent it returns the list every stable
  sort returns.
-/

namespace LinuxDoStream

/-! ## JavaScript strings -/

/-- A JavaScript string, as the list of its characters. -/
abbrev JsString := List Char

/-- A string literal. -/
def str (s : String) : JsString := s.toList

/-- White space and line terminators removed by `String.prototype.trim`. -/
def isTrimmable (c : Char) : Bool :=
  let n := c.toNat
  n = 0x09 || n = 0x0A || n = 0x0B || n = 0x0C || n = 0x0D || n = 0x20 || n = 0xA0 ||
  n = 0x1680 || (0x2000 ≤ n && n ≤ 0x200A) || n = 0x2028 || n = 0x2029 || n = 0x202F ||
  n = 0x205F || n = 0x3000 || n = 0xFEFF

/-- The method `String.prototype.trim`. -/
def trim (s : JsString) : JsString :=
  ((s.dropWhile isTrimmable).reverse.dropWhile isTrimmable).reverse

/-- Lower-casing of one character of the Latin-1 range (the code points up to 255): the
letters `A`..`Z` and `À`..`Þ`, the multiplication sign between them apart, are mapped to the
letter 32 places further on, every other character to itself. -/
def lowerChar (c : Char) : Char :=
  if (65 ≤ c.toNat ∧ c.toNat ≤ 90) ∨ (192 ≤ c.toNat ∧ c.toNat ≤ 222 ∧ c.toNat ≠ 215) then
    Char.ofNat (c.toNat + 32)
  else c

/-- The host of the side panel, as far as the embedding leaves it open: the method
`String.prototype.toLowerCase`, which follows the case mappings of the Unicode tables the
engine is built with. The functions that call the method take the host as their first
argument, and what is proved of them holds for every host; the one property of the method
that is used is that the empty string is mapped to the empty string. -/
structure Host where
  toLowerCase : JsString → JsString
  toLowerCase_empty : toLowerCase [] = []

/-- The host on strings of Latin-1 characters, where `toLowerCase` maps each character by
`lowerChar`. The worked examples, whose titles and keywords are made of these characters, are
evaluated on it. -/
def latin1Host : Host where
  toLowerCase := fun s => s.map lowerChar
  toLowerCase_empty := rfl

/-- Whether `k` is an initial segment of `s`. -/
def startsWith : JsString → JsString → Bool
  | _, [] => true
  | [], _ :: _ => false
  | c :: s, d :: k => c == d && startsWith s k

/-- The method `String.prototype.includes`: `k` occurs in `s` at some position. -/
def includes : JsString → JsString → Bool
  | [], k => startsWith [] k
  | c :: s, k => startsWith (c :: s) k || includes s k

/-- The method `String.prototype.split` with a one-character separator. The result is
never empty: the empty string splits into one empty piece. -/
def split (sep : Char) : JsString → List JsString
  | [] => [[]]
  | c :: s =>
    if c = sep then [] :: split sep s
    else match split sep s with
      | [] => [[c]]
      | w :: ws => (c :: w) :: ws

/-- Truthiness of a string: every string but the empty one. -/
def truthyStr (s : JsString) : Bool := !s.isEmpty

/-! ## Sets and maps -/

/-- A JavaScript `Set` of numbers: its elements in insertion order, without repetition. -/
abbrev JsSet := List Int

namespace JsSet

/-- The method `Set.prototype.has`. -/
def has (s : JsSet) (x : Int) : Bool := s.contains x

/-- The method `Set.prototype.add`: a new element goes last, a present one changes nothing. -/
def add (s : JsSet) (x : Int) : JsSet := if has s x then s else s ++ [x]

/-- The method `Set.prototype.delete`. -/
def delete (s : JsSet) (x : Int) : JsSet := s.filter (fun y => y != x)

/-- The constructor `new Set(iterable)`: the elements are added one after the other. -/
def ofArray (xs : List Int) : JsSet := xs.foldl add []

end JsSet

/-- A JavaScript `Map` with number keys: its entries in insertion order, one per key. -/
abbrev JsMap (α : Type) := List (Int × α)

namespace JsMap

/-- The method `Map.prototype.set`: the value of a present key is replaced in place, a new
key goes last. -/
def set {α : Type} : JsMap α → Int → α → JsMap α
  | [], k, v => [(k, v)]
  | (k0, v0) :: m, k, v => if k0 = k then (k, v) :: m else (k0, v0) :: set m k v

/-- The constructor `new Map(entries)`. -/
def ofEntries {α : Type} (es : List (Int × α)) : JsMap α :=
  es.foldl (fun m e => set m e.1 e.2) []

/-- The method `Map.prototype.get`. -/
def get {α : Type} : JsMap α → Int → Option α
  | [], _ => none
  | (k0, v0) :: m, k => if k0 = k then some v0 else get m k

end JsMap

/-! ## Data model -/

/-- A topic of the remote feed, with the fields the side panel reads. A timestamp is the
time value of `new Date(field)` in milliseconds, `none` when that is `NaN`. -/
structure Topic where
  id : Int := 0
  title : JsString := []
  category_id : Option Int := none
  posts_count : Nat := 0
  views : Nat := 0
  created_at : Option Int := none
  last_posted_at : Option Int := none
  highest_post_number : Nat := 0
  last_read_post_number : Option Nat := none
  deriving DecidableEq, Repr

/-- A user of the remote feed, as referenced by the posters of a topic. -/
structure User where
  id : Int := 0
  trust_level : Nat := 0
  admin : Bool := false
  deriving DecidableEq, Repr

/-- An entry of the `CATEGORIES` table of `utils/constants.js`. -/
structure Category where
  id : Int
  slug : JsString
  deriving DecidableEq, Repr

/-- The table `CATEGORIES` of `utils/constants.js` (ids and slugs). -/
def CATEGORIES : List Category :=
  [⟨4, str "develop"⟩, ⟨98, str "domestic"⟩, ⟨14, str "resource"⟩, ⟨42, str "wiki"⟩,
   ⟨27, str "job"⟩, ⟨32, str "reading"⟩, ⟨34, str "news"⟩, ⟨92, str "feeds"⟩,
   ⟨36, str "welfare"⟩, ⟨11, str "gossip"⟩, ⟨2, str "feedback"⟩]

/-- The configuration object, with the keys of `DEFAULT_CONFIG`. -/
structure Config where
  pollingInterval : Nat
  lowDataMode : Bool
  blockCategories : List JsString
  keywordBlacklist : JsString
  qualityFilter : Bool
  hoverPreview : Bool
  clickBehavior : JsString
  readStatusAction : JsString
  showBadge : Bool
  notifyKeywords : JsString
  fontSize : JsString
  compactMode : Bool
  themeMode : JsString
  syncReadStatus : Bool
  deriving DecidableEq, Repr

/-- The constant `DEFAULT_CONFIG` of `utils/constants.js`. -/
def DEFAULT_CONFIG : Config where
  pollingInterval := 30
  lowDataMode := false
  blockCategories := []
  keywordBlacklist := str ""
  qualityFilter := false
  hoverPreview := true
  clickBehavior := str "newTab"
  readStatusAction := str "fade"
  showBadge := true
  notifyKeywords := str ""
  fontSize := str "medium"
  compactMode := false
  themeMode := str "system"
  syncReadStatus := true

/-- A partial configuration: the keys an object passed to `updateConfig` carries. -/
structure PartialConfig where
  pollingInterval : Option Nat := none
  lowDataMode : Option Bool := none
  blockCategories : Option (List JsString) := none
  keywordBlacklist : Option JsString := none
  qualityFilter : Option Bool := none
  hoverPreview : Option Bool := none
  clickBehavior : Option JsString := none
  readStatusAction : Option JsString := none
  showBadge : Option Bool := none
  notifyKeywords : Option JsString := none
  fontSize : Option JsString := none
  compactMode : Option Bool := none
  themeMode : Option JsString := none
  syncReadStatus : Option Bool := none
  deriving DecidableEq, Repr

/-- The object spread `{ ...c, ...p }`: a key of `p` wins over the key of `c`. -/
def Config.spread (c : Config) (p : PartialConfig) : Config where
  pollingInterval := p.pollingInterval.getD c.pollingInterval
  lowDataMode := p.lowDataMode.getD c.lowDataMode
  blockCategories := p.blockCategories.getD c.blockCategories
  keywordBlacklist := p.keywordBlacklist.getD c.keywordBlacklist
  qualityFilter := p.qualityFilter.getD c.qualityFilter
  hoverPreview := p.hoverPreview.getD c.hoverPreview
  clickBehavior := p.clickBehavior.getD c.clickBehavior
  readStatusAction := p.readStatusAction.getD c.readStatusAction
  showBadge := p.showBadge.getD c.showBadge
  notifyKeywords := p.notifyKeywords.getD c.notifyKeywords
  fontSize := p.fontSize.getD c.fontSize
  compactMode := p.compactMode.getD c.compactMode
  themeMode := p.themeMode.getD c.themeMode
  syncReadStatus := p.syncReadStatus.getD c.syncReadStatus

/-- The user settings object, with the keys of `DEFAULT_USER_SETTINGS`. -/
structure UserSettings where
  autoRefreshEnabled : Bool
  categoryFilter : JsString
  subCategoryFilter : Int
  sortFilter : JsString
  deriving DecidableEq, Repr

/-- The constant `DEFAULT_USER_SETTINGS` of `utils/constants.js`. -/
def DEFAULT_USER_SETTINGS : UserSettings where
  autoRefreshEnabled := true
  categoryFilter := str "all"
  subCategoryFilter := 4
  sortFilter := str "latest"

/-- A partial settings object: the keys an object passed to `updateUserSettings` carries. -/
structure PartialUserSettings where
  autoRefreshEnabled : Option Bool := none
  categoryFilter : Option JsString := none
  subCategoryFilter : Option Int := none
  sortFilter : Option JsString := none
  deriving DecidableEq, Repr

/-- The object spread `{ ...u, ...p }` on user settings. -/
def UserSettings.spread (u : UserSettings) (p : PartialUserSettings) : UserSettings where
  autoRefreshEnabled := p.autoRefreshEnabled.getD u.autoRefreshEnabled
  categoryFilter := p.categoryFilter.getD u.categoryFilter
  subCategoryFilter := p.subCategoryFilter.getD u.subCategoryFilter
  sortFilter := p.sortFilter.getD u.sortFilter

/-! ## The store (`state/index.js`) -/

/-- The field `state` of a `Store`. -/
structure State where
  config : Config
  userSettings : UserSettings
  topics : List Topic
  readTopicIds : JsSet
  usersMap : JsMap User
  autoRefreshEnabled : Bool
  deriving DecidableEq, Repr

namespace Store

/-- The state built by `new Store()`: the defaults, no topic, nothing read. -/
def initial : State where
  config := DEFAULT_CONFIG
  userSettings := DEFAULT_USER_SETTINGS
  topics := []
  readTopicIds := []
  usersMap := []
  autoRefreshEnabled := true

/-- The method `isTopicRead(topicId)`. -/
def isTopicRead (s : State) (topicId : Int) : Bool := s.readTopicIds.has topicId

/-- The method `updateConfig(partialConfig)`. -/
def updateConfig (s : State) (partialConfig : PartialConfig) : State :=
  { s with config := s.config.spread partialConfig }

/-- The method `updateUserSettings(partialSettings)`. -/
def updateUserSettings (s : State) (partialSettings : PartialUserSettings) : State :=
  { s with userSettings := s.userSettings.spread partialSettings }

/-- The method `setTopics(topics, usersMap = null)`: the topics are replaced; the users map
is replaced when one is passed (a `Map` object is truthy, also when it is empty). -/
def setTopics (s : State) (topics : List Topic) (usersMap : Option (JsMap User)) : State :=
  match usersMap with
  | some m => { s with topics := topics, usersMap := m }
  | none => { s with topics := topics }

/-- The method `addTopics(newTopics)`: the new topics whose id the store does not hold are
put in front of the held ones; they are also the returned value. -/
def addTopics (s : State) (newTopics : List Topic) : State × List Topic :=
  let existingIds : JsSet := JsSet.ofArray (s.topics.map (fun t => t.id))
  let unique := newTopics.filter (fun t => !existingIds.has t.id)
  if unique.length > 0 then ({ s with topics := unique ++ s.topics }, unique)
  else (s, unique)

/-- The method `markAsRead(topicId)`. -/
def markAsRead (s : State) (topicId : Int) : State :=
  { s with readTopicIds := s.readTopicIds.add topicId }

/-- The method `unmarkAsRead(topicId)`. -/
def unmarkAsRead (s : State) (topicId : Int) : State :=
  { s with readTopicIds := s.readTopicIds.delete topicId }

/-- The method `setReadTopicIds(topicIds)`. -/
def setReadTopicIds (s : State) (topicIds : List Int) : State :=
  { s with readTopicIds := JsSet.ofArray topicIds }

/-- The method `setAutoRefresh(enabled)`. -/
def setAutoRefresh (s : State) (enabled : Bool) : State :=
  { s with autoRefreshEnabled := enabled }

/-- The method `getUser(userId)`. -/
def getUser (s : State) (userId : Int) : Option User := s.usersMap.get userId

end Store

/-- A call of one of the mutating methods of the store, with its arguments. -/
inductive StoreCall where
  | updateConfig (partialConfig : PartialConfig)
  | updateUserSettings (partialSettings : PartialUserSettings)
  | setTopics (topics : List Topic) (usersMap : Option (JsMap User))
  | addTopics (newTopics : List Topic)
  | markAsRead (topicId : Int)
  | unmarkAsRead (topicId : Int)
  | setReadTopicIds (topicIds : List Int)
  | setAutoRefresh (enabled : Bool)
  deriving DecidableEq, Repr

/-- Whether the call is a merge of fetched topics (`setTopics` or `addTopics`). -/
def StoreCall.isMerge : StoreCall → Bool
  | .setTopics _ _ => true
  | .addTopics _ => true
  | _ => false

/-- The state after one call. -/
def Store.step (s : State) : StoreCall → State
  | .updateConfig p => Store.updateConfig s p
  | .updateUserSettings p => Store.updateUserSettings s p
  | .setTopics ts m => Store.setTopics s ts m
  | .addTopics ts => (Store.addTopics s ts).1
  | .markAsRead i => Store.markAsRead s i
  | .unmarkAsRead i => Store.unmarkAsRead s i
  | .setReadTopicIds is => Store.setReadTopicIds s is
  | .setAutoRefresh b => Store.setAutoRefresh s b

/-- The state after a sequence of calls, made one after the other. -/
def Store.run (s : State) (calls : List StoreCall) : State := calls.foldl Store.step s

/-! ## Errors -/

/-- An exception thrown by the embedded code. -/
inductive JsError where
  | referenceError (name : JsString)
  | typeError (message : JsString)
  | error (message : JsString)
  deriving DecidableEq, Repr

deriving instance DecidableEq for Except

/-- The property `message` of an exception. -/
def JsError.message : JsError → JsString
  | .referenceError name => name ++ str " is not defined"
  | .typeError message => message
  | .error message => message

/-- The method `Array.prototype.filter` with a callback that may throw: the callback is
called on the elements in order, and the first exception ends the call. -/
def filterE {α ε : Type} (f : α → Except ε Bool) : List α → Except ε (List α)
  | [] => .ok []
  | x :: xs =>
    match f x with
    | .error e => .error e
    | .ok b =>
      match filterE f xs with
      | .error e => .error e
      | .ok r => .ok (if b then x :: r else r)

/-! ## Read detection (`components/topic-list.js`) -/

/-- Truthiness of a number that may be `null` or `undefined`: neither of them nor `0`. -/
def truthyNum : Option Nat → Bool
  | none => false
  | some n => n != 0

namespace createTopicElement

/-- Truthiness of the constant `isSiteRead` of `createTopicElement`:
`config.syncReadStatus && topic.last_read_post_number &&
 topic.last_read_post_number >= topic.highest_post_number`. -/
def isSiteRead (topic : Topic) (config : Config) : Bool :=
  config.syncReadStatus && truthyNum topic.last_read_post_number &&
    (match topic.last_read_post_number with
     | none => false
     | some n => decide (n ≥ topic.highest_post_number))

/-- Truthiness of the constant `isRead` of `createTopicElement`:
`readTopicIds.has(topic.id) || isSiteRead`. -/
def isRead (topic : Topic) (config : Config) (readTopicIds : JsSet) : Bool :=
  readTopicIds.has topic.id || isSiteRead topic config

end createTopicElement

/-! ## Keywords and recency (`utils/formatter.js`) -/

/-- The function `parseKeywords(keywords)`: the trimmed, lower-cased, non-empty pieces. -/
def parseKeywords (host : Host) (keywords : JsString) : List JsString :=
  ((split ',' keywords).map (fun k => host.toLowerCase (trim k))).filter truthyStr

/-- The function `isTopicRecent(topic, threshold = 14400000)` at the time `now`; a
comparison with `NaN` is false. -/
def isTopicRecent (now : Int) (topic : Topic) (threshold : Int := 14400000) : Bool :=
  match topic.created_at with
  | none => false
  | some created => decide (now - created < threshold)

/-- What `createTopicElement` decides about the element of a topic: the topic id it
carries, whether it gets the class `read`, and whether it shows the new dot. -/
structure TopicElement where
  topicId : Int
  read : Bool
  isNew : Bool
  deriving DecidableEq, Repr

/-- The function `createTopicElement(topic, options)`, as far as the read status goes. -/
def createTopicElement (now : Int) (topic : Topic) (config : Config) (readTopicIds : JsSet) :
    TopicElement where
  topicId := topic.id
  read := createTopicElement.isRead topic config readTopicIds &&
    decide (config.readStatusAction = str "fade")
  isNew := isTopicRecent now topic && !createTopicElement.isRead topic config readTopicIds

/-! ## Filters and sorting (`events/index.js`) -/

/-- The callback of the category stage of `applyFilters`, given what the name `CATEGORIES`
is bound to where the callback runs (`none`: the name is not bound and reading it throws). -/
def categoryKept (binding : Option (List Category)) (config : Config) (t : Topic) :
    Except JsError Bool :=
  match binding with
  | none => .error (.referenceError (str "CATEGORIES"))
  | some table =>
    match table.find? (fun c => some c.id == t.category_id) with
    | none => .ok true
    | some cat => .ok (!config.blockCategories.contains cat.slug)

/-- The category stage of `applyFilters`. -/
def stageCategory (binding : Option (List Category)) (config : Config) (res : List Topic) :
    Except JsError (List Topic) :=
  if config.blockCategories.length > 0 then filterE (categoryKept binding config) res
  else .ok res

/-- The constant `black` of the keyword stage of `applyFilters`. -/
def blacklist (host : Host) (config : Config) : List JsString :=
  (split ',' config.keywordBlacklist).map (fun k => host.toLowerCase (trim k))

/-- The keyword stage of `applyFilters`. -/
def stageKeyword (host : Host) (config : Config) (res : List Topic) : List Topic :=
  if truthyStr config.keywordBlacklist then
    res.filter (fun t =>
      !(blacklist host config).any (fun k => includes (host.toLowerCase t.title) k))
  else res

/-- The quality stage of `applyFilters`. -/
def stageQuality (config : Config) (res : List Topic) : List Topic :=
  if config.qualityFilter then res.filter (fun t => decide (t.posts_count > 10)) else res

/-- The read-hide stage of `applyFilters`. -/
def stageReadHide (config : Config) (readTopicIds : JsSet) (res : List Topic) : List Topic :=
  if config.readStatusAction = str "hide" then res.filter (fun t => !readTopicIds.has t.id)
  else res

/-- The method `applyFilters(topics, config, readTopicIds)`, given the binding of the name
`CATEGORIES` in its module. -/
def applyFiltersWith (host : Host) (binding : Option (List Category)) (topics : List Topic)
    (config : Config)
    (readTopicIds : JsSet) : Except JsError (List Topic) :=
  match stageCategory binding config topics with
  | .error e => .error e
  | .ok res =>
    .ok (stageReadHide config readTopicIds (stageQuality config (stageKeyword host config res)))

/-- The binding of the name `CATEGORIES` in the module `events/index.js`: the module imports
nothing and declares no such name. -/
def eventsModuleCATEGORIES : Option (List Category) := none

/-- The method `applyFilters(topics, config, readTopicIds)` of `events/index.js`. -/
def applyFilters (host : Host) (topics : List Topic) (config : Config) (readTopicIds : JsSet) :
    Except JsError (List Topic) :=
  applyFiltersWith host eventsModuleCATEGORIES topics config readTopicIds

/-- The value of a sort comparator `(a, b) => key(b) - key(a)`; `none` is `NaN`. -/
def compareKeys (ka kb : Option Int) : Option Int :=
  match ka, kb with
  | some x, some y => some (y - x)
  | _, _ => none

/-- The comparator `applySorting` passes to `sort` for the sort type, if it sorts at all. -/
def comparator (sortType : JsString) : Option (Topic → Topic → Option Int) :=
  if sortType = str "latest" then
    some (fun a b => compareKeys a.last_posted_at b.last_posted_at)
  else if sortType = str "created" then
    some (fun a b => compareKeys a.created_at b.created_at)
  else if sortType = str "views" then
    some (fun a b => compareKeys (some (a.views : Int)) (some (b.views : Int)))
  else if sortType = str "replies" then
    some (fun a b => compareKeys (some (a.posts_count : Int)) (some (b.posts_count : Int)))
  else none

/-- The number `sort` works with when it calls the comparator on `a` and `b`: the number
returned, with `0` in the place of a `NaN`. -/
def sortCompare (cmp : Topic → Topic → Option Int) (a b : Topic) : Int := (cmp a b).getD 0

/-- The loop of `CountAndMakeRun` of the engine: how many of the elements that follow
`previousElement` go on the run that ends with it. An ascending run goes on while the
order of an element and the one before it is not negative, a descending run while it is
negative. -/
def countRun (order : Topic → Topic → Int) (isDescending : Bool) :
    Topic → List Topic → Nat
  | _, [] => 0
  | previousElement, currentElement :: rest =>
    if isDescending then
      if order currentElement previousElement ≥ 0 then 0
      else countRun order isDescending currentElement rest + 1
    else
      if order currentElement previousElement < 0 then 0
      else countRun order isDescending currentElement rest + 1

/-- The step `CountAndMakeRun` of the engine: the run the array starts with, a descending
run reversed in place, and the elements after the run. -/
def countAndMakeRun (order : Topic → Topic → Int) : List Topic → List Topic × List Topic
  | [] => ([], [])
  | [a] => ([a], [])
  | elementHigh :: elementLow :: rest =>
    let isDescending := decide (order elementLow elementHigh < 0)
    let runLength := countRun order isDescending elementLow rest + 2
    let work := elementHigh :: elementLow :: rest
    (if isDescending then (work.take runLength).reverse else work.take runLength,
     work.drop runLength)

/-- The binary search of `BinaryInsertionSort`:
`while (left < right) { mid = left + ((right - left) >> 1);
 if (order(pivot, work[mid]) < 0) right = mid; else left = mid + 1; }`, which ends with the
place of the pivot in `left`. The first argument bounds the number of rounds; a round makes
`right - left` smaller, so `right - left` rounds are enough. -/
def binarySearch (order : Topic → Topic → Int) (pivot : Topic) (work : List Topic) :
    Nat → Nat → Nat → Nat
  | 0, left, _ => left
  | rounds + 1, left, right =>
    if left < right then
      let mid := left + (right - left) / 2
      match work[mid]? with
      | none => left
      | some e =>
        if order pivot e < 0 then binarySearch order pivot work rounds left mid
        else binarySearch order pivot work rounds (mid + 1) right
    else left

/-- One round of `BinaryInsertionSort`: the pivot, the element after the sorted part, is
moved to the place the binary search finds in the sorted part. -/
def insertPivot (order : Topic → Topic → Int) (sorted : List Topic) (pivot : Topic) :
    List Topic :=
  let left := binarySearch order pivot sorted sorted.length 0 sorted.length
  sorted.take left ++ pivot :: sorted.drop left

/-- The sort of the engine (`ArrayTimSortImpl`) on an array of fewer than 64 elements, for
which the whole array is one run: `CountAndMakeRun` finds the run the array starts with, and
`BinaryInsertionSort` inserts each element after the run into the sorted part. -/
def arrayTimSort (order : Topic → Topic → Int) (work : List Topic) : List Topic :=
  let run := countAndMakeRun order work
  run.2.foldl (insertPivot order) run.1

/-- The method `Array.prototype.sort(cmp)`, as the engine of the browser the side panel runs
in (V8) carries it out on an array of fewer than 64 elements. From 64 elements on the engine
cuts the array into runs of this kind and merges them; whenever the comparator is consistent
on the array, the result is the one list that is sorted and stable, whatever the length
(`sortBy_sorted`, `filter_sortBy_key`). -/
def sortBy (cmp : Topic → Topic → Option Int) (topics : List Topic) : List Topic :=
  arrayTimSort (sortCompare cmp) topics

/-- The method `applySorting(topics, sortType)`. -/
def applySorting (topics : List Topic) (sortType : JsString) : List Topic :=
  match comparator sortType with
  | some cmp => sortBy cmp topics
  | none => topics

/-! ## Notifications (`services/notifications.js`) -/

/-- The function `checkKeywordNotifications`: the matched topics, in order; the title of
each of them is passed to `sendNotification`. -/
def checkKeywordNotifications (host : Host) (now : Int) (topics : List Topic) (readTopicIds : JsSet)
    (notifyKeywords : JsString) : List Topic :=
  if !truthyStr notifyKeywords then []
  else
    let keywords := parseKeywords host notifyKeywords
    if keywords.length = 0 then []
    else
      let newTopics := topics.filter (fun t => isTopicRecent now t && !readTopicIds.has t.id)
      newTopics.filter (fun t => keywords.any (fun k => includes (host.toLowerCase t.title) k))

/-- The constant `NOTIFICATION_COOLDOWN` of `createNotificationManager`. -/
def NOTIFICATION_COOLDOWN : Int := 5000

/-- The method `notifyIfNeeded(topics, readTopicIds, notifyKeywords)` of the notification
manager, called at the time `now` with the variable `lastNotificationTime`: the value of
the variable after the call and the texts passed to `showNotification`, in order. -/
def notifyIfNeeded (host : Host) (lastNotificationTime now : Int) (topics : List Topic)
    (readTopicIds : JsSet)
    (notifyKeywords : JsString) : Int × List JsString :=
  if now - lastNotificationTime < NOTIFICATION_COOLDOWN then (lastNotificationTime, [])
  else
    let matched := checkKeywordNotifications host now topics readTopicIds notifyKeywords
    (if matched.length > 0 then now else lastNotificationTime, matched.map (fun t => t.title))

/-! ## Refresh (`events/index.js`) -/

/-- What the fetch of the topics resolves to. -/
structure FetchResponse where
  success : Bool
  topics : List Topic := []
  users : Option (List User) := none
  error : Option JsString := none
  deriving DecidableEq, Repr

/-- An effect of the handlers on their collaborators, as far as the embedding records it. -/
inductive Effect where
  | showBookmarks
  | loading (active : Bool)
  | showNotification (text : JsString)
  | updateBadge (count : Nat)
  | render (elements : List TopicElement)
  | updateTopicCount (count : Nat)
  | consoleError (message : JsString)
  | showError (message : JsString)
  | unhandledRejection (e : JsError)
  deriving DecidableEq, Repr

/-- The side panel: the store, the variable `lastNotificationTime` of the notification
manager, and the effects so far, oldest first. -/
structure Panel where
  store : State
  lastNotificationTime : Int := 0
  log : List Effect := []
  deriving DecidableEq, Repr

/-- The method `render(topics, state)` of the topic list manager. -/
def render (now : Int) (topics : List Topic) (config : Config) (readTopicIds : JsSet) :
    List Effect :=
  [.updateBadge (if config.showBadge then
      (topics.filter (fun t => !readTopicIds.has t.id)).length else 0),
   .render (topics.map (fun t => createTopicElement now t config readTopicIds))]

/-- The method `refreshTopicList()`, up to its first `await`, with the settings of the filter
bar: the effects it has. It is an `async` method, so an exception of `applyFilters` rejects
the promise it returns. -/
def refreshTopicList (host : Host) (now : Int) (state : State)
    (settings : UserSettings) : List Effect :=
  if settings.categoryFilter = str "bookmarks" then []
  else
    match applyFilters host state.topics state.config state.readTopicIds with
    | .error e => [.unhandledRejection e]
    | .ok filtered =>
      let sorted := applySorting filtered settings.sortFilter
      render now sorted state.config state.readTopicIds ++ [.updateTopicCount sorted.length]

/-- The text of the error thrown for a response without success:
`response.error || '获取数据失败'`. -/
def failureMessage (response : FetchResponse) : JsString :=
  match response.error with
  | none => str "获取数据失败"
  | some e => if truthyStr e then e else str "获取数据失败"

/-- The body of the `try` block of `handleManualRefresh` after the fetch has resolved to
`response`: the panel when the block ends, and the exception if it ends by one. -/
def refreshBody (host : Host) (now : Int) (p : Panel) (settings : UserSettings)
    (response : FetchResponse) :
    Panel × Option JsError :=
  if response.success then
    match response.users with
    | none => (p, some (.typeError (str "Cannot read properties of undefined (reading 'map')")))
    | some users =>
      let usersMap := JsMap.ofEntries (users.map (fun u => (u.id, u)))
      let store := Store.setTopics p.store response.topics (some usersMap)
      let sent := notifyIfNeeded host p.lastNotificationTime now response.topics
        store.readTopicIds store.config.notifyKeywords
      ({ store := store
         lastNotificationTime := sent.1
         log := p.log ++ sent.2.map Effect.showNotification ++
           refreshTopicList host now store settings }, none)
  else (p, some (.error (failureMessage response)))

/-- The method `handleManualRefresh()`, with the settings of the filter bar, the outcome of
the fetch (`.error` when the promise is rejected) and the time `now`. -/
def handleManualRefresh (host : Host) (now : Int) (p : Panel) (settings : UserSettings)
    (outcome : Except JsError FetchResponse) : Panel :=
  if settings.categoryFilter = str "bookmarks" then
    { p with log := p.log ++ [.showBookmarks] }
  else
    let p1 := { p with log := p.log ++ [.loading true] }
    let r : Panel × Option JsError :=
      match outcome with
      | .error e => (p1, some e)
      | .ok response => refreshBody host now p1 settings response
    match r.2 with
    | none => { r.1 with log := r.1.log ++ [.loading false] }
    | some e =>
      { r.1 with log := r.1.log ++ [.consoleError e.message, .showError e.message,
          .loading false] }

/-! ## The delta of the specification -/

/-- The ids seen in the merges of a session: the ids of the topics passed to its `setTopics`
and `addTopics` calls. -/
def seenIds : List StoreCall → List Int
  | [] => []
  | .setTopics ts _ :: calls => ts.map (fun t => t.id) ++ seenIds calls
  | .addTopics ts :: calls => ts.map (fun t => t.id) ++ seenIds calls
  | _ :: calls => seenIds calls

/-- The delta set as the specification words it: the fetched topics whose id was not seen in
any prior merge of the session. -/
def sessionDelta (prior : List StoreCall) (fetched : List Topic) : List Topic :=
  fetched.filter (fun t => !(seenIds prior).contains t.id)

/-! ## The read predicate of the specification -/

/-- The predicate `isRead` as the specification words it (section 4.2): the id is in the read
set, or sync is enabled and the viewer's last seen sequence number is non-null and at least
the highest sequence number of the item. -/
def specIsRead (topic : Topic) (config : Config) (readTopicIds : JsSet) : Bool :=
  readTopicIds.has topic.id ||
    (config.syncReadStatus &&
      match topic.last_read_post_number with
      | none => false
      | some n => decide (n ≥ topic.highest_post_number))

/-- The default configuration with the read-status action `hide`. -/
def hideConfig : Config := { DEFAULT_CONFIG with readStatusAction := str "hide" }

/-! ## The stages as a list, and the four predicates of the filter -/

/-- A filter stage: a function on the candidate list that may throw. -/
abbrev Stage := List Topic → Except JsError (List Topic)

/-- The four stages of `applyFilters`, in the order of the source, given the binding of the
name `CATEGORIES`. -/
def stages (host : Host) (binding : Option (List Category)) (config : Config)
    (readTopicIds : JsSet) :
    List Stage :=
  [stageCategory binding config,
   fun res => .ok (stageKeyword host config res),
   fun res => .ok (stageQuality config res),
   fun res => .ok (stageReadHide config readTopicIds res)]

/-- Stages applied one after the other, in the order of the list; the first exception ends
the run. -/
def runStages : List Stage → List Topic → Except JsError (List Topic)
  | [], topics => .ok topics
  | f :: rest, topics =>
    match f topics with
    | .error e => .error e
    | .ok res => runStages rest res

/-- The category predicate: the category of the topic is not in the block list (a topic whose
category is not in the `CATEGORIES` table has no slug to block). -/
def passCategory (config : Config) (t : Topic) : Bool :=
  match CATEGORIES.find? (fun c => some c.id == t.category_id) with
  | none => true
  | some cat => !config.blockCategories.contains cat.slug

/-- The keyword predicate: the lower-cased title contains none of the trimmed, lower-cased,
non-empty keywords of the black list. -/
def passKeyword (host : Host) (config : Config) (t : Topic) : Bool :=
  !(parseKeywords host config.keywordBlacklist).any (fun k => includes (host.toLowerCase t.title) k)

/-- The quality predicate: more than 10 posts when the quality filter is on. -/
def passQuality (config : Config) (t : Topic) : Bool :=
  !config.qualityFilter || decide (t.posts_count > 10)

/-- The read predicate of the code: when the action is `hide`, the id is not in the read
set. -/
def passReadHide (config : Config) (readTopicIds : JsSet) (t : Topic) : Bool :=
  !decide (config.readStatusAction = str "hide") || !readTopicIds.has t.id

/-- The four predicates at once. -/
def passAll (host : Host) (config : Config) (readTopicIds : JsSet) (t : Topic) : Bool :=
  passCategory config t && passKeyword host config t && passQuality config t &&
    passReadHide config readTopicIds t

/-- The projection as the specification words it (section 4.4): the topics that satisfy the
four predicates, the fourth being "not read" in the sense of section 4.2. -/
def specProject (host : Host) (topics : List Topic) (config : Config)
    (readTopicIds : JsSet) : List Topic :=
  topics.filter (fun t =>
    passCategory config t && passKeyword host config t && passQuality config t &&
      (!decide (config.readStatusAction = str "hide") || !specIsRead t config readTopicIds))

/-- The default configuration with the keyword black list `spam,`. -/
def spamConfig : Config := { DEFAULT_CONFIG with keywordBlacklist := str "spam," }

/-! ## Example inputs -/

/-- A store that holds one topic and one user, for the examples. -/
def exampleState : State :=
  { Store.initial with
    topics := [{ id := 7, title := str "old topic" }]
    usersMap := [(3, { id := 3, trust_level := 1 })]
    readTopicIds := [7, 9] }

/-- A successful response with one topic and two users. -/
def exampleResponse : FetchResponse where
  success := true
  topics := [{ id := 1, title := str "AI news", created_at := some 1000 }]
  users := some [{ id := 5, trust_level := 2 }, { id := 6, admin := true }]

/-- A configuration that uses the keyword, quality and read-hide stages. -/
def strictConfig : Config :=
  { DEFAULT_CONFIG with
    keywordBlacklist := str "spam, Ads"
    qualityFilter := true
    readStatusAction := str "hide" }

/-- Five topics: one for each stage to drop, and one to keep. -/
def strictTopics : List Topic :=
  [{ id := 1, title := str "Big SPAM offer", posts_count := 20 },
   { id := 2, title := str "Kernel 6.9 released", posts_count := 50 },
   { id := 3, title := str "short thread", posts_count := 3 },
   { id := 4, title := str "already read", posts_count := 30 },
   { id := 5, title := str "great ads here", posts_count := 40 }]

/-! ## Sort keys -/

/-- The key a sort type orders by: `last_posted_at` for `latest`, `created_at` for
`created`, `views` for `views`, `posts_count` for `replies`; `none` is `NaN`, and also the
key of a sort type that sorts nothing. -/
def sortKey (sortType : JsString) (t : Topic) : Option Int :=
  if sortType = str "latest" then t.last_posted_at
  else if sortType = str "created" then t.created_at
  else if sortType = str "views" then some (t.views : Int)
  else if sortType = str "replies" then some (t.posts_count : Int)
  else none

/-- The four sort types `applySorting` knows. -/
def sortTypes : List JsString := [str "latest", str "created", str "views", str "replies"]

/-- The default configuration with the category `gossip` blocked. -/
def gossipConfig : Config := { DEFAULT_CONFIG with blockCategories := [str "gossip"] }

/-- A topic of the category 11, whose slug is `gossip`. -/
def gossipTopic : Topic := { id := 1, title := str "rumours", category_id := some 11 }

/-- A topic of the category 999, which the table `CATEGORIES` does not list. -/
def unlistedTopic : Topic := { id := 2, title := str "misc", category_id := some 999 }

/-- A store that holds the two topics, with the category `gossip` blocked. -/
def gossipState : State :=
  { Store.initial with
    topics := [gossipTopic, unlistedTopic]
    config := gossipConfig }

/-- The order of the keys, largest first, with `0` in the place of a `NaN`. -/
def keyGE (sortType : JsString) (a b : Topic) : Prop :=
  (sortKey sortType b).getD 0 ≤ (sortKey sortType a).getD 0

instance keyGE.decidable (sortType : JsString) : DecidableRel (keyGE sortType) :=
  fun a b => inferInstanceAs (Decidable ((sortKey sortType b).getD 0 ≤ (sortKey sortType a).getD 0))

/-- Five topics with ties in every key, for the sort. -/
def sortTopics : List Topic :=
  [{ id := 1, views := 10, posts_count := 3, created_at := some 500, last_posted_at := some 900 },
   { id := 2, views := 30, posts_count := 3, created_at := some 700, last_posted_at := some 800 },
   { id := 3, views := 10, posts_count := 8, created_at := some 500, last_posted_at := some 950 },
   { id := 4, views := 30, posts_count := 1, created_at := some 600, last_posted_at := some 800 },
   { id := 5, views := 20, posts_count := 8, created_at := some 700, last_posted_at := some 900 }]

/-- Seven topics, the fourth with a `created_at` that `new Date` makes no date of. -/
def invalidDateTopics : List Topic :=
  [{ id := 1, created_at := some 3 },
   { id := 2, created_at := some 2 },
   { id := 3, created_at := some 1 },
   { id := 4, created_at := none },
   { id := 5, created_at := some 5 },
   { id := 6, created_at := some 9 },
   { id := 7, created_at := some 5 }]

/-! ## Arrays by reference

The methods `applyFilters` and `applySorting` once more, this time on array references, to
tell a new array from an array changed in place. The configuration object and the read set
stay values: the two methods only read properties of the one and call `has` on the other. -/

/-- The arrays allocated so far; a reference is the position of its array. -/
abbrev Heap := List (List Topic)

namespace Heap

/-- The content of the array behind a reference. -/
def read (h : Heap) (ref : Nat) : List Topic := h.getD ref []

/-- A new array with the given content: the heap with it, and its reference. -/
def alloc (h : Heap) (content : List Topic) : Heap × Nat := (h ++ [content], h.length)

/-- The array behind a reference changed in place. -/
def write (h : Heap) (ref : Nat) (content : List Topic) : Heap := h.set ref content

/-- The call `res.filter(callback)`: a new array with the elements the callback accepts. -/
def filterNew (h : Heap) (res : Nat) (p : Topic → Bool) : Heap × Nat :=
  h.alloc ((h.read res).filter p)

end Heap

/-- The method `applySorting(topics, sortType)` on references: `const res = [...topics]` is a
new array, `res.sort(...)` changes that array in place, and `res` is returned. -/
def applySortingRef (h : Heap) (topics : Nat) (sortType : JsString) : Heap × Nat :=
  let copy := h.alloc (h.read topics)
  match comparator sortType with
  | some cmp => (copy.1.write copy.2 (sortBy cmp (copy.1.read copy.2)), copy.2)
  | none => copy

/-- A stage on references: when it runs, it assigns the new array `res.filter(callback)` to
`res`; when it does not, `res` stays the array it was. -/
def stageRef (runs : Bool) (p : Topic → Bool) (s : Heap × Nat) : Heap × Nat :=
  if runs then s.1.filterNew s.2 p else s

/-- The keyword, quality and read-hide stages of `applyFilters` on references. -/
def laterStagesRef (host : Host) (h : Heap) (res : Nat) (config : Config) (readTopicIds : JsSet) :
    Heap × Nat :=
  stageRef (decide (config.readStatusAction = str "hide")) (fun t => !readTopicIds.has t.id)
    (stageRef config.qualityFilter (fun t => decide (t.posts_count > 10))
      (stageRef (truthyStr config.keywordBlacklist)
        (fun t => !(blacklist host config).any (fun k => includes (host.toLowerCase t.title) k))
        (h, res)))

/-- The method `applyFilters(topics, config, readTopicIds)` on references: `let res =
[...topics]` is a new array, the category stage, when it runs and does not throw, assigns a
new array to `res`, and so do the later stages. -/
def applyFiltersRef (host : Host) (binding : Option (List Category)) (h : Heap) (topics : Nat)
    (config : Config) (readTopicIds : JsSet) : Heap × Except JsError Nat :=
  let s0 := h.alloc (h.read topics)
  if config.blockCategories.length > 0 then
    match filterE (categoryKept binding config) (s0.1.read s0.2) with
    | .error e => (s0.1, .error e)
    | .ok kept =>
      let s1 := s0.1.alloc kept
      ((laterStagesRef host s1.1 s1.2 config readTopicIds).1,
        .ok (laterStagesRef host s1.1 s1.2 config readTopicIds).2)
  else
    ((laterStagesRef host s0.1 s0.2 config readTopicIds).1,
      .ok (laterStagesRef host s0.1 s0.2 config readTopicIds).2)

/-- The content of the array a call returned, or the exception it threw. -/
def outcome (r : Heap × Except JsError Nat) : Except JsError (List Topic) :=
  match r.2 with
  | .error e => .error e
  | .ok ref => .ok (r.1.read ref)

/-- A heap with two arrays: reference 0 is the topic list of the store. -/
def exampleHeap : Heap := [strictTopics, []]

/-! ## Notifications, call by call -/

/-- The function `checkKeywordNotifications` with its callback `sendNotification` as a
function on a state `σ`: the matched topics, and the state after the calls of the callback.
The loop `newTopics.forEach` pushes a matching topic and calls the callback with its title. -/
def checkKeywordNotificationsWith (host : Host) {σ : Type} (sendNotification : σ → JsString → σ)
    (st : σ)
    (now : Int) (topics : List Topic) (readTopicIds : JsSet) (notifyKeywords : JsString) :
    List Topic × σ :=
  if !truthyStr notifyKeywords then ([], st)
  else
    let keywords := parseKeywords host notifyKeywords
    if keywords.length = 0 then ([], st)
    else
      let newTopics := topics.filter (fun t => isTopicRecent now t && !readTopicIds.has t.id)
      newTopics.foldl
        (fun acc t =>
          if keywords.any (fun k => includes (host.toLowerCase t.title) k) then
            (acc.1 ++ [t], sendNotification acc.2 t.title)
          else acc)
        ([], st)

/-- The callback `notifyIfNeeded` passes as `sendNotification`, on the pair of the variable
`lastNotificationTime` and the texts shown so far: `lastNotificationTime = now;
services.showNotification(text)`. -/
def sendNotification (now : Int) (st : Int × List JsString) (text : JsString) :
    Int × List JsString :=
  (now, st.2 ++ [text])

/-- The method `notifyIfNeeded`, statement by statement: the value of
`lastNotificationTime` after the call and the texts passed to `showNotification`. -/
def notifyIfNeededSteps (host : Host) (lastNotificationTime now : Int) (topics : List Topic)
    (readTopicIds : JsSet) (notifyKeywords : JsString) : Int × List JsString :=
  if now - lastNotificationTime < NOTIFICATION_COOLDOWN then (lastNotificationTime, [])
  else
    (checkKeywordNotificationsWith host (sendNotification now) (lastNotificationTime, []) now topics
      readTopicIds notifyKeywords).2

/-- The texts of the notifications in a log of effects, in order. -/
def notified : List Effect → List JsString
  | [] => []
  | .showNotification text :: log => text :: notified log
  | _ :: log => notified log

/-- The candidates as the specification words them: created less than 14,400,000 ms before
`now`, not in the read set, and with a lower-cased title that contains a piece of the
comma-separated spec that is not empty once trimmed and lower-cased. -/
def specCandidate (host : Host) (now : Int) (readTopicIds : JsSet) (spec : JsString)
    (t : Topic) : Bool :=
  (match t.created_at with
    | some created => decide (now - created < 14400000)
    | none => false) &&
  !readTopicIds.contains t.id &&
  (split ',' spec).any (fun piece =>
    !(host.toLowerCase (trim piece)).isEmpty &&
      includes (host.toLowerCase t.title) (host.toLowerCase (trim piece)))

/-- A topic created at the time 100000 whose title has capital letters outside the ASCII
range. -/
def umlautTopic : Topic :=
  { id := 1, title := str "ÄPFEL im Angebot", created_at := some 100000 }

/-- Two topics, the first with a title that contains `ÖL`. -/
def umlautTopics : List Topic :=
  [{ id := 1, title := str "Ärger mit ÖL" }, { id := 2, title := str "plain" }]

/-- The default configuration with the black list `öl`. -/
def umlautConfig : Config := { DEFAULT_CONFIG with keywordBlacklist := str "öl" }

/-- The default configuration with the notification keyword `ai`. -/
def aiConfig : Config := { DEFAULT_CONFIG with notifyKeywords := str "ai" }

/-- The topic of the scenario: created at the time 100000, with the title `AI news`. -/
def aiTopic : Topic := { id := 1, title := str "AI news", created_at := some 100000 }

/-- A second recent topic that matches the keyword `ai`. -/
def aiTopic2 : Topic := { id := 2, title := str "Fair use", created_at := some 150000 }

/-- A side panel with nothing fetched yet and the notification keyword `ai`. -/
def aiPanel : Panel := { store := { Store.initial with config := aiConfig } }

/-- A successful response that carries the topic of the scenario. -/
def aiResponse : FetchResponse where
  success := true
  topics := [aiTopic]
  users := some []

/-! ## Bookmarks of the logged-in user (`components/bookmarks.js`, v4.5) -/

/-- The variables of `createBookmarksManager`: the set `bookmarkedTopicIds`, the flag
`isLoggedIn`, whether a callback `onBookmarkChange` is registered, and the calls of that
callback so far. -/
structure BookmarksManager where
  bookmarkedTopicIds : JsSet := []
  isLoggedIn : Bool := false
  onBookmarkChange : Bool := false
  changes : List (Int × Bool) := []
  deriving DecidableEq, Repr

/-- A remote call of `toggleBookmark`: `services.addBookmark(topicId)` or
`services.removeBookmark(topicId)`. -/
inductive BookmarkCall where
  | addBookmark (topicId : Int)
  | removeBookmark (topicId : Int)
  deriving DecidableEq, Repr

/-- A result object: what a remote call resolves to, and what `toggleBookmark` returns. -/
structure ToggleResult where
  success : Bool
  bookmarked : Option Bool := none
  error : Option JsString := none
  deriving DecidableEq, Repr

/-- Where `toggleBookmark` stands at its first suspension: it has returned, or it awaits a
remote call. -/
inductive ToggleStart where
  | returned (result : ToggleResult)
  | awaiting (call : BookmarkCall)
  deriving DecidableEq, Repr

namespace toggleBookmark

/-- The method `toggleBookmark(topicId)` up to its `await`: the variables at that point, and
the remote call that has been issued, if any. -/
def start (m : BookmarksManager) (topicId : Int) : BookmarksManager × ToggleStart :=
  if !m.isLoggedIn then (m, .returned { success := false, error := some (str "NOT_LOGGED_IN") })
  else if m.bookmarkedTopicIds.has topicId then (m, .awaiting (.removeBookmark topicId))
  else (m, .awaiting (.addBookmark topicId))

/-- The method `toggleBookmark(topicId)` from the point where its remote call resolves to
`result`, on the variables as they are then: the variables afterwards and the returned
value. -/
def resume (m : BookmarksManager) (call : BookmarkCall) (result : ToggleResult) :
    BookmarksManager × ToggleResult :=
  match call with
  | .removeBookmark topicId =>
    if result.success then
      ({ m with
          bookmarkedTopicIds := m.bookmarkedTopicIds.delete topicId
          changes := if m.onBookmarkChange then m.changes ++ [(topicId, false)] else m.changes },
        { success := true, bookmarked := some false })
    else (m, result)
  | .addBookmark topicId =>
    if result.success then
      ({ m with
          bookmarkedTopicIds := m.bookmarkedTopicIds.add topicId
          changes := if m.onBookmarkChange then m.changes ++ [(topicId, true)] else m.changes },
        { success := true, bookmarked := some true })
    else (m, result)

end toggleBookmark

/-- The method `toggleBookmark(topicId)` when nothing else runs while it awaits, with the
remote side as a function from the call to its result. -/
def toggleBookmark (m : BookmarksManager) (topicId : Int) (remote : BookmarkCall → ToggleResult) :
    BookmarksManager × ToggleResult :=
  match toggleBookmark.start m topicId with
  | (m1, .returned result) => (m1, result)
  | (m1, .awaiting call) => toggleBookmark.resume m1 call (remote call)

/-- A logged-in bookmarks manager that holds the bookmark 7. -/
def loggedInManager : BookmarksManager :=
  { bookmarkedTopicIds := [7], isLoggedIn := true, onBookmarkChange := true }

/-! ## Overlapping toggles, and loading the bookmarks -/

/-- A run of the bookmarks manager: its variables, the remote calls that have been issued
and have not resolved yet, oldest first, and the values the `toggleBookmark` calls have
returned so far. -/
structure ToggleSession where
  manager : BookmarksManager
  inFlight : List BookmarkCall := []
  results : List ToggleResult := []
  deriving DecidableEq, Repr

/-- An event of a run: `toggleBookmark(topicId)` is invoked, or the remote call at a position
of the in-flight list resolves to a result. -/
inductive ToggleEvent where
  | invoke (topicId : Int)
  | resolve (index : Nat) (result : ToggleResult)
  deriving DecidableEq, Repr

/-- The run after one event: an invocation runs up to its `await`, a resolution runs the
rest of the invocation that issued the call. -/
def ToggleSession.step (s : ToggleSession) : ToggleEvent → ToggleSession
  | .invoke topicId =>
    match toggleBookmark.start s.manager topicId with
    | (m, .returned result) => { s with manager := m, results := s.results ++ [result] }
    | (m, .awaiting call) => { s with manager := m, inFlight := s.inFlight ++ [call] }
  | .resolve index result =>
    match s.inFlight.get? index with
    | none => s
    | some call =>
      { manager := (toggleBookmark.resume s.manager call result).1
        inFlight := s.inFlight.eraseIdx index
        results := s.results ++ [(toggleBookmark.resume s.manager call result).2] }

/-- The run after a sequence of events. -/
def ToggleSession.run (s : ToggleSession) (events : List ToggleEvent) : ToggleSession :=
  events.foldl ToggleSession.step s

/-- A bookmark of the remote list, with the two properties `loadBookmarks` reads. -/
structure RemoteBookmark where
  topic_id : Option Int := none
  id : Int := 0
  deriving DecidableEq, Repr

/-- What `services.getBookmarks()` resolves to. -/
structure BookmarksResult where
  success : Bool
  bookmarks : Option (List RemoteBookmark) := none
  deriving DecidableEq, Repr

/-- The expression `b.topic_id || b.id`: the topic id unless it is absent or `0`. -/
def bookmarkTopicId (b : RemoteBookmark) : Int :=
  match b.topic_id with
  | some n => if n ≠ 0 then n else b.id
  | none => b.id

/-- The method `loadBookmarks()` of the bookmarks manager of v4.5, with what the fetch
resolves to (it is made only when logged in): the variables afterwards and the returned
set. An array, also an empty one, is truthy. -/
def BookmarksManager.loadBookmarks (m : BookmarksManager) (result : BookmarksResult) :
    BookmarksManager × JsSet :=
  if !m.isLoggedIn then (m, [])
  else
    match result.success, result.bookmarks with
    | true, some bookmarks =>
      let ids := bookmarks.map bookmarkTopicId
      ({ m with bookmarkedTopicIds := JsSet.ofArray ids }, JsSet.ofArray ids)
    | _, _ => (m, [])

/-- The method `isBookmarked(topicId)` of the bookmarks manager. -/
def BookmarksManager.isBookmarked (m : BookmarksManager) (topicId : Int) : Bool :=
  m.bookmarkedTopicIds.has topicId

/-- What `fetchUserBookmarks()` resolves to in the refactored panel. -/
structure UserBookmarksResponse where
  success : Bool
  bookmarks : List Topic := []
  deriving DecidableEq, Repr

/-- The function `refreshBookmarksFromServer()` of `services/api.js` (refactor), with what
the fetch resolves to (`none`: `undefined`). -/
def refreshBookmarksFromServer (response : Option UserBookmarksResponse) : List Topic :=
  match response with
  | some r => if r.success then r.bookmarks else []
  | none => []

/-! ## Persistent storage (`state/storage.js`) -/

/-- An entry of the local bookmark list, as `addBookmark` of `state/storage.js` builds it. -/
structure StoredBookmark where
  id : Int
  title : JsString := []
  slug : Option JsString := none
  created_at : Int := 0
  saved_at : Int := 0
  deriving DecidableEq, Repr

/-- The content of `chrome.storage.local`, by key; `none` is an absent key. The embedding
takes every read and write of the storage to succeed. -/
structure Storage where
  config : Option PartialConfig := none
  userSettings : Option PartialUserSettings := none
  readTopicIds : Option (List Int) := none
  bookmarks : Option (List StoredBookmark) := none
  deriving DecidableEq, Repr

/-- What `loadAllData()` resolves to (the key `bookmarks` is read by the refactored panel
only). -/
structure AllData where
  config : PartialConfig
  userSettings : PartialUserSettings
  readTopicIds : JsSet
  bookmarks : List StoredBookmark
  deriving DecidableEq, Repr

namespace storage

/-- The function `loadReadTopicIds()`: a stored array, also an empty one, is truthy. -/
def loadReadTopicIds (st : Storage) : JsSet :=
  match st.readTopicIds with
  | some ids => JsSet.ofArray ids
  | none => []

/-- The function `saveReadTopicIds(topicIds)`: the stored value is `Array.from(topicIds)`,
the elements of the set in insertion order. -/
def saveReadTopicIds (st : Storage) (topicIds : JsSet) : Storage :=
  { st with readTopicIds := some topicIds }

/-- The function `loadAllData()`. -/
def loadAllData (st : Storage) : AllData where
  config := st.config.getD {}
  userSettings := st.userSettings.getD {}
  readTopicIds :=
    match st.readTopicIds with
    | some ids => JsSet.ofArray ids
    | none => []
  bookmarks := st.bookmarks.getD []

/-- The function `loadBookmarks()` of `state/storage.js`. -/
def loadBookmarks (st : Storage) : List StoredBookmark := st.bookmarks.getD []

/-- The function `saveBookmarks(bookmarks)`. -/
def saveBookmarks (st : Storage) (bookmarks : List StoredBookmark) : Storage :=
  { st with bookmarks := some bookmarks }

/-- The function `addBookmark(topic)` at the time `now`, with the property `slug` of the
topic, which the record `Topic` does not carry: the storage afterwards and the returned
list. A topic without a usable `created_at` gets the time `now`. -/
def addBookmark (now : Int) (st : Storage) (topic : Topic) (slug : Option JsString) :
    Storage × List StoredBookmark :=
  let bookmarks := loadBookmarks st
  if (bookmarks.find? (fun b => b.id == topic.id)).isNone then
    let added : List StoredBookmark :=
      { id := topic.id, title := topic.title, slug := slug,
        created_at := topic.created_at.getD now, saved_at := now } :: bookmarks
    (saveBookmarks st added, added)
  else (st, bookmarks)

/-- The function `removeBookmark(topicId)`: the storage afterwards and the returned list. -/
def removeBookmark (st : Storage) (topicId : Int) : Storage × List StoredBookmark :=
  let filtered := (loadBookmarks st).filter (fun b => b.id != topicId)
  (saveBookmarks st filtered, filtered)

/-- The function `isBookmarked(topicId)` of `state/storage.js`. -/
def isBookmarked (st : Storage) (topicId : Int) : Bool :=
  (loadBookmarks st).any (fun b => b.id == topicId)

end storage

/-! ## Clicks on a topic (`events/index.js`, `index.js`) -/

/-- The side panel for the click handlers: the store, the storage, the read reports sent to
the site (topic id and post number), the tabs opened (topic id and whether active), and the
effects of the list refreshes. -/
structure App where
  store : State
  storage : Storage := {}
  reports : List (Int × Nat) := []
  tabs : List (Int × Bool) := []
  view : List Effect := []
  deriving DecidableEq, Repr

/-- The method `handleTopicClick(topicId)` at the time `now`, with the settings of the filter
bar. The write to the storage is issued in the call, with `Array.from` of the read set as
it is then. -/
def handleTopicClick (host : Host) (now : Int) (settings : UserSettings) (a : App)
    (topicId : Int) : App :=
  match a.store.topics.find? (fun t => t.id == topicId) with
  | none => a
  | some topic =>
    let config := a.store.config
    let store := Store.markAsRead a.store topicId
    { store := store
      reports :=
        if config.syncReadStatus && topic.highest_post_number != 0 then
          a.reports ++ [(topicId, topic.highest_post_number)]
        else a.reports
      storage := storage.saveReadTopicIds a.storage store.readTopicIds
      tabs := a.tabs ++ [(topicId, !decide (config.clickBehavior = str "background"))]
      view := a.view ++ refreshTopicList host now store settings }

/-- The function `window.__onToggleRead(id)` of `index.js`. -/
def onToggleRead (host : Host) (now : Int) (settings : UserSettings) (a : App) (id : Int) : App :=
  let store := Store.unmarkAsRead a.store id
  { a with
    store := store
    storage := storage.saveReadTopicIds a.storage store.readTopicIds
    view := a.view ++ refreshTopicList host now store settings }

/-- A side panel whose store holds topic 7 (read) and topic 8 with 12 posts, with an empty
storage. -/
def exampleApp : App :=
  { store :=
      { Store.initial with
        topics := [{ id := 7, title := str "old topic" },
          { id := 8, title := str "new topic", highest_post_number := 12 }]
        readTopicIds := [7] } }

/-- A storage that holds the bookmarks 4 and 6. -/
def exampleStorage : Storage :=
  { bookmarks := some [{ id := 4, title := str "four" }, { id := 6, title := str "six" }] }

/-! ## The constructor of the store (`state/index.js`), on objects with keys -/

/-- A value of a configuration or settings key. -/
inductive JsValue where
  | bool (b : Bool)
  | num (n : Int)
  | text (s : JsString)
  | texts (l : List JsString)
  deriving DecidableEq, Repr, Inhabited

/-- An object: its own properties in order, one per key. -/
abbrev JsObject := List (JsString × JsValue)

namespace JsObject

/-- Whether the object has the key. -/
def hasKey (o : JsObject) (k : JsString) : Bool := o.any (fun kv => kv.1 == k)

/-- The value of a key, if the object has it. -/
def get (o : JsObject) (k : JsString) : Option JsValue :=
  (o.find? (fun kv => kv.1 == k)).map (fun kv => kv.2)

/-- The assignment `o[k] = v`: the value of a present key is replaced in place, a new key
goes last. -/
def assign : JsObject → JsString → JsValue → JsObject
  | [], k, v => [(k, v)]
  | (k0, v0) :: o, k, v => if k0 = k then (k, v) :: o else (k0, v0) :: assign o k v

/-- The object spread `{ ...a, ...b }`: the properties of `a`, then those of `b` assigned
one after the other. -/
def spread (a b : JsObject) : JsObject := b.foldl (fun o kv => assign o kv.1 kv.2) a

end JsObject

/-- The constant `DEFAULT_CONFIG` of `utils/constants.js`, key by key. -/
def DEFAULT_CONFIG_OBJECT : JsObject :=
  [(str "pollingInterval", .num 30), (str "lowDataMode", .bool false),
   (str "blockCategories", .texts []), (str "keywordBlacklist", .text (str "")),
   (str "qualityFilter", .bool false), (str "hoverPreview", .bool true),
   (str "clickBehavior", .text (str "newTab")), (str "readStatusAction", .text (str "fade")),
   (str "showBadge", .bool true), (str "notifyKeywords", .text (str "")),
   (str "fontSize", .text (str "medium")), (str "compactMode", .bool false),
   (str "themeMode", .text (str "system")), (str "syncReadStatus", .bool true)]

/-- The constant `DEFAULT_USER_SETTINGS` of `utils/constants.js`, key by key. -/
def DEFAULT_USER_SETTINGS_OBJECT : JsObject :=
  [(str "autoRefreshEnabled", .bool true), (str "categoryFilter", .text (str "all")),
   (str "subCategoryFilter", .num 4), (str "sortFilter", .text (str "latest"))]

/-- The argument `initialState` of the constructor: its own properties, `none` for a
property it does not have. -/
structure InitialState where
  config : Option JsObject := none
  userSettings : Option JsObject := none
  topics : Option (List Topic) := none
  readTopicIds : Option JsSet := none
  usersMap : Option (JsMap User) := none
  autoRefreshEnabled : Option Bool := none
  deriving DecidableEq, Repr

/-- The field `state` as the constructor builds it, with the configuration and the
settings as objects. -/
structure ConstructedState where
  config : JsObject
  userSettings : JsObject
  topics : List Topic
  readTopicIds : JsSet
  usersMap : JsMap User
  autoRefreshEnabled : Bool
  deriving DecidableEq, Repr

/-- The expression `{ ...DEFAULT_CONFIG, ...initialState.config }` of the constructor (the
spread of `undefined` adds nothing). -/
def mergedConfig (initialState : InitialState) : JsObject :=
  JsObject.spread DEFAULT_CONFIG_OBJECT (initialState.config.getD [])

/-- The expression `{ ...DEFAULT_USER_SETTINGS, ...initialState.userSettings }`. -/
def mergedUserSettings (initialState : InitialState) : JsObject :=
  JsObject.spread DEFAULT_USER_SETTINGS_OBJECT (initialState.userSettings.getD [])

/-- The constructor `new Store(initialState)`: the object literal lists `config` and
`userSettings` (merged with the defaults), `topics`, `readTopicIds`, `usersMap`,
`autoRefreshEnabled`, and ends with `...initialState`, which assigns every own property of
`initialState` over the property listed before. -/
def createStore (initialState : InitialState) : ConstructedState where
  config := initialState.config.getD (mergedConfig initialState)
  userSettings := initialState.userSettings.getD (mergedUserSettings initialState)
  topics := initialState.topics.getD []
  readTopicIds := initialState.readTopicIds.getD []
  usersMap := initialState.usersMap.getD []
  autoRefreshEnabled := initialState.autoRefreshEnabled.getD true

/-- An initial state that sets one key of the configuration. -/
def partialInitialState : InitialState :=
  { config := some [(str "pollingInterval", .num 60)] }

/-- A successful response of the gateway for a payload without users: `users: data.users`
is `undefined`. -/
def noUsersResponse : FetchResponse where
  success := true
  topics := [{ id := 1, title := str "AI news", created_at := some 1000 }]
  users := none

/-! ## The string methods on examples -/

/-- The string methods of the embedding, evaluated as JavaScript evaluates them. -/
theorem string_methods_examples :
    split ',' (str "spam,") = [str "spam", str ""] ∧
    split ',' (str "") = [str ""] ∧
    split ',' (str "a,,b") = [str "a", str "", str "b"] ∧
    trim (str "  a b \n") = str "a b" ∧
    latin1Host.toLowerCase (str "AbC") = str "abc" ∧
    latin1Host.toLowerCase (str "Ärger mit ÖL ×") = str "ärger mit öl ×" ∧
    includes (str "hello") (str "") = true ∧
    includes (str "hello") (str "ell") = true ∧
    includes (str "hello") (str "elo") = false ∧
    parseKeywords latin1Host (str " AI , ,rust,") = [str "ai", str "rust"] := by
  decide

/-- The method `includes` is the substring relation: `k` occurs in `s` exactly when `s` is
some characters, then `k`, then some characters. -/
theorem includes_iff (s k : JsString) : includes s k = true ↔ ∃ a b, s = a ++ k ++ b := by
  have hstart : ∀ (s k : JsString), startsWith s k = true ↔ ∃ b, s = k ++ b := by
    intro s k
    induction k generalizing s with
    | nil => cases s <;> simp [startsWith]
    | cons d k ih =>
      cases s with
      | nil => simp [startsWith]
      | cons c s =>
        simp only [startsWith, Bool.and_eq_true, beq_iff_eq, ih, List.cons_append,
          List.cons.injEq]
        constructor
        · rintro ⟨rfl, b, rfl⟩
          exact ⟨b, rfl, rfl⟩
        · rintro ⟨b, rfl, rfl⟩
          exact ⟨rfl, b, rfl⟩
  induction s with
  | nil =>
    rw [includes, hstart]
    constructor
    · rintro ⟨b, hb⟩
      exact ⟨[], b, by simpa using hb⟩
    · rintro ⟨a, b, hab⟩
      have h1 : a = [] := by
        cases a with
        | nil => rfl
        | cons x xs => simp at hab
      subst h1
      exact ⟨b, by simpa using hab⟩
  | cons c s ih =>
    rw [includes, Bool.or_eq_true, hstart]
    constructor
    · rintro (⟨b, hb⟩ | hinc)
      · exact ⟨[], b, by simpa using hb⟩
      · obtain ⟨a, b, hab⟩ := ih.mp hinc
        exact ⟨c :: a, b, by simp [hab]⟩
    · rintro ⟨a, b, hab⟩
      cases a with
      | nil => exact Or.inl ⟨b, by simpa using hab⟩
      | cons x xs =>
        simp only [List.cons_append, List.cons.injEq] at hab
        exact Or.inr (ih.mpr ⟨xs, b, by simpa using hab.2⟩)

/-! ## Lemmas on sets and maps -/

theorem JsSet.has_iff (s : JsSet) (x : Int) : JsSet.has s x = true ↔ x ∈ s := by
  simp [JsSet.has]

theorem JsSet.mem_add (s : JsSet) (x y : Int) : y ∈ JsSet.add s x ↔ y ∈ s ∨ y = x := by
  unfold JsSet.add
  split
  · rename_i h
    rw [JsSet.has_iff] at h
    constructor
    · intro hy; exact Or.inl hy
    · rintro (hy | rfl)
      · exact hy
      · exact h
  · simp

theorem JsSet.mem_foldl_add (xs : List Int) (acc : JsSet) (y : Int) :
    y ∈ xs.foldl JsSet.add acc ↔ y ∈ acc ∨ y ∈ xs := by
  induction xs generalizing acc with
  | nil => simp
  | cons x xs ih =>
    rw [List.foldl_cons, ih, JsSet.mem_add]
    simp only [List.mem_cons]
    tauto

theorem JsSet.mem_ofArray (xs : List Int) (y : Int) : y ∈ JsSet.ofArray xs ↔ y ∈ xs := by
  simp [JsSet.ofArray, JsSet.mem_foldl_add]

theorem JsSet.mem_delete (s : JsSet) (x y : Int) : y ∈ JsSet.delete s x ↔ y ∈ s ∧ y ≠ x := by
  simp [JsSet.delete]

/-- The ids the store holds before `addTopics`, as the callback of its filter sees them. -/
theorem Store.existingIds_has (ts : List Topic) (x : Int) :
    JsSet.has (JsSet.ofArray (ts.map (fun t => t.id))) x = true ↔ ∃ u ∈ ts, u.id = x := by
  rw [JsSet.has_iff, JsSet.mem_ofArray]
  simp

/-- The value `addTopics` returns, with the membership test written on the held topics. -/
theorem Store.addTopics_snd (s : State) (N : List Topic) :
    (Store.addTopics s N).2 = N.filter (fun t => decide (∀ u ∈ s.topics, u.id ≠ t.id)) := by
  have hfilter : N.filter (fun t => !JsSet.has (JsSet.ofArray (s.topics.map (fun t => t.id))) t.id)
      = N.filter (fun t => decide (∀ u ∈ s.topics, u.id ≠ t.id)) := by
    apply List.filter_congr
    intro t _
    have h := Store.existingIds_has s.topics t.id
    by_cases hx : ∃ u ∈ s.topics, u.id = t.id
    · have h1 := h.mpr hx
      have h2 : ¬ ∀ u ∈ s.topics, u.id ≠ t.id := by
        obtain ⟨u, hu, he⟩ := hx
        exact fun hall => hall u hu he
      simp [h1, h2]
    · have h1 : JsSet.has (JsSet.ofArray (s.topics.map (fun t => t.id))) t.id = false := by
        cases hc : JsSet.has (JsSet.ofArray (s.topics.map (fun t => t.id))) t.id
        · rfl
        · exact absurd (h.mp hc) hx
      have h2 : ∀ u ∈ s.topics, u.id ≠ t.id := fun u hu he => hx ⟨u, hu, he⟩
      simp only [h1, Bool.not_false]
      exact (decide_eq_true h2).symm
  unfold Store.addTopics
  simp only []
  split <;> exact hfilter

/-- The topics after `addTopics`: the returned topics in front of the held ones. -/
theorem Store.addTopics_topics (s : State) (N : List Topic) :
    (Store.addTopics s N).1.topics = (Store.addTopics s N).2 ++ s.topics := by
  unfold Store.addTopics
  simp only []
  split
  · rfl
  · rename_i h
    have : (N.filter (fun t => !JsSet.has (JsSet.ofArray (s.topics.map (fun t => t.id))) t.id))
        = [] := by
      apply List.eq_nil_of_length_eq_zero
      omega
    simp [this]

/-- What `addTopics` leaves alone: every field but the topics. -/
theorem Store.addTopics_frame (s : State) (N : List Topic) :
    (Store.addTopics s N).1 = { s with topics := (Store.addTopics s N).1.topics } := by
  unfold Store.addTopics
  simp only []
  split <;> rfl

theorem JsMap.mem_set {α : Type} (m : JsMap α) (k : Int) (v : α) (e : Int × α)
    (h : e ∈ JsMap.set m k v) : e ∈ m ∨ e = (k, v) := by
  induction m with
  | nil =>
    simp only [JsMap.set, List.mem_singleton] at h
    exact Or.inr h
  | cons hd m ih =>
    obtain ⟨k0, v0⟩ := hd
    simp only [JsMap.set] at h
    split at h
    · rcases List.mem_cons.mp h with h | h
      · exact Or.inr h
      · exact Or.inl (List.mem_cons_of_mem _ h)
    · rcases List.mem_cons.mp h with h | h
      · exact Or.inl (h ▸ List.mem_cons_self _ _)
      · rcases ih h with h | h
        · exact Or.inl (List.mem_cons_of_mem _ h)
        · exact Or.inr h

theorem JsMap.mem_foldl_set {α : Type} (es : List (Int × α)) (acc : JsMap α) (e : Int × α)
    (h : e ∈ es.foldl (fun m e => JsMap.set m e.1 e.2) acc) : e ∈ acc ∨ e ∈ es := by
  induction es generalizing acc with
  | nil => exact Or.inl h
  | cons x es ih =>
    rcases ih _ h with h | h
    · rcases JsMap.mem_set _ _ _ _ h with h | h
      · exact Or.inl h
      · exact Or.inr (h ▸ List.mem_cons_self _ _)
    · exact Or.inr (List.mem_cons_of_mem _ h)

/-- Every entry of the map `handleManualRefresh` builds is a user of the response under
its own id. -/
theorem JsMap.mem_ofEntries_users (users : List User) (e : Int × User)
    (h : e ∈ JsMap.ofEntries (users.map (fun u => (u.id, u)))) : e.1 = e.2.id ∧ e.2 ∈ users := by
  rcases JsMap.mem_foldl_set _ _ _ h with h | h
  · simp at h
  · obtain ⟨u, hu, rfl⟩ := List.mem_map.mp h
    exact ⟨rfl, hu⟩

/-- The state `handleManualRefresh` leaves after a successful fetch that carries users. -/
theorem handleManualRefresh_store_of_success (host : Host) (now : Int) (p : Panel)
    (settings : UserSettings)
    (r : FetchResponse) (users : List User) (hb : settings.categoryFilter ≠ str "bookmarks")
    (hs : r.success = true) (hu : r.users = some users) :
    (handleManualRefresh host now p settings (.ok r)).store =
      Store.setTopics p.store r.topics (some (JsMap.ofEntries (users.map (fun u => (u.id, u))))) := by
  simp [handleManualRefresh, refreshBody, hb, hs, hu]

/-! ## Merge engine -/

/-- C1: `Store.setTopics(T, U)` with a users map `U` is a wholesale replace: whatever the
state before, the topics afterwards are exactly `T`, in the same order, and the users map is
exactly `U`, so nothing of the previous topics or users survives unless it is in `T` or `U`.
`handleManualRefresh` makes this call after a successful fetch that carries users, with the
topics of the response and the map of its users keyed by their id. -/
theorem C1_setTopics_replaces_wholesale (host : Host) :
    (∀ (s : State) (T : List Topic) (U : JsMap User),
      (Store.setTopics s T (some U)).topics = T ∧
      (Store.setTopics s T (some U)).usersMap = U) ∧
    (∀ (now : Int) (p : Panel) (settings : UserSettings) (r : FetchResponse) (users : List User),
      settings.categoryFilter ≠ str "bookmarks" → r.success = true → r.users = some users →
      (handleManualRefresh host now p settings (.ok r)).store.topics = r.topics ∧
      (handleManualRefresh host now p settings (.ok r)).store.usersMap =
        JsMap.ofEntries (users.map (fun u => (u.id, u))) ∧
      ∀ e ∈ (handleManualRefresh host now p settings (.ok r)).store.usersMap,
        e.1 = e.2.id ∧ e.2 ∈ users) := by
  refine ⟨fun s T U => ⟨rfl, rfl⟩, ?_⟩
  intro now p settings r users hb hs hu
  rw [handleManualRefresh_store_of_success host now p settings r users hb hs hu]
  exact ⟨rfl, rfl, fun e he => JsMap.mem_ofEntries_users users e he⟩

/-- C1 at a store that holds topic 7 and user 3: after the refresh with `exampleResponse` the
store holds topic 1 only and the users 5 and 6 only. -/
theorem C1_setTopics_replaces_wholesale_witness :
    (handleManualRefresh latin1Host 2000 { store := exampleState } DEFAULT_USER_SETTINGS
        (.ok exampleResponse)).store.topics
      = [{ id := 1, title := str "AI news", created_at := some 1000 }] ∧
    (handleManualRefresh latin1Host 2000 { store := exampleState } DEFAULT_USER_SETTINGS
        (.ok exampleResponse)).store.usersMap
      = [(5, { id := 5, trust_level := 2 }), (6, { id := 6, admin := true })] := by
  have h := (C1_setTopics_replaces_wholesale latin1Host).2 2000 { store := exampleState }
    DEFAULT_USER_SETTINGS exampleResponse
    [{ id := 5, trust_level := 2 }, { id := 6, admin := true }] (by decide) rfl rfl
  exact ⟨h.1, h.2.1.trans (by decide)⟩

/-- A merge leaves the read set alone. -/
theorem Store.step_merge_readTopicIds (s : State) (c : StoreCall) (h : c.isMerge = true) :
    (Store.step s c).readTopicIds = s.readTopicIds := by
  cases c with
  | setTopics ts m => cases m <;> rfl
  | addTopics ts =>
    show (Store.addTopics s ts).1.readTopicIds = s.readTopicIds
    rw [Store.addTopics_frame]
  | _ => simp [StoreCall.isMerge] at h

/-- The only calls after which an id of the read set is gone. -/
theorem Store.step_removes (s : State) (c : StoreCall) (x : Int) (hx : x ∈ s.readTopicIds)
    (hgone : x ∉ (Store.step s c).readTopicIds) :
    c = .unmarkAsRead x ∨ ∃ ids, c = .setReadTopicIds ids ∧ x ∉ ids := by
  cases c with
  | setTopics ts m =>
    rw [Store.step_merge_readTopicIds s (.setTopics ts m) rfl] at hgone
    exact absurd hx hgone
  | addTopics ts =>
    rw [Store.step_merge_readTopicIds s (.addTopics ts) rfl] at hgone
    exact absurd hx hgone
  | updateConfig q => exact absurd hx hgone
  | updateUserSettings q => exact absurd hx hgone
  | setAutoRefresh b => exact absurd hx hgone
  | markAsRead i =>
    exact absurd ((JsSet.mem_add s.readTopicIds i x).mpr (Or.inl hx)) hgone
  | unmarkAsRead i =>
    left
    by_cases hi : x = i
    · rw [hi]
    · exact absurd ((JsSet.mem_delete s.readTopicIds i x).mpr ⟨hx, hi⟩) hgone
  | setReadTopicIds ids =>
    right
    exact ⟨ids, rfl, fun hm => hgone ((JsSet.mem_ofArray ids x).mpr hm)⟩

/-- C2: merges never shrink the read set. After every sequence of `setTopics` and `addTopics`
calls, with arbitrary arguments, `readTopicIds` is what it was before the sequence; and
whenever an id of the read set is gone after a sequence of store calls of any kind, one of
the calls was `unmarkAsRead` of that id or a `setReadTopicIds`. -/
theorem C2_merges_never_shrink_read_set :
    (∀ (s : State) (calls : List StoreCall), (∀ c ∈ calls, c.isMerge = true) →
      (Store.run s calls).readTopicIds = s.readTopicIds) ∧
    (∀ (s : State) (calls : List StoreCall) (x : Int), x ∈ s.readTopicIds →
      x ∉ (Store.run s calls).readTopicIds →
      ∃ c ∈ calls, c = .unmarkAsRead x ∨ ∃ ids, c = .setReadTopicIds ids) := by
  constructor
  · intro s calls
    induction calls generalizing s with
    | nil => intro _; rfl
    | cons c calls ih =>
      intro h
      have hc := h c (List.mem_cons_self _ _)
      have hrest : ∀ d ∈ calls, d.isMerge = true := fun d hd => h d (List.mem_cons_of_mem _ hd)
      show (Store.run (Store.step s c) calls).readTopicIds = s.readTopicIds
      rw [ih (Store.step s c) hrest, Store.step_merge_readTopicIds s c hc]
  · intro s calls
    induction calls generalizing s with
    | nil => intro x hx hgone; exact absurd hx hgone
    | cons c calls ih =>
      intro x hx hgone
      by_cases hstep : x ∈ (Store.step s c).readTopicIds
      · obtain ⟨d, hd, hprop⟩ := ih (Store.step s c) x hstep hgone
        exact ⟨d, List.mem_cons_of_mem _ hd, hprop⟩
      · refine ⟨c, List.mem_cons_self _ _, ?_⟩
        rcases Store.step_removes s c x hx hstep with h | ⟨ids, h, _⟩
        · exact Or.inl h
        · exact Or.inr ⟨ids, h⟩

/-- C2 at a store whose read set is 7, 9: a replace, an append and another replace leave the
read set 7, 9. -/
theorem C2_merges_never_shrink_read_set_witness :
    (Store.run exampleState
      [.setTopics [{ id := 9 }] none, .addTopics [{ id := 7 }, { id := 8 }],
       .setTopics [] (some [])]).readTopicIds = [7, 9] :=
  C2_merges_never_shrink_read_set.1 exampleState
    [.setTopics [{ id := 9 }] none, .addTopics [{ id := 7 }, { id := 8 }],
     .setTopics [] (some [])] (by decide)

/-- What `handleManualRefresh` does when the fetch resolves without success. -/
theorem handleManualRefresh_of_failure (host : Host) (now : Int) (p : Panel)
    (settings : UserSettings)
    (r : FetchResponse) (hb : settings.categoryFilter ≠ str "bookmarks")
    (hs : r.success = false) :
    handleManualRefresh host now p settings (.ok r) =
      { p with log := p.log ++ [.loading true, .consoleError (failureMessage r),
          .showError (failureMessage r), .loading false] } := by
  simp [handleManualRefresh, refreshBody, hb, hs, JsError.message]

/-- C3: a failed fetch is a no-op merge. When the fetch made by `handleManualRefresh` resolves
with `success = false`, the store afterwards is the store before (its topics, users map, read
set and config included), the notification manager has not been consulted (its
`lastNotificationTime` is unchanged and no notification is shown), and the error text
`response.error || '获取数据失败'` is passed to `showError`: the call adds exactly the four
effects loading on, console error, `showError`, loading off. -/
theorem C3_failed_fetch_is_noop (host : Host) (now : Int) (p : Panel) (settings : UserSettings)
    (r : FetchResponse) (hb : settings.categoryFilter ≠ str "bookmarks")
    (hs : r.success = false) :
    (handleManualRefresh host now p settings (.ok r)).store = p.store ∧
    (handleManualRefresh host now p settings (.ok r)).store.topics = p.store.topics ∧
    (handleManualRefresh host now p settings (.ok r)).store.usersMap = p.store.usersMap ∧
    (handleManualRefresh host now p settings (.ok r)).store.readTopicIds = p.store.readTopicIds ∧
    (handleManualRefresh host now p settings (.ok r)).store.config = p.store.config ∧
    (handleManualRefresh host now p settings (.ok r)).lastNotificationTime = p.lastNotificationTime ∧
    (handleManualRefresh host now p settings (.ok r)).log =
      p.log ++ [.loading true, .consoleError (failureMessage r),
        .showError (failureMessage r), .loading false] ∧
    (∀ text, Effect.showNotification text ∈ (handleManualRefresh host now p settings (.ok r)).log →
      Effect.showNotification text ∈ p.log) ∧
    Effect.showError (failureMessage r) ∈ (handleManualRefresh host now p settings (.ok r)).log := by
  rw [handleManualRefresh_of_failure host now p settings r hb hs]
  refine ⟨rfl, rfl, rfl, rfl, rfl, rfl, rfl, ?_, ?_⟩
  · intro text h
    simpa using h
  · simp

/-- C3 at the example store, with a response that failed with `HTTP 500`: the store is kept
and the text `HTTP 500` is shown as the error. -/
theorem C3_failed_fetch_is_noop_witness :
    (handleManualRefresh latin1Host 2000 { store := exampleState } DEFAULT_USER_SETTINGS
      (.ok { success := false, error := some (str "HTTP 500") })).store = exampleState ∧
    Effect.showError (str "HTTP 500") ∈
      (handleManualRefresh latin1Host 2000 { store := exampleState } DEFAULT_USER_SETTINGS
        (.ok { success := false, error := some (str "HTTP 500") })).log :=
  have h := C3_failed_fetch_is_noop latin1Host 2000 { store := exampleState } DEFAULT_USER_SETTINGS
    { success := false, error := some (str "HTTP 500") } (by decide) rfl
  ⟨h.1, h.2.2.2.2.2.2.2.2⟩

/-- After `addTopics(N)` the store holds every id of `N`. -/
theorem Store.addTopics_holds (s : State) (N : List Topic) (t : Topic) (ht : t ∈ N) :
    ∃ u ∈ (Store.addTopics s N).1.topics, u.id = t.id := by
  rw [Store.addTopics_topics, Store.addTopics_snd]
  by_cases h : ∀ u ∈ s.topics, u.id ≠ t.id
  · exact ⟨t, List.mem_append_left _ (List.mem_filter.mpr ⟨ht, decide_eq_true h⟩), rfl⟩
  · push_neg at h
    obtain ⟨u, hu, he⟩ := h
    exact ⟨u, List.mem_append_right _ hu, he⟩

/-- C4: merge is idempotent. `setTopics` with the same arguments twice leaves the state that
one call leaves (the same topics and users map); and after `addTopics(N)`, a second
`addTopics(N)` with the same list returns the empty list and leaves the store, its topics
included, unchanged. -/
theorem C4_merge_idempotent :
    (∀ (s : State) (T : List Topic) (U : Option (JsMap User)),
      Store.setTopics (Store.setTopics s T U) T U = Store.setTopics s T U ∧
      (Store.setTopics (Store.setTopics s T U) T U).topics = (Store.setTopics s T U).topics ∧
      (Store.setTopics (Store.setTopics s T U) T U).usersMap =
        (Store.setTopics s T U).usersMap) ∧
    (∀ (s : State) (N : List Topic),
      (Store.addTopics (Store.addTopics s N).1 N).2 = [] ∧
      (Store.addTopics (Store.addTopics s N).1 N).1 = (Store.addTopics s N).1 ∧
      (Store.addTopics (Store.addTopics s N).1 N).1.topics = (Store.addTopics s N).1.topics) := by
  constructor
  · intro s T U
    have h : Store.setTopics (Store.setTopics s T U) T U = Store.setTopics s T U := by
      cases U <;> rfl
    exact ⟨h, by rw [h], by rw [h]⟩
  · intro s N
    have hnil : (Store.addTopics (Store.addTopics s N).1 N).2 = [] := by
      rw [Store.addTopics_snd]
      apply List.filter_eq_nil_iff.mpr
      intro t ht
      obtain ⟨u, hu, he⟩ := Store.addTopics_holds s N t ht
      simp only [decide_eq_true_eq]
      exact fun hall => hall u hu he
    have htopics : (Store.addTopics (Store.addTopics s N).1 N).1.topics =
        (Store.addTopics s N).1.topics := by
      rw [Store.addTopics_topics, hnil, List.nil_append]
    have hstate : (Store.addTopics (Store.addTopics s N).1 N).1 = (Store.addTopics s N).1 := by
      rw [Store.addTopics_frame (Store.addTopics s N).1 N, htopics]
    exact ⟨hnil, hstate, htopics⟩

/-- The ids the store holds after `addTopics(N)`: the ids it held and the ids of `N`. -/
theorem Store.addTopics_ids (s : State) (N : List Topic) (x : Int) :
    (∃ u ∈ (Store.addTopics s N).1.topics, u.id = x) ↔
      (∃ u ∈ s.topics, u.id = x) ∨ ∃ t ∈ N, t.id = x := by
  constructor
  · rintro ⟨u, hu, he⟩
    rw [Store.addTopics_topics, Store.addTopics_snd] at hu
    rcases List.mem_append.mp hu with h | h
    · exact Or.inr ⟨u, (List.mem_filter.mp h).1, he⟩
    · exact Or.inl ⟨u, h, he⟩
  · rintro (⟨u, hu, he⟩ | ⟨t, ht, he⟩)
    · rw [Store.addTopics_topics]
      exact ⟨u, List.mem_append_right _ hu, he⟩
    · obtain ⟨u, hu, hid⟩ := Store.addTopics_holds s N t ht
      exact ⟨u, hu, hid.trans he⟩

/-- In a session of `addTopics` calls only, the store holds every id it held or has seen. -/
theorem Store.run_addTopics_ids (calls : List StoreCall) (s : State)
    (h : ∀ c ∈ calls, ∃ N, c = StoreCall.addTopics N) (x : Int) :
    (∃ u ∈ (Store.run s calls).topics, u.id = x) ↔
      (∃ u ∈ s.topics, u.id = x) ∨ x ∈ seenIds calls := by
  induction calls generalizing s with
  | nil => simp [Store.run, seenIds]
  | cons c calls ih =>
    obtain ⟨N, rfl⟩ := h _ (List.mem_cons_self _ _)
    have hrest : ∀ d ∈ calls, ∃ M, d = StoreCall.addTopics M :=
      fun d hd => h d (List.mem_cons_of_mem _ hd)
    show (∃ u ∈ (Store.run (Store.addTopics s N).1 calls).topics, u.id = x) ↔ _
    rw [ih (Store.addTopics s N).1 hrest, Store.addTopics_ids]
    have hmap : x ∈ N.map (fun t => t.id) ↔ ∃ t ∈ N, t.id = x := List.mem_map
    simp only [seenIds, List.mem_append, hmap]
    exact or_assoc

/-- C5 fails on the code: in a fresh session, topic 1 is merged by the first `setTopics`, the
second `setTopics` replaces it by topic 2, and `addTopics` then returns topic 1 as new,
although its id was present in a prior merge of the session (the delta of the specification
is empty there). -/
theorem C5_delta_not_session_monotonic :
    (∀ c ∈ [StoreCall.setTopics [{ id := 1 }] none, StoreCall.setTopics [{ id := 2 }] none],
      c.isMerge = true) ∧
    (Store.addTopics
      (Store.run Store.initial
        [.setTopics [{ id := 1 }] none, .setTopics [{ id := 2 }] none])
      [{ id := 1 }]).2 = [{ id := 1 }] ∧
    sessionDelta [.setTopics [{ id := 1 }] none, .setTopics [{ id := 2 }] none] [{ id := 1 }]
      = [] ∧
    ¬ ∀ (prior : List StoreCall) (fetched : List Topic), (∀ c ∈ prior, c.isMerge = true) →
      (Store.addTopics (Store.run Store.initial prior) fetched).2 = sessionDelta prior fetched := by
  refine ⟨by decide, by decide, by decide, ?_⟩
  intro h
  have h1 := h [.setTopics [{ id := 1 }] none, .setTopics [{ id := 2 }] none] [{ id := 1 }]
    (by decide)
  revert h1
  decide

/-- C5, amended: the list `Store.addTopics(fetched)` returns is exactly the fetched items, in
their order, whose id no topic currently held by the store has; in a session that starts
with no topic and whose prior merges were all `addTopics` calls, this is the delta of the
specification, the fetched items whose id was not present in any prior merge. -/
theorem C5_delta_is_against_held_topics :
    (∀ (s : State) (fetched : List Topic),
      (Store.addTopics s fetched).2 =
        fetched.filter (fun t => decide (∀ u ∈ s.topics, u.id ≠ t.id))) ∧
    (∀ (prior : List StoreCall) (fetched : List Topic),
      (∀ c ∈ prior, ∃ N, c = StoreCall.addTopics N) →
      (Store.addTopics (Store.run Store.initial prior) fetched).2 = sessionDelta prior fetched) := by
  refine ⟨Store.addTopics_snd, ?_⟩
  intro prior fetched h
  rw [Store.addTopics_snd, sessionDelta]
  apply List.filter_congr
  intro t _
  have hids := Store.run_addTopics_ids prior Store.initial h t.id
  by_cases hseen : t.id ∈ seenIds prior
  · obtain ⟨u, hu, he⟩ := hids.mpr (Or.inr hseen)
    have hn : ¬ ∀ u ∈ (Store.run Store.initial prior).topics, u.id ≠ t.id :=
      fun hall => hall u hu he
    simp [hn, hseen]
  · have hall : ∀ u ∈ (Store.run Store.initial prior).topics, u.id ≠ t.id := by
      intro u hu he
      rcases hids.mp ⟨u, hu, he⟩ with ⟨v, hv, _⟩ | h2
      · simp [Store.initial] at hv
      · exact hseen h2
    rw [decide_eq_true hall]
    simp [hseen]

/-- C5, amended, in a session of two appends: of the fetched topics 1, 3 and 4 only topic 4 was
in neither prior append, and it is the returned delta. -/
theorem C5_delta_is_against_held_topics_witness :
    (Store.addTopics
      (Store.run Store.initial
        [.addTopics [{ id := 1 }, { id := 2 }], .addTopics [{ id := 2 }, { id := 3 }]])
      [{ id := 1 }, { id := 3 }, { id := 4 }]).2 = [{ id := 4 }] :=
  (C5_delta_is_against_held_topics.2
    [.addTopics [{ id := 1 }, { id := 2 }], .addTopics [{ id := 2 }, { id := 3 }]]
    [{ id := 1 }, { id := 3 }, { id := 4 }]
    (by
      intro c hc
      simp only [List.mem_cons, List.mem_singleton, List.not_mem_nil, or_false] at hc
      rcases hc with rfl | rfl
      · exact ⟨_, rfl⟩
      · exact ⟨_, rfl⟩)).trans (by decide)

/-- C6: append mode preserves the existing entries. After `Store.addTopics(N)` the topics are
the items of `N` whose id the store did not hold, in the order of `N`, followed by the
previous topics, unchanged and in their previous order; these new items are the returned
value; every other field of the state is untouched; and when `N` brings no new id the state,
its topics included, is left as it was. -/
theorem C6_append_preserves_existing (s : State) (N : List Topic) :
    (Store.addTopics s N).1.topics =
      N.filter (fun t => decide (∀ u ∈ s.topics, u.id ≠ t.id)) ++ s.topics ∧
    (Store.addTopics s N).2 = N.filter (fun t => decide (∀ u ∈ s.topics, u.id ≠ t.id)) ∧
    (Store.addTopics s N).1.topics.drop (Store.addTopics s N).2.length = s.topics ∧
    (Store.addTopics s N).2.Sublist N ∧
    (Store.addTopics s N).1 = { s with topics := (Store.addTopics s N).1.topics } ∧
    ((∀ t ∈ N, ∃ u ∈ s.topics, u.id = t.id) → (Store.addTopics s N).1 = s) := by
  have hsnd := Store.addTopics_snd s N
  have htop := Store.addTopics_topics s N
  refine ⟨by rw [htop, hsnd], hsnd, ?_, ?_, Store.addTopics_frame s N, ?_⟩
  · rw [htop, List.drop_left]
  · rw [hsnd]
    exact List.filter_sublist N
  · intro hold
    have hnil : (Store.addTopics s N).2 = [] := by
      rw [hsnd]
      apply List.filter_eq_nil_iff.mpr
      intro t ht
      obtain ⟨u, hu, he⟩ := hold t ht
      simp only [decide_eq_true_eq]
      exact fun hall => hall u hu he
    rw [Store.addTopics_frame s N, htop, hnil, List.nil_append]

/-- C6 at the example store, which holds topic 7: appending the topics 8, 7, 9 puts 8 and 9 in
front of topic 7; appending topic 7 alone changes nothing. -/
theorem C6_append_preserves_existing_witness :
    (Store.addTopics exampleState [{ id := 8 }, { id := 7 }, { id := 9 }]).1.topics =
      [{ id := 8 }, { id := 9 }, { id := 7, title := str "old topic" }] ∧
    (Store.addTopics exampleState [{ id := 7 }]).1 = exampleState :=
  ⟨(C6_append_preserves_existing exampleState [{ id := 8 }, { id := 7 }, { id := 9 }]).1.trans
      (by decide),
   (C6_append_preserves_existing exampleState [{ id := 7 }]).2.2.2.2.2 (by decide)⟩

/-! ## Read status -/

/-- C7 fails on the code: with sync enabled and an empty read set, a topic whose
`last_read_post_number` and `highest_post_number` are both 0 satisfies the predicate of the
claim (non-null and covering), yet `createTopicElement` computes a falsy `isRead` for it,
because the number 0 is falsy in `topic.last_read_post_number && ...`. -/
theorem C7_zero_sequence_not_read :
    DEFAULT_CONFIG.syncReadStatus = true ∧
    specIsRead { id := 1, highest_post_number := 0, last_read_post_number := some 0 }
      DEFAULT_CONFIG [] = true ∧
    createTopicElement.isRead
      { id := 1, highest_post_number := 0, last_read_post_number := some 0 }
      DEFAULT_CONFIG [] = false := by
  decide

/-- C7, amended: the `isRead` value of `createTopicElement` is truthy exactly when the topic
id is in `readTopicIds`, or `syncReadStatus` is enabled and `last_read_post_number` is
non-null, not 0, and at least `highest_post_number`. Whenever `last_read_post_number` is not
the number 0, this is the predicate of the specification. -/
theorem C7_isRead_characterised :
    (∀ (topic : Topic) (config : Config) (readTopicIds : JsSet),
      createTopicElement.isRead topic config readTopicIds = true ↔
        topic.id ∈ readTopicIds ∨
        (config.syncReadStatus = true ∧
          ∃ n, topic.last_read_post_number = some n ∧ n ≠ 0 ∧ n ≥ topic.highest_post_number)) ∧
    (∀ (topic : Topic) (config : Config) (readTopicIds : JsSet),
      topic.last_read_post_number ≠ some 0 →
      createTopicElement.isRead topic config readTopicIds =
        specIsRead topic config readTopicIds) := by
  constructor
  · intro topic config readTopicIds
    unfold createTopicElement.isRead createTopicElement.isSiteRead truthyNum
    rw [Bool.or_eq_true, JsSet.has_iff]
    apply or_congr Iff.rfl
    cases hl : topic.last_read_post_number with
    | none => simp
    | some n => simp [and_assoc]
  · intro topic config readTopicIds h0
    unfold createTopicElement.isRead createTopicElement.isSiteRead truthyNum specIsRead
    cases hl : topic.last_read_post_number with
    | none => simp
    | some n =>
      have hn : (n != 0) = true := bne_iff_ne.mpr (fun h => h0 (by rw [hl, h]))
      simp [hn]

/-- C7, amended, at a topic read on the site up to post 5 of 5, with sync enabled and an
empty read set: it is read, as the specification says. -/
theorem C7_isRead_characterised_witness :
    createTopicElement.isRead
      { id := 1, highest_post_number := 5, last_read_post_number := some 5 }
      DEFAULT_CONFIG [] = true :=
  (C7_isRead_characterised.2
    { id := 1, highest_post_number := 5, last_read_post_number := some 5 }
    DEFAULT_CONFIG [] (by decide)).trans (by decide)

/-! ## Filters -/

/-- When the name `CATEGORIES` is not bound, the category callback throws on every topic, so
the filter returns only on the empty list. -/
theorem filterE_categoryKept_none (config : Config) (res pre : List Topic)
    (h : filterE (categoryKept none config) res = .ok pre) : res = [] ∧ pre = [] := by
  cases res with
  | nil =>
    simp only [filterE, Except.ok.injEq] at h
    exact ⟨rfl, h.symm⟩
  | cons t ts => simp [filterE, categoryKept] at h

/-- In `events/index.js` the category stage returns exactly when the block list is empty or
there is no topic, and then it returns the topics it was given. -/
theorem stageCategory_events_ok (config : Config) (topics : List Topic)
    (h : config.blockCategories = [] ∨ topics = []) :
    stageCategory eventsModuleCATEGORIES config topics = .ok topics := by
  unfold stageCategory
  rcases h with h | h
  · simp [h]
  · subst h
    split <;> rfl

theorem stageCategory_events_inv (config : Config) (topics pre : List Topic)
    (h : stageCategory eventsModuleCATEGORIES config topics = .ok pre) :
    pre = topics ∧ (config.blockCategories = [] ∨ topics = []) := by
  unfold stageCategory at h
  split at h
  · obtain ⟨h1, h2⟩ := filterE_categoryKept_none config topics pre h
    exact ⟨h2.trans h1.symm, Or.inr h1⟩
  · rename_i hlen
    simp only [Except.ok.injEq] at h
    refine ⟨h.symm, Or.inl ?_⟩
    apply List.eq_nil_of_length_eq_zero
    omega

/-- The result of `applyFilters`, when it returns: the later stages applied to the topics. -/
theorem applyFilters_ok_inv (host : Host) (topics : List Topic) (config : Config)
    (readTopicIds : JsSet)
    (res : List Topic) (h : applyFilters host topics config readTopicIds = .ok res) :
    res = stageReadHide config readTopicIds (stageQuality config (stageKeyword host config topics)) ∧
    (config.blockCategories = [] ∨ topics = []) := by
  unfold applyFilters applyFiltersWith at h
  cases hc : stageCategory eventsModuleCATEGORIES config topics with
  | error e => simp [hc] at h
  | ok pre =>
    obtain ⟨hpre, hcase⟩ := stageCategory_events_inv config topics pre hc
    simp only [hc, Except.ok.injEq] at h
    rw [hpre] at h
    exact ⟨h.symm, hcase⟩

/-- C8 fails on the code: with the action `hide` and sync enabled, a topic read on the site up
to its last post (post 5 of 5) but absent from `readTopicIds` is read in the sense of section
4.2, and also for `createTopicElement`, yet `applyFilters` keeps it. -/
theorem C8_site_read_topic_not_hidden :
    hideConfig.readStatusAction = str "hide" ∧ hideConfig.syncReadStatus = true ∧
    specIsRead { id := 1, highest_post_number := 5, last_read_post_number := some 5 }
      hideConfig [] = true ∧
    createTopicElement.isRead
      { id := 1, highest_post_number := 5, last_read_post_number := some 5 }
      hideConfig [] = true ∧
    applyFilters latin1Host [{ id := 1, highest_post_number := 5, last_read_post_number := some 5 }]
      hideConfig [] =
      .ok [{ id := 1, highest_post_number := 5, last_read_post_number := some 5 }] := by
  decide

/-- In `events/index.js`, where the category stage has nothing to do, `applyFilters` returns
the result of the three later stages. -/
theorem applyFilters_ok (host : Host) (topics : List Topic) (config : Config) (readTopicIds : JsSet)
    (hcat : config.blockCategories = [] ∨ topics = []) :
    applyFilters host topics config readTopicIds =
      .ok (stageReadHide config readTopicIds (stageQuality config (stageKeyword host config topics))) := by
  unfold applyFilters applyFiltersWith
  rw [stageCategory_events_ok config topics hcat]

/-- C8, amended: when `readStatusAction` is `hide` and the category stage has nothing to do
(the block list is empty, or there is no topic), `applyFilters` returns the topics that pass
the keyword and quality stages with exactly the topics whose id is in `readTopicIds` dropped:
no topic of the result has its id in `readTopicIds`, and every topic that passes the other
stages and whose id is not in `readTopicIds` is kept, whatever its `last_read_post_number`. -/
theorem C8_hide_drops_readTopicIds_members (host : Host) (topics : List Topic) (config : Config)
    (readTopicIds : JsSet) (hhide : config.readStatusAction = str "hide")
    (hcat : config.blockCategories = [] ∨ topics = []) :
    applyFilters host topics config readTopicIds =
      .ok ((stageQuality config (stageKeyword host config topics)).filter
        (fun t => !readTopicIds.has t.id)) ∧
    (∀ t ∈ (stageQuality config (stageKeyword host config topics)).filter
        (fun t => !readTopicIds.has t.id), t.id ∉ readTopicIds) ∧
    (∀ t ∈ stageQuality config (stageKeyword host config topics), t.id ∉ readTopicIds →
      t ∈ (stageQuality config (stageKeyword host config topics)).filter
        (fun t => !readTopicIds.has t.id)) := by
  refine ⟨?_, ?_, ?_⟩
  · rw [applyFilters_ok host topics config readTopicIds hcat, stageReadHide, if_pos hhide]
  · intro t ht hmem
    have h2 := (List.mem_filter.mp ht).2
    rw [(JsSet.has_iff readTopicIds t.id).mpr hmem] at h2
    exact absurd h2 (by decide)
  · intro t ht hnot
    apply List.mem_filter.mpr
    refine ⟨ht, ?_⟩
    cases hh : readTopicIds.has t.id with
    | false => rfl
    | true => exact absurd ((JsSet.has_iff readTopicIds t.id).mp hh) hnot

/-- C8, amended, with the read set 2: of the topics 1, 2, 3 the topic 2 is hidden; topic 3,
read on the site only, stays. -/
theorem C8_hide_drops_readTopicIds_members_witness :
    applyFilters latin1Host
      [{ id := 1 }, { id := 2 },
       { id := 3, highest_post_number := 4, last_read_post_number := some 4 }]
      hideConfig [2] =
      .ok [{ id := 1 }, { id := 3, highest_post_number := 4, last_read_post_number := some 4 }] :=
  (C8_hide_drops_readTopicIds_members latin1Host
    [{ id := 1 }, { id := 2 },
     { id := 3, highest_post_number := 4, last_read_post_number := some 4 }]
    hideConfig [2] (by decide) (Or.inl rfl)).1.trans (by decide)

/-- The method `applyFilters` runs the four stages in the order of the list. -/
theorem applyFiltersWith_eq_runStages (host : Host) (binding : Option (List Category))
    (topics : List Topic)
    (config : Config) (readTopicIds : JsSet) :
    applyFiltersWith host binding topics config readTopicIds =
      runStages (stages host binding config readTopicIds) topics := by
  unfold applyFiltersWith stages
  simp only [runStages]

/-- Without a blank entry in the black list, the keyword stage is the filter by the keyword
predicate. -/
theorem stageKeyword_eq_filter (host : Host) (config : Config) (res : List Topic)
    (hblank : truthyStr config.keywordBlacklist = true → ∀ k ∈ blacklist host config, k ≠ []) :
    stageKeyword host config res = res.filter (passKeyword host config) := by
  unfold stageKeyword
  split
  · rename_i htruthy
    have hparse : parseKeywords host config.keywordBlacklist = blacklist host config := by
      unfold parseKeywords
      apply List.filter_eq_self.mpr
      intro k hk
      have hne := hblank htruthy k hk
      cases k with
      | nil => exact absurd rfl hne
      | cons c cs => rfl
    apply List.filter_congr
    intro t _
    rw [passKeyword, hparse]
  · rename_i hfalsy
    have hempty : config.keywordBlacklist = [] := by
      cases hk : config.keywordBlacklist with
      | nil => rfl
      | cons c cs => simp [truthyStr, hk] at hfalsy
    have htrue : ∀ t, passKeyword host config t = true := by
      intro t
      rw [passKeyword, hempty]
      simp [parseKeywords, split, trim, host.toLowerCase_empty, truthyStr]
    exact (List.filter_eq_self.mpr (fun t _ => htrue t)).symm

theorem stageQuality_eq_filter (config : Config) (res : List Topic) :
    stageQuality config res = res.filter (passQuality config) := by
  unfold stageQuality
  split
  · rename_i h
    apply List.filter_congr
    intro t _
    simp [passQuality, h]
  · rename_i h
    exact (List.filter_eq_self.mpr (fun t _ => by simp [passQuality, h])).symm

theorem stageReadHide_eq_filter (config : Config) (readTopicIds : JsSet) (res : List Topic) :
    stageReadHide config readTopicIds res = res.filter (passReadHide config readTopicIds) := by
  unfold stageReadHide
  split
  · rename_i h
    apply List.filter_congr
    intro t _
    simp [passReadHide, h]
  · rename_i h
    exact (List.filter_eq_self.mpr (fun t _ => by simp [passReadHide, h])).symm

/-- With an empty block list every topic satisfies the category predicate. -/
theorem passCategory_of_empty (config : Config) (t : Topic) (h : config.blockCategories = []) :
    passCategory config t = true := by
  unfold passCategory
  split
  · rfl
  · simp [h]

/-- Stages that are filters can be run in any order. -/
theorem runStages_perm_of_filters {l1 l2 : List Stage} (hperm : l1.Perm l2)
    (hf : ∀ s ∈ l1, ∃ p : Topic → Bool, ∀ l, s l = .ok (l.filter p)) :
    ∀ init, runStages l1 init = runStages l2 init := by
  induction hperm with
  | nil => intro init; rfl
  | cons x _ ih =>
    intro init
    obtain ⟨p, hp⟩ := hf x (List.mem_cons_self _ _)
    simp only [runStages, hp]
    exact ih (fun s hs => hf s (List.mem_cons_of_mem _ hs)) _
  | swap x y l =>
    intro init
    obtain ⟨p, hp⟩ := hf y (List.mem_cons_self _ _)
    obtain ⟨q, hq⟩ := hf x (List.mem_cons_of_mem _ (List.mem_cons_self _ _))
    simp only [runStages, hp, hq, List.filter_filter]
    congr 1
    apply List.filter_congr
    intro t _
    exact Bool.and_comm _ _
  | trans h1 _ ih1 ih2 =>
    intro init
    rw [ih1 hf init, ih2 (fun s hs => hf s (h1.mem_iff.mpr hs)) init]

/-- Stages that return the empty list on the empty list, run on the empty list. -/
theorem runStages_nil (order : List Stage) (h : ∀ s ∈ order, s [] = .ok []) :
    runStages order [] = .ok [] := by
  induction order with
  | nil => rfl
  | cons f rest ih =>
    simp only [runStages, h f (List.mem_cons_self _ _)]
    exact ih (fun s hs => h s (List.mem_cons_of_mem _ hs))

/-- Where the category stage does not throw and the black list has no blank entry,
`applyFilters` returns the topics that satisfy the four predicates. -/
theorem applyFilters_eq_filter (host : Host) (topics : List Topic) (config : Config)
    (readTopicIds : JsSet)
    (hcat : config.blockCategories = [] ∨ topics = [])
    (hblank : truthyStr config.keywordBlacklist = true → ∀ k ∈ blacklist host config, k ≠ []) :
    applyFilters host topics config readTopicIds = .ok (topics.filter (passAll host config readTopicIds)) := by
  unfold applyFilters applyFiltersWith
  rw [stageCategory_events_ok config topics hcat]
  simp only []
  rw [stageKeyword_eq_filter host config topics hblank, stageQuality_eq_filter,
    stageReadHide_eq_filter, List.filter_filter, List.filter_filter]
  congr 1
  rcases hcat with h | h
  · apply List.filter_congr
    intro t _
    simp only [passAll, passCategory_of_empty config t h, Bool.true_and]
    cases passKeyword host config t <;> cases passQuality config t <;>
      cases passReadHide config readTopicIds t <;> rfl
  · subst h
    rfl

/-- C9 fails on the code: with the action `hide` and sync enabled, the topic 4, read on the
site up to post 3 of 3 and absent from the read set, does not satisfy the fourth predicate
(it is read in the sense of section 4.2), so the projection of the specification is empty,
yet `applyFilters` returns it. -/
theorem C9_result_keeps_site_read_topic :
    specProject latin1Host
      [{ id := 4, title := str "release notes", highest_post_number := 3,
         last_read_post_number := some 3 }] hideConfig [] = [] ∧
    applyFilters latin1Host
      [{ id := 4, title := str "release notes", highest_post_number := 3,
         last_read_post_number := some 3 }] hideConfig [] =
      .ok [{ id := 4, title := str "release notes", highest_post_number := 3,
             last_read_post_number := some 3 }] := by
  decide

/-- C9, amended: for every topic list, config and read set for which the category stage has
nothing to do (the block list is empty, or there is no topic) and whose keyword black list
has no blank entry, `applyFilters` returns exactly the order-preserving sublist of the topics
that satisfy the four predicates at once: category not blocked, lower-cased title containing
no keyword of the black list, more than 10 posts when the quality filter is on, and id not in
`readTopicIds` when the action is `hide`. Every dropped topic fails at least one predicate,
and running the four stages in any other order gives the same result. Titles and keywords
are lower-cased by the method `toLowerCase` of the host, for every host. -/
theorem C9_filter_conjunction (host : Host) (topics : List Topic) (config : Config)
    (readTopicIds : JsSet)
    (hcat : config.blockCategories = [] ∨ topics = [])
    (hblank : truthyStr config.keywordBlacklist = true → ∀ k ∈ blacklist host config, k ≠ []) :
    applyFilters host topics config readTopicIds =
      .ok (topics.filter (passAll host config readTopicIds)) ∧
    (topics.filter (passAll host config readTopicIds)).Sublist topics ∧
    (∀ t, t ∈ topics.filter (passAll host config readTopicIds) ↔
      t ∈ topics ∧ passCategory config t = true ∧ passKeyword host config t = true ∧
        passQuality config t = true ∧ passReadHide config readTopicIds t = true) ∧
    (∀ t ∈ topics, t ∉ topics.filter (passAll host config readTopicIds) →
      passCategory config t = false ∨ passKeyword host config t = false ∨
        passQuality config t = false ∨ passReadHide config readTopicIds t = false) ∧
    (∀ order : List Stage, order.Perm (stages host eventsModuleCATEGORIES config readTopicIds) →
      runStages order topics = applyFilters host topics config readTopicIds) := by
  have hmem : ∀ t, t ∈ topics.filter (passAll host config readTopicIds) ↔
      t ∈ topics ∧ passCategory config t = true ∧ passKeyword host config t = true ∧
        passQuality config t = true ∧ passReadHide config readTopicIds t = true := by
    intro t
    rw [List.mem_filter, passAll, Bool.and_eq_true, Bool.and_eq_true, Bool.and_eq_true]
    tauto
  refine ⟨applyFilters_eq_filter host topics config readTopicIds hcat hblank,
    List.filter_sublist topics, hmem, ?_, ?_⟩
  · intro t ht hdrop
    have hnot := fun h => hdrop ((hmem t).mpr ⟨ht, h⟩)
    cases h1 : passCategory config t
    · exact Or.inl rfl
    · cases h2 : passKeyword host config t
      · exact Or.inr (Or.inl rfl)
      · cases h3 : passQuality config t
        · exact Or.inr (Or.inr (Or.inl rfl))
        · cases h4 : passReadHide config readTopicIds t
          · exact Or.inr (Or.inr (Or.inr rfl))
          · exact absurd ⟨h1, h2, h3, h4⟩ hnot
  · intro order hperm
    show runStages order topics = applyFiltersWith host eventsModuleCATEGORIES topics config readTopicIds
    rw [applyFiltersWith_eq_runStages host]
    rcases hcat with h | h
    · apply runStages_perm_of_filters hperm
      intro s hs
      have hs2 := hperm.mem_iff.mp hs
      simp only [stages, List.mem_cons, List.mem_singleton, List.not_mem_nil, or_false] at hs2
      rcases hs2 with rfl | rfl | rfl | rfl
      · refine ⟨fun _ => true, fun l => ?_⟩
        rw [stageCategory_events_ok config l (Or.inl h), List.filter_eq_self.mpr (fun _ _ => rfl)]
      · exact ⟨passKeyword host config,
          fun l => congrArg Except.ok (stageKeyword_eq_filter host config l hblank)⟩
      · exact ⟨passQuality config, fun l => congrArg Except.ok (stageQuality_eq_filter config l)⟩
      · exact ⟨passReadHide config readTopicIds,
          fun l => congrArg Except.ok (stageReadHide_eq_filter config readTopicIds l)⟩
    · subst h
      have hall : ∀ s ∈ stages host eventsModuleCATEGORIES config readTopicIds, s [] = .ok [] := by
        intro s hs
        simp only [stages, List.mem_cons, List.mem_singleton, List.not_mem_nil, or_false] at hs
        rcases hs with rfl | rfl | rfl | rfl
        · exact stageCategory_events_ok config [] (Or.inr rfl)
        · exact congrArg Except.ok (stageKeyword_eq_filter host config [] hblank)
        · exact congrArg Except.ok (stageQuality_eq_filter config [])
        · exact congrArg Except.ok (stageReadHide_eq_filter config readTopicIds [])
      rw [runStages_nil order (fun s hs => hall s (hperm.mem_iff.mp hs)), runStages_nil _ hall]

/-- C9, amended, with the black list `spam, Ads`, the quality filter on, the action `hide`
and the read set 4: of the five topics only topic 2 satisfies the four predicates, and it is
the result. With the black list `öl`, the title `Ärger mit ÖL` matches and the topic is
dropped, the other topic is the result. -/
theorem C9_filter_conjunction_witness :
    applyFilters latin1Host strictTopics strictConfig [4] =
      .ok [{ id := 2, title := str "Kernel 6.9 released", posts_count := 50 }] ∧
    applyFilters latin1Host umlautTopics umlautConfig [] =
      .ok [{ id := 2, title := str "plain" }] :=
  ⟨(C9_filter_conjunction latin1Host strictTopics strictConfig [4] (Or.inl rfl)
      (by decide)).1.trans (by decide),
   (C9_filter_conjunction latin1Host umlautTopics umlautConfig [] (Or.inl rfl)
      (by decide)).1.trans (by decide)⟩

/-- C10, on the code: with the black list `spam,` (a trailing comma) the keywords of the
list are `spam` alone, and the title `hello` does not contain it, yet the constant `black` of
the stage is `spam` and the empty string, which every title contains: the stage, and with it
`applyFilters`, drops the topic. -/
theorem C10_trailing_comma_drops_every_topic :
    truthyStr spamConfig.keywordBlacklist = true ∧
    parseKeywords latin1Host spamConfig.keywordBlacklist = [str "spam"] ∧
    includes (latin1Host.toLowerCase (str "hello")) (str "spam") = false ∧
    blacklist latin1Host spamConfig = [str "spam", str ""] ∧
    stageKeyword latin1Host spamConfig [{ id := 1, title := str "hello" }] = [] ∧
    applyFilters latin1Host [{ id := 1, title := str "hello" }] spamConfig [] = .ok [] := by
  decide

/-! ## Category block list -/

/-- A filter whose callback never throws is the plain filter. -/
theorem filterE_ok {α ε : Type} (f : α → Except ε Bool) (g : α → Bool)
    (h : ∀ x, f x = .ok (g x)) (l : List α) : filterE f l = .ok (l.filter g) := by
  induction l with
  | nil => rfl
  | cons x xs ih =>
    simp only [filterE, h x, ih, List.filter_cons]

/-- Where the name `CATEGORIES` is bound to the table of `utils/constants.js`, the category
stage is the filter by the category predicate. -/
theorem stageCategory_bound (config : Config) (res : List Topic) :
    stageCategory (some CATEGORIES) config res = .ok (res.filter (passCategory config)) := by
  unfold stageCategory
  split
  · apply filterE_ok
    intro t
    simp only [categoryKept, passCategory]
    cases hfind : CATEGORIES.find? (fun c => some c.id == t.category_id) <;> rfl
  · rename_i hlen
    have hnil : config.blockCategories = [] := by
      apply List.eq_nil_of_length_eq_zero
      omega
    rw [List.filter_eq_self.mpr (fun t _ => passCategory_of_empty config t hnil)]

/-! ### The sort of the engine -/

theorem countRun_le (order : Topic → Topic → Int) (d : Bool) (prev : Topic) (rest : List Topic) :
    countRun order d prev rest ≤ rest.length := by
  induction rest generalizing prev with
  | nil => simp [countRun]
  | cons x rest ih =>
    unfold countRun
    have := ih x
    split_ifs <;> simp <;> omega

theorem mem_insertPivot (order : Topic → Topic → Int) (sorted : List Topic) (pivot e : Topic) :
    e ∈ insertPivot order sorted pivot ↔ e = pivot ∨ e ∈ sorted := by
  unfold insertPivot
  simp only [List.mem_append, List.mem_cons]
  constructor
  · rintro (h | h | h)
    · exact Or.inr (List.mem_of_mem_take h)
    · exact Or.inl h
    · exact Or.inr (List.mem_of_mem_drop h)
  · rintro (h | h)
    · exact Or.inr (Or.inl h)
    · rw [← List.take_append_drop (binarySearch order pivot sorted sorted.length 0 sorted.length)
        sorted] at h
      rcases List.mem_append.mp h with h | h
      · exact Or.inl h
      · exact Or.inr (Or.inr h)

theorem insertPivot_perm (order : Topic → Topic → Int) (sorted : List Topic) (pivot : Topic) :
    (insertPivot order sorted pivot).Perm (pivot :: sorted) := by
  unfold insertPivot
  refine List.perm_middle.trans ?_
  rw [List.take_append_drop]

theorem foldl_insertPivot_perm (order : Topic → Topic → Int) (rest run : List Topic) :
    (rest.foldl (insertPivot order) run).Perm (run ++ rest) := by
  induction rest generalizing run with
  | nil => simp
  | cons x rest ih =>
    rw [List.foldl_cons]
    refine (ih _).trans ?_
    refine ((insertPivot_perm order run x).append_right rest).trans ?_
    simp only [List.cons_append]
    exact List.perm_middle.symm

theorem countAndMakeRun_perm (order : Topic → Topic → Int) (work : List Topic) :
    ((countAndMakeRun order work).1 ++ (countAndMakeRun order work).2).Perm work := by
  match work with
  | [] => simp [countAndMakeRun]
  | [a] => simp [countAndMakeRun]
  | a :: b :: rest =>
    simp only [countAndMakeRun]
    split_ifs
    · refine ((List.reverse_perm _).append_right _).trans ?_
      rw [List.take_append_drop]
    · rw [List.take_append_drop]

/-- The sort returns a permutation of the array, whatever the comparator returns. -/
theorem sortBy_perm (cmp : Topic → Topic → Option Int) (topics : List Topic) :
    (sortBy cmp topics).Perm topics := by
  unfold sortBy arrayTimSort
  exact (foldl_insertPivot_perm _ _ _).trans (countAndMakeRun_perm _ _)

/-- The method `applySorting` returns a permutation of its argument. -/
theorem applySorting_perm (topics : List Topic) (sortType : JsString) :
    (applySorting topics sortType).Perm topics := by
  unfold applySorting
  split
  · exact sortBy_perm _ _
  · exact List.Perm.refl _

/-- Where the name `CATEGORIES` is bound to the table, a topic whose category maps to a
blocked slug is in no sorted projection, and a topic whose category the table does not list
passes the category stage. -/
theorem category_block_list_when_bound (host : Host) (topics : List Topic) (config : Config)
    (readTopicIds : JsSet) (t : Topic) :
    (∀ cat, CATEGORIES.find? (fun c => some c.id == t.category_id) = some cat →
      cat.slug ∈ config.blockCategories →
      ∃ res, applyFiltersWith host (some CATEGORIES) topics config readTopicIds = .ok res ∧
        ∀ sortType, t ∉ applySorting res sortType) ∧
    (CATEGORIES.find? (fun c => some c.id == t.category_id) = none → t ∈ topics →
      ∃ pre, stageCategory (some CATEGORIES) config topics = .ok pre ∧ t ∈ pre) := by
  constructor
  · intro cat hfind hblocked
    refine ⟨_, by rw [applyFiltersWith, stageCategory_bound], ?_⟩
    intro sortType hmem
    have h1 := (applySorting_perm _ sortType).mem_iff.mp hmem
    rw [stageReadHide_eq_filter, stageQuality_eq_filter] at h1
    have h2 := (List.mem_filter.mp (List.mem_filter.mp h1).1).1
    have h3 : t ∈ topics.filter (passCategory config) := by
      unfold stageKeyword at h2
      split at h2
      · exact (List.mem_filter.mp h2).1
      · exact h2
    have h4 := (List.mem_filter.mp h3).2
    rw [passCategory, hfind] at h4
    have h5 : config.blockCategories.contains cat.slug = true := by
      simpa using hblocked
    simp only [h5] at h4
    exact absurd h4 (by decide)
  · intro hfind ht
    refine ⟨_, stageCategory_bound config topics, ?_⟩
    apply List.mem_filter.mpr
    refine ⟨ht, ?_⟩
    rw [passCategory, hfind]

/-- C11, on the code: with the block list `gossip`, `applyFilters` of `events/index.js`
returns no list at all. Called on a topic of the category 11 (slug `gossip`) it throws the
reference error of the unbound name `CATEGORIES`, and so it does on a topic of the unlisted
category 999, which the stage should keep; `refreshTopicList` then renders nothing. With the
name bound to the table, the same code drops the first topic and keeps the second. -/
theorem C11_category_stage_throws :
    CATEGORIES.find? (fun c => some c.id == gossipTopic.category_id) =
      some ⟨11, str "gossip"⟩ ∧
    CATEGORIES.find? (fun c => some c.id == unlistedTopic.category_id) = none ∧
    applyFilters latin1Host [gossipTopic] gossipConfig [] = .error (.referenceError (str "CATEGORIES")) ∧
    applyFilters latin1Host [unlistedTopic] gossipConfig [] = .error (.referenceError (str "CATEGORIES")) ∧
    refreshTopicList latin1Host 0 gossipState DEFAULT_USER_SETTINGS =
      [.unhandledRejection (.referenceError (str "CATEGORIES"))] ∧
    applyFiltersWith latin1Host (some CATEGORIES) [gossipTopic, unlistedTopic] gossipConfig [] =
      .ok [unlistedTopic] := by
  decide

/-! ## Sorting -/

/-- The comparator of a sort type compares the keys of the sort type. -/
theorem comparator_eq (sortType : JsString) (cmp : Topic → Topic → Option Int)
    (h : comparator sortType = some cmp) (a b : Topic) :
    cmp a b = compareKeys (sortKey sortType a) (sortKey sortType b) := by
  unfold comparator at h
  unfold sortKey
  split_ifs at h ⊢ <;> (injection h with h; rw [← h])

/-- The method `applySorting` sorts exactly for the four sort types it knows. -/
theorem comparator_isSome_iff (sortType : JsString) :
    (comparator sortType).isSome = true ↔ sortType ∈ sortTypes := by
  unfold comparator sortTypes
  split_ifs <;> simp [*]

/-! The run and the insertion, for a comparator that is the difference of two keys -/

theorem countRun_chain_asc (order : Topic → Topic → Int) (prev : Topic) (rest : List Topic) :
    List.Chain (fun x y => ¬ order y x < 0) prev
      (rest.take (countRun order false prev rest)) := by
  induction rest generalizing prev with
  | nil => simp [countRun]
  | cons x rest ih =>
    unfold countRun
    by_cases h : order x prev < 0
    · simp [h]
    · simp only [Bool.false_eq_true, if_false, h, List.take_succ_cons]
      exact List.Chain.cons h (ih x)

theorem countRun_chain_desc (order : Topic → Topic → Int) (prev : Topic) (rest : List Topic) :
    List.Chain (fun x y => order y x < 0) prev
      (rest.take (countRun order true prev rest)) := by
  induction rest generalizing prev with
  | nil => simp [countRun]
  | cons x rest ih =>
    unfold countRun
    by_cases h : order x prev ≥ 0
    · simp [h]
    · simp only [if_true, h, if_false, List.take_succ_cons]
      exact List.Chain.cons (not_le.mp h) (ih x)

theorem filter_key_of_strict (key : Topic → Int) (l : List Topic)
    (h : l.Pairwise (fun a b => key a < key b)) (v : Int) :
    (l.filter (fun t => key t == v)).reverse = l.filter (fun t => key t == v) := by
  induction l with
  | nil => rfl
  | cons a l ih =>
    obtain ⟨ha, hl⟩ := List.pairwise_cons.mp h
    by_cases hv : key a = v
    · have hnil : l.filter (fun t => key t == v) = [] := by
        apply List.filter_eq_nil_iff.mpr
        intro b hb
        have := ha b hb
        simp only [beq_iff_eq]
        omega
      simp [List.filter_cons, hv, hnil]
    · simp only [List.filter_cons, beq_iff_eq, hv, if_false]
      exact ih hl

/-- With a comparator that is the difference of two keys, the run the array starts with
has its keys in non-increasing order. -/
theorem countAndMakeRun_sorted (order : Topic → Topic → Int) (key : Topic → Int)
    (hord : ∀ a b, order a b = key b - key a) (work : List Topic) :
    (countAndMakeRun order work).1.Pairwise (fun a b => key b ≤ key a) := by
  match work with
  | [] => simp [countAndMakeRun]
  | [a] => simp [countAndMakeRun]
  | a :: b :: rest =>
    simp only [countAndMakeRun, List.take_succ_cons]
    by_cases hd : order b a < 0
    · simp only [hd, decide_True, if_true]
      have hchain : List.Chain (fun x y => key x < key y) a
          (b :: rest.take (countRun order true b rest)) := by
        refine List.Chain.cons ?_ ((countRun_chain_desc order b rest).imp ?_)
        · have := hord b a
          omega
        · intro x y hxy
          have := hord y x
          omega
      haveI : IsTrans Topic (fun x y => key x < key y) := ⟨fun _ _ _ h1 h2 => lt_trans h1 h2⟩
      have hpair := List.chain_iff_pairwise.mp hchain
      rw [List.pairwise_reverse]
      exact hpair.imp (fun h => le_of_lt h)
    · simp only [hd, decide_False, Bool.false_eq_true, if_false]
      have hchain : List.Chain (fun x y => key y ≤ key x) a
          (b :: rest.take (countRun order false b rest)) := by
        refine List.Chain.cons ?_ ((countRun_chain_asc order b rest).imp ?_)
        · have := hord b a
          omega
        · intro x y hxy
          have := hord y x
          omega
      haveI : IsTrans Topic (fun x y => key y ≤ key x) := ⟨fun _ _ _ h1 h2 => le_trans h2 h1⟩
      exact List.chain_iff_pairwise.mp hchain

/-- With a comparator that is the difference of two keys, making the run keeps the elements
of one key in their order. -/
theorem countAndMakeRun_filter (order : Topic → Topic → Int) (key : Topic → Int)
    (hord : ∀ a b, order a b = key b - key a) (work : List Topic) (v : Int) :
    (countAndMakeRun order work).1.filter (fun t => key t == v) ++
        (countAndMakeRun order work).2.filter (fun t => key t == v) =
      work.filter (fun t => key t == v) := by
  match work with
  | [] => simp [countAndMakeRun]
  | [a] => simp [countAndMakeRun]
  | a :: b :: rest =>
    simp only [countAndMakeRun]
    by_cases hd : order b a < 0
    · simp only [hd, decide_True, if_true]
      have hchain : List.Chain (fun x y => key x < key y) a
          (b :: rest.take (countRun order true b rest)) := by
        refine List.Chain.cons ?_ ((countRun_chain_desc order b rest).imp ?_)
        · have := hord b a
          omega
        · intro x y hxy
          have := hord y x
          omega
      haveI : IsTrans Topic (fun x y => key x < key y) := ⟨fun _ _ _ h1 h2 => lt_trans h1 h2⟩
      have hpair := List.chain_iff_pairwise.mp hchain
      rw [List.filter_reverse, List.take_succ_cons, List.take_succ_cons,
        filter_key_of_strict key _ hpair v, ← List.filter_append]
      rw [← List.take_succ_cons, ← List.take_succ_cons, List.take_append_drop]
    · simp only [hd, decide_False, Bool.false_eq_true, if_false]
      rw [← List.filter_append, List.take_append_drop]

/-- The binary search, on a sorted part and with a comparator that is the difference of two
keys: the elements before the place found have a key at least the key of the pivot, the
elements from the place on a smaller key. -/
theorem binarySearch_spec (order : Topic → Topic → Int) (key : Topic → Int)
    (hord : ∀ a b, order a b = key b - key a) (pivot : Topic) (work : List Topic)
    (hsorted : work.Pairwise (fun a b => key b ≤ key a)) :
    ∀ (rounds left right : Nat), right - left ≤ rounds → left ≤ right → right ≤ work.length →
      (∀ e ∈ work.take left, key pivot ≤ key e) → (∀ e ∈ work.drop right, key e < key pivot) →
      (∀ e ∈ work.take (binarySearch order pivot work rounds left right), key pivot ≤ key e) ∧
      (∀ e ∈ work.drop (binarySearch order pivot work rounds left right), key e < key pivot) := by
  intro rounds
  induction rounds with
  | zero =>
    intro left right hr hle hlen htake hdrop
    have : left = right := by omega
    subst this
    exact ⟨htake, hdrop⟩
  | succ rounds ih =>
    intro left right hr hle hlen htake hdrop
    unfold binarySearch
    by_cases hlt : left < right
    · simp only [hlt, if_true]
      have hmid : left + (right - left) / 2 < work.length := by omega
      rw [List.getElem?_eq_getElem hmid]
      simp only
      by_cases hcmp : order pivot work[left + (right - left) / 2] < 0
      · simp only [hcmp, if_true]
        apply ih left (left + (right - left) / 2) (by omega) (by omega) (by omega) htake
        intro x hx
        rw [List.drop_eq_getElem_cons hmid] at hx
        have hp : (work[left + (right - left) / 2] ::
            work.drop (left + (right - left) / 2 + 1)).Pairwise (fun a b => key b ≤ key a) := by
          rw [← List.drop_eq_getElem_cons hmid]
          exact hsorted.sublist (List.drop_sublist _ _)
        have hk := hord pivot work[left + (right - left) / 2]
        rcases List.mem_cons.mp hx with rfl | hx
        · omega
        · have := (List.pairwise_cons.mp hp).1 x hx
          omega
      · simp only [hcmp, if_false]
        apply ih (left + (right - left) / 2 + 1) right (by omega) (by omega) hlen ?_ hdrop
        intro x hx
        rw [List.take_succ, List.getElem?_eq_getElem hmid] at hx
        have hp : (work.take (left + (right - left) / 2) ++
            [work[left + (right - left) / 2]]).Pairwise (fun a b => key b ≤ key a) := by
          have := hsorted.sublist (List.take_sublist (left + (right - left) / 2 + 1) work)
          rwa [List.take_succ, List.getElem?_eq_getElem hmid] at this
        have hk := hord pivot work[left + (right - left) / 2]
        simp only [Option.toList, List.mem_append, List.mem_singleton] at hx
        rcases hx with hx | rfl
        · have := (List.pairwise_append.mp hp).2.2 x hx _ (List.mem_singleton_self _)
          omega
        · omega
    · simp only [hlt, if_false]
      have : left = right := by omega
      subst this
      exact ⟨htake, hdrop⟩

theorem insertPivot_spec (order : Topic → Topic → Int) (key : Topic → Int)
    (hord : ∀ a b, order a b = key b - key a) (pivot : Topic) (sorted : List Topic)
    (hsorted : sorted.Pairwise (fun a b => key b ≤ key a)) :
    ∃ pos, insertPivot order sorted pivot = sorted.take pos ++ pivot :: sorted.drop pos ∧
      (∀ e ∈ sorted.take pos, key pivot ≤ key e) ∧
      (∀ e ∈ sorted.drop pos, key e < key pivot) := by
  refine ⟨binarySearch order pivot sorted sorted.length 0 sorted.length, rfl, ?_⟩
  apply binarySearch_spec order key hord pivot sorted hsorted sorted.length 0 sorted.length
    (by omega) (by omega) (le_refl _)
  · intro e he
    simp at he
  · intro e he
    simp at he

/-- Inserting the pivot keeps the sorted part sorted. -/
theorem insertPivot_sorted (order : Topic → Topic → Int) (key : Topic → Int)
    (hord : ∀ a b, order a b = key b - key a) (pivot : Topic) (sorted : List Topic)
    (hsorted : sorted.Pairwise (fun a b => key b ≤ key a)) :
    (insertPivot order sorted pivot).Pairwise (fun a b => key b ≤ key a) := by
  obtain ⟨pos, heq, htake, hdrop⟩ := insertPivot_spec order key hord pivot sorted hsorted
  rw [heq]
  have hsplit : (sorted.take pos ++ sorted.drop pos).Pairwise (fun a b => key b ≤ key a) := by
    rw [List.take_append_drop]
    exact hsorted
  obtain ⟨h1, h2, h3⟩ := List.pairwise_append.mp hsplit
  refine List.pairwise_append.mpr ⟨h1, List.pairwise_cons.mpr ⟨?_, h2⟩, ?_⟩
  · intro b hb
    exact le_of_lt (hdrop b hb)
  · intro a ha b hb
    rcases List.mem_cons.mp hb with rfl | hb
    · exact htake a ha
    · exact h3 a ha b hb

/-- Inserting the pivot puts it behind the elements of its key, and does not disturb the
order of the elements of any key. -/
theorem insertPivot_filter (order : Topic → Topic → Int) (key : Topic → Int)
    (hord : ∀ a b, order a b = key b - key a) (pivot : Topic) (sorted : List Topic)
    (hsorted : sorted.Pairwise (fun a b => key b ≤ key a)) (v : Int) :
    (insertPivot order sorted pivot).filter (fun t => key t == v) =
      sorted.filter (fun t => key t == v) ++ [pivot].filter (fun t => key t == v) := by
  obtain ⟨pos, heq, htake, hdrop⟩ := insertPivot_spec order key hord pivot sorted hsorted
  have hs : sorted.filter (fun t => key t == v) =
      (sorted.take pos).filter (fun t => key t == v) ++
        (sorted.drop pos).filter (fun t => key t == v) := by
    rw [← List.filter_append, List.take_append_drop]
  rw [heq, hs]
  simp only [List.filter_append, List.filter_cons, List.filter_nil, beq_iff_eq]
  by_cases hv : key pivot = v
  · have hnil : (sorted.drop pos).filter (fun t => key t == v) = [] := by
      apply List.filter_eq_nil_iff.mpr
      intro b hb
      have := hdrop b hb
      simp only [beq_iff_eq]
      omega
    simp [hv, hnil]
  · simp [hv]

theorem foldl_insertPivot_sorted (order : Topic → Topic → Int) (key : Topic → Int)
    (hord : ∀ a b, order a b = key b - key a) (rest run : List Topic)
    (hrun : run.Pairwise (fun a b => key b ≤ key a)) :
    (rest.foldl (insertPivot order) run).Pairwise (fun a b => key b ≤ key a) := by
  induction rest generalizing run with
  | nil => exact hrun
  | cons x rest ih =>
    rw [List.foldl_cons]
    exact ih _ (insertPivot_sorted order key hord x run hrun)

theorem foldl_insertPivot_filter (order : Topic → Topic → Int) (key : Topic → Int)
    (hord : ∀ a b, order a b = key b - key a) (rest run : List Topic)
    (hrun : run.Pairwise (fun a b => key b ≤ key a)) (v : Int) :
    (rest.foldl (insertPivot order) run).filter (fun t => key t == v) =
      run.filter (fun t => key t == v) ++ rest.filter (fun t => key t == v) := by
  induction rest generalizing run with
  | nil => simp
  | cons x rest ih =>
    rw [List.foldl_cons, ih _ (insertPivot_sorted order key hord x run hrun),
      insertPivot_filter order key hord x run hrun v, List.append_assoc, ← List.filter_append]
    rfl

/-- The sort of the engine with a comparator that is the difference `key b - key a`: the
result has its keys in non-increasing order. -/
theorem arrayTimSort_sorted (order : Topic → Topic → Int) (key : Topic → Int)
    (hord : ∀ a b, order a b = key b - key a) (work : List Topic) :
    (arrayTimSort order work).Pairwise (fun a b => key b ≤ key a) := by
  unfold arrayTimSort
  exact foldl_insertPivot_sorted order key hord _ _ (countAndMakeRun_sorted order key hord work)

/-- The sort of the engine with a comparator that is the difference `key b - key a`: the
elements of one key keep their order. -/
theorem arrayTimSort_filter (order : Topic → Topic → Int) (key : Topic → Int)
    (hord : ∀ a b, order a b = key b - key a) (work : List Topic) (v : Int) :
    (arrayTimSort order work).filter (fun t => key t == v) =
      work.filter (fun t => key t == v) := by
  unfold arrayTimSort
  simp only
  rw [foldl_insertPivot_filter order key hord _ _ (countAndMakeRun_sorted order key hord work) v]
  exact countAndMakeRun_filter order key hord work v

/-! The sort only calls the comparator on elements of the array -/

theorem countRun_congr (o1 o2 : Topic → Topic → Int) (d : Bool) (prev : Topic)
    (rest : List Topic)
    (h : ∀ a ∈ prev :: rest, ∀ b ∈ prev :: rest, o1 a b = o2 a b) :
    countRun o1 d prev rest = countRun o2 d prev rest := by
  induction rest generalizing prev with
  | nil => rfl
  | cons x rest ih =>
    have hx : o1 x prev = o2 x prev :=
      h x (List.mem_cons_of_mem _ (List.mem_cons_self _ _)) prev (List.mem_cons_self _ _)
    have hrest := ih x (fun a ha b hb =>
      h a (List.mem_cons_of_mem _ ha) b (List.mem_cons_of_mem _ hb))
    unfold countRun
    rw [hx, hrest]

theorem countAndMakeRun_congr (o1 o2 : Topic → Topic → Int) (work : List Topic)
    (h : ∀ a ∈ work, ∀ b ∈ work, o1 a b = o2 a b) :
    countAndMakeRun o1 work = countAndMakeRun o2 work := by
  match work with
  | [] => rfl
  | [a] => rfl
  | a :: b :: rest =>
    have hba : o1 b a = o2 b a :=
      h b (List.mem_cons_of_mem _ (List.mem_cons_self _ _)) a (List.mem_cons_self _ _)
    have hrun : ∀ d, countRun o1 d b rest = countRun o2 d b rest := fun d =>
      countRun_congr o1 o2 d b rest (fun x hx y hy =>
        h x (List.mem_cons_of_mem _ hx) y (List.mem_cons_of_mem _ hy))
    simp only [countAndMakeRun, hba, hrun]

theorem binarySearch_congr (o1 o2 : Topic → Topic → Int) (pivot : Topic) (work : List Topic)
    (h : ∀ e ∈ work, o1 pivot e = o2 pivot e) (rounds left right : Nat) :
    binarySearch o1 pivot work rounds left right =
      binarySearch o2 pivot work rounds left right := by
  induction rounds generalizing left right with
  | zero => rfl
  | succ rounds ih =>
    unfold binarySearch
    by_cases hlt : left < right
    · simp only [hlt, if_true]
      cases hget : work[left + (right - left) / 2]? with
      | none => rfl
      | some e =>
        simp only
        rw [h e (List.getElem?_mem hget), ih, ih]
    · simp only [hlt, if_false]

theorem insertPivot_congr (o1 o2 : Topic → Topic → Int) (pivot : Topic) (sorted : List Topic)
    (h : ∀ e ∈ sorted, o1 pivot e = o2 pivot e) :
    insertPivot o1 sorted pivot = insertPivot o2 sorted pivot := by
  unfold insertPivot
  rw [binarySearch_congr o1 o2 pivot sorted h]

theorem foldl_insertPivot_congr (o1 o2 : Topic → Topic → Int) (rest run : List Topic)
    (h : ∀ a ∈ run ++ rest, ∀ b ∈ run ++ rest, o1 a b = o2 a b) :
    rest.foldl (insertPivot o1) run = rest.foldl (insertPivot o2) run := by
  induction rest generalizing run with
  | nil => rfl
  | cons x rest ih =>
    rw [List.foldl_cons, List.foldl_cons,
      insertPivot_congr o1 o2 x run (fun e he =>
        h x (List.mem_append_right _ (List.mem_cons_self _ _)) e (List.mem_append_left _ he))]
    apply ih
    have hmem : ∀ a ∈ insertPivot o2 run x ++ rest, a ∈ run ++ x :: rest := by
      intro a ha
      rcases List.mem_append.mp ha with ha | ha
      · rcases (mem_insertPivot o2 run x a).mp ha with rfl | ha
        · exact List.mem_append_right _ (List.mem_cons_self _ _)
        · exact List.mem_append_left _ ha
      · exact List.mem_append_right _ (List.mem_cons_of_mem _ ha)
    intro a ha b hb
    exact h a (hmem a ha) b (hmem b hb)

/-- Two comparators that agree on the elements of the array give the same sorted array. -/
theorem arrayTimSort_congr (o1 o2 : Topic → Topic → Int) (work : List Topic)
    (h : ∀ a ∈ work, ∀ b ∈ work, o1 a b = o2 a b) :
    arrayTimSort o1 work = arrayTimSort o2 work := by
  unfold arrayTimSort
  simp only
  rw [countAndMakeRun_congr o1 o2 work h]
  apply foldl_insertPivot_congr
  intro a ha b hb
  exact h a ((countAndMakeRun_perm o2 work).mem_iff.mp ha) b
    ((countAndMakeRun_perm o2 work).mem_iff.mp hb)

/-- The binary search needs no more rounds than it is given: after `right - left` rounds
the loop has ended, and further rounds change nothing. -/
theorem binarySearch_rounds (order : Topic → Topic → Int) (pivot : Topic) (work : List Topic)
    (rounds extra left right : Nat) (h : right - left ≤ rounds) :
    binarySearch order pivot work (rounds + extra) left right =
      binarySearch order pivot work rounds left right := by
  induction rounds generalizing left right with
  | zero =>
    have hge : ¬ left < right := by omega
    cases extra with
    | zero => rfl
    | succ extra =>
      rw [Nat.zero_add]
      unfold binarySearch
      simp only [hge, if_false]
  | succ rounds ih =>
    rw [Nat.add_right_comm]
    unfold binarySearch
    by_cases hlt : left < right
    · simp only [hlt, if_true]
      cases hget : work[left + (right - left) / 2]? with
      | none => rfl
      | some e =>
        simp only
        rw [ih _ _ (by omega), ih _ _ (by omega)]
    · simp only [hlt, if_false]

/-- With keys that are numbers, the number `sort` works with is the difference of the
keys. -/
theorem sortCompare_eq (sortType : JsString) (cmp : Topic → Topic → Option Int)
    (h : comparator sortType = some cmp) (topics : List Topic)
    (hvalid : ∀ t ∈ topics, ∃ k, sortKey sortType t = some k) :
    ∀ a ∈ topics, ∀ b ∈ topics, sortCompare cmp a b =
      (fun a b => (sortKey sortType b).getD 0 - (sortKey sortType a).getD 0) a b := by
  intro a ha b hb
  obtain ⟨ka, hka⟩ := hvalid a ha
  obtain ⟨kb, hkb⟩ := hvalid b hb
  simp only [sortCompare, comparator_eq sortType cmp h, hka, hkb, compareKeys, Option.getD_some]

/-- A list sorted by a known sort type, all keys being numbers, has its keys in
non-increasing order. -/
theorem sortBy_sorted (sortType : JsString) (cmp : Topic → Topic → Option Int)
    (h : comparator sortType = some cmp) (topics : List Topic)
    (hvalid : ∀ t ∈ topics, ∃ k, sortKey sortType t = some k) :
    (sortBy cmp topics).Pairwise (keyGE sortType) := by
  unfold sortBy
  rw [arrayTimSort_congr _ _ topics (sortCompare_eq sortType cmp h topics hvalid)]
  exact arrayTimSort_sorted _ (fun t => (sortKey sortType t).getD 0) (fun _ _ => rfl) topics

/-- The sort keeps the topics of one key in the order they had, when all keys are numbers. -/
theorem filter_sortBy_key (sortType : JsString) (cmp : Topic → Topic → Option Int)
    (h : comparator sortType = some cmp) (v : Int) (topics : List Topic)
    (hvalid : ∀ t ∈ topics, ∃ k, sortKey sortType t = some k) :
    (sortBy cmp topics).filter (fun t => sortKey sortType t == some v) =
      topics.filter (fun t => sortKey sortType t == some v) := by
  have hkey : ∀ l : List Topic, (∀ t ∈ l, t ∈ topics) →
      l.filter (fun t => sortKey sortType t == some v) =
        l.filter (fun t => (sortKey sortType t).getD 0 == v) := by
    intro l hl
    apply List.filter_congr
    intro t ht
    obtain ⟨k, hk⟩ := hvalid t (hl t ht)
    simp [hk]
  rw [hkey topics (fun _ ht => ht),
    hkey (sortBy cmp topics) (fun t ht => (sortBy_perm cmp topics).mem_iff.mp ht)]
  unfold sortBy
  rw [arrayTimSort_congr _ _ topics (sortCompare_eq sortType cmp h topics hvalid)]
  exact arrayTimSort_filter _ (fun t => (sortKey sortType t).getD 0) (fun _ _ => rfl) topics v

/-- C12: sort correctness. For each of the four sort types and every topic list in which the
key of the sort type is a number for every topic (a valid timestamp for `latest` and
`created`; the counts always are), `applySorting` returns a permutation of the input in which
the key never increases: whenever `a` comes before `b` in the result, the key of `a` is at
least the key of `b`. The key is `last_posted_at` for `latest`, `created_at` for `created`,
`views` for `views` and `posts_count` for `replies`. -/
theorem C12_sort_correct (topics : List Topic) (sortType : JsString)
    (hmode : sortType ∈ sortTypes)
    (hvalid : ∀ t ∈ topics, ∃ k, sortKey sortType t = some k) :
    (applySorting topics sortType).Perm topics ∧
    (applySorting topics sortType).Pairwise
      (fun a b => ∀ ka kb, sortKey sortType a = some ka → sortKey sortType b = some kb →
        kb ≤ ka) ∧
    (sortKey (str "latest") = fun t => t.last_posted_at) ∧
    (sortKey (str "created") = fun t => t.created_at) ∧
    (sortKey (str "views") = fun t => some (t.views : Int)) ∧
    (sortKey (str "replies") = fun t => some (t.posts_count : Int)) := by
  refine ⟨applySorting_perm topics sortType, ?_, rfl, rfl, rfl, rfl⟩
  have hsome := (comparator_isSome_iff sortType).mpr hmode
  obtain ⟨cmp, hcmp⟩ := Option.isSome_iff_exists.mp hsome
  have hsorted := sortBy_sorted sortType cmp hcmp topics hvalid
  unfold applySorting
  rw [hcmp]
  refine hsorted.imp ?_
  intro a b hab ka kb hka hkb
  unfold keyGE at hab
  rw [hka, hkb] at hab
  exact hab

/-- C12 on five topics sorted by views: the views of the result are 30, 30, 20, 10, 10. -/
theorem C12_sort_correct_witness :
    (applySorting sortTopics (str "views")).map (fun t => t.views) = [30, 30, 20, 10, 10] ∧
    (applySorting sortTopics (str "views")).Perm sortTopics :=
  ⟨by decide,
   (C12_sort_correct sortTopics (str "views") (by decide)
      (fun t _ => ⟨(t.views : Int), rfl⟩)).1⟩

/-- C13, counterexample: seven topics sorted by `created`, the fourth with a `created_at`
that is no date. The topics 5 and 7 have the same key and come in this order in the array;
in the result of `applySorting` the topic 7 comes before the topic 5. A comparison with the
fourth topic is a `NaN`, which `sort` counts as `0`, so the run the array starts with is the
topics 1 to 5; the topic 6 is inserted before it, and the binary search for the place of the
topic 7 looks at the topics 3, 1 and 6 and puts it before the topic 1, hence before the
topic 5. -/
theorem C13_invalid_date_breaks_stability :
    invalidDateTopics.map (fun t => (t.id, t.created_at)) =
      [(1, some 3), (2, some 2), (3, some 1), (4, none), (5, some 5), (6, some 9),
       (7, some 5)] ∧
    (applySorting invalidDateTopics (str "created")).map (fun t => t.id) =
      [6, 7, 1, 2, 3, 4, 5] ∧
    (invalidDateTopics.filter (fun t => sortKey (str "created") t == some 5)).map
      (fun t => t.id) = [5, 7] ∧
    ((applySorting invalidDateTopics (str "created")).filter
      (fun t => sortKey (str "created") t == some 5)).map (fun t => t.id) = [7, 5] ∧
    List.Sublist [5, 7] (invalidDateTopics.map (fun t => t.id)) ∧
    ¬ List.Sublist [5, 7]
      ((applySorting invalidDateTopics (str "created")).map (fun t => t.id)) := by
  decide

/-- C13, amended: sort stability on valid keys. For every sort type and every topic list in
which the key of the sort type is a number for every topic (a valid timestamp for `latest`
and `created`; the counts always are), and for every key value, the topics with that key
appear in the result of `applySorting` in the order they have in the input: two topics with
equal sort key keep their relative order. In particular a pair `a`, `b` with equal keys that
occurs in this order in the input occurs in this order in the result. For a sort type that
is none of `latest`, `created`, `views`, `replies` the result is the input, whatever the
topics are. -/
theorem C13_sort_stable_on_valid_keys (topics : List Topic) (sortType : JsString) :
    ((∀ t ∈ topics, ∃ k, sortKey sortType t = some k) →
      (∀ v : Int,
        (applySorting topics sortType).filter (fun t => sortKey sortType t == some v) =
          topics.filter (fun t => sortKey sortType t == some v)) ∧
      (∀ (a b : Topic) (v : Int),
        sortKey sortType a = some v → sortKey sortType b = some v →
        List.Sublist [a, b] topics → List.Sublist [a, b] (applySorting topics sortType))) ∧
    (sortType ∉ sortTypes → applySorting topics sortType = topics) := by
  refine ⟨?_, ?_⟩
  · intro hvalid
    have hfilter : ∀ v : Int,
        (applySorting topics sortType).filter (fun t => sortKey sortType t == some v) =
          topics.filter (fun t => sortKey sortType t == some v) := by
      intro v
      unfold applySorting
      cases hc : comparator sortType with
      | none => rfl
      | some cmp => exact filter_sortBy_key sortType cmp hc v topics hvalid
    refine ⟨hfilter, ?_⟩
    intro a b v ha hb hsub
    have hp : ∀ t ∈ [a, b], (sortKey sortType t == some v) = true := by
      intro t ht
      simp only [List.mem_cons, List.mem_singleton, List.not_mem_nil, or_false] at ht
      rcases ht with rfl | rfl
      · simp [ha]
      · simp [hb]
    have h1 : List.Sublist [a, b] (topics.filter (fun t => sortKey sortType t == some v)) := by
      have h2 := hsub.filter (fun t => sortKey sortType t == some v)
      rwa [List.filter_eq_self.mpr hp] at h2
    rw [← hfilter v] at h1
    exact h1.trans (List.filter_sublist _)
  · intro hmode
    unfold applySorting
    cases hc : comparator sortType with
    | none => rfl
    | some cmp =>
      have hsome : (comparator sortType).isSome = true := by rw [hc]; rfl
      exact absurd ((comparator_isSome_iff sortType).mp hsome) hmode

/-- C13, amended, on the five topics, whose counts are numbers: sorted by replies, the ties
3 before 5 (8 posts) and 1 before 2 (3 posts) keep their input order; sorted by an unknown
sort type, the list is the input. -/
theorem C13_sort_stable_on_valid_keys_witness :
    (∀ t ∈ sortTopics, ∃ k, sortKey (str "replies") t = some k) ∧
    (applySorting sortTopics (str "replies")).map (fun t => t.id) = [3, 5, 1, 2, 4] ∧
    (∀ v : Int,
      (applySorting sortTopics (str "replies")).filter
          (fun t => sortKey (str "replies") t == some v) =
        sortTopics.filter (fun t => sortKey (str "replies") t == some v)) ∧
    applySorting sortTopics (str "hot") = sortTopics :=
  ⟨fun t _ => ⟨(t.posts_count : Int), rfl⟩,
   by decide,
   ((C13_sort_stable_on_valid_keys sortTopics (str "replies")).1
      (fun t _ => ⟨(t.posts_count : Int), rfl⟩)).1,
   (C13_sort_stable_on_valid_keys sortTopics (str "hot")).2 (by decide)⟩

/-! ## Purity of the projection -/

theorem Heap.read_append (h ext : Heap) (ref : Nat) (hlt : ref < h.length) :
    Heap.read (h ++ ext) ref = Heap.read h ref := by
  unfold Heap.read
  rw [List.getD_eq_getElem?_getD, List.getD_eq_getElem?_getD, List.getElem?_append_left hlt]

theorem Heap.read_alloc (h : Heap) (content : List Topic) :
    Heap.read (h.alloc content).1 (h.alloc content).2 = content := by
  simp [Heap.read, Heap.alloc, List.getD_eq_getElem?_getD]

theorem Heap.write_alloc (h : Heap) (content sorted : List Topic) :
    Heap.write (h.alloc content).1 (h.alloc content).2 sorted = h ++ [sorted] := by
  simp [Heap.write, Heap.alloc]

theorem Heap.read_last (h : Heap) (content : List Topic) :
    Heap.read (h ++ [content]) h.length = content := by
  simp [Heap.read, List.getD_eq_getElem?_getD]

theorem Heap.filterNew_spec (h : Heap) (res : Nat) (p : Topic → Bool) :
    (h.filterNew res p).1 = h ++ [(h.read res).filter p] ∧
    Heap.read (h.filterNew res p).1 (h.filterNew res p).2 = (h.read res).filter p :=
  ⟨rfl, Heap.read_alloc h _⟩

theorem stageRef_spec (runs : Bool) (p : Topic → Bool) (s : Heap × Nat) :
    (∃ ext, (stageRef runs p s).1 = s.1 ++ ext) ∧
    Heap.read (stageRef runs p s).1 (stageRef runs p s).2 =
      if runs then (s.1.read s.2).filter p else s.1.read s.2 := by
  unfold stageRef
  cases runs
  · exact ⟨⟨[], (List.append_nil _).symm⟩, rfl⟩
  · exact ⟨⟨_, (Heap.filterNew_spec s.1 s.2 p).1⟩, (Heap.filterNew_spec s.1 s.2 p).2⟩

/-- The later stages on references only add arrays, and the array they return holds what the
stages on values return. -/
theorem laterStagesRef_spec (host : Host) (h : Heap) (res : Nat) (config : Config)
    (readTopicIds : JsSet) :
    (∃ ext, (laterStagesRef host h res config readTopicIds).1 = h ++ ext) ∧
    Heap.read (laterStagesRef host h res config readTopicIds).1
        (laterStagesRef host h res config readTopicIds).2 =
      stageReadHide config readTopicIds (stageQuality config (stageKeyword host config (h.read res))) := by
  unfold laterStagesRef
  obtain ⟨⟨e2, h2⟩, r2⟩ := stageRef_spec (truthyStr config.keywordBlacklist)
    (fun t => !(blacklist host config).any (fun k => includes (host.toLowerCase t.title) k)) (h, res)
  generalize stageRef (truthyStr config.keywordBlacklist)
    (fun t => !(blacklist host config).any (fun k => includes (host.toLowerCase t.title) k)) (h, res) = s2
    at h2 r2 ⊢
  obtain ⟨⟨e3, h3⟩, r3⟩ := stageRef_spec config.qualityFilter
    (fun t => decide (t.posts_count > 10)) s2
  generalize stageRef config.qualityFilter (fun t => decide (t.posts_count > 10)) s2 = s3
    at h3 r3 ⊢
  obtain ⟨⟨e4, h4⟩, r4⟩ := stageRef_spec (decide (config.readStatusAction = str "hide"))
    (fun t => !readTopicIds.has t.id) s3
  constructor
  · exact ⟨e2 ++ (e3 ++ e4), by rw [h4, h3, h2, List.append_assoc, List.append_assoc]⟩
  · rw [r4, r3, r2]
    unfold stageReadHide stageQuality stageKeyword
    simp only [decide_eq_true_eq]

/-- The method `applySorting` on references adds one array, the sorted copy, and returns it. -/
theorem applySortingRef_spec (h : Heap) (topics : Nat) (sortType : JsString) :
    applySortingRef h topics sortType =
      (h ++ [applySorting (h.read topics) sortType], h.length) := by
  unfold applySortingRef applySorting
  cases comparator sortType with
  | none => rfl
  | some cmp =>
    simp only []
    rw [Heap.write_alloc, Heap.read_alloc]
    rfl

/-- The method `applyFilters` on references only adds arrays, and what it returns or throws
is what the method on values returns or throws. -/
theorem applyFiltersRef_spec (host : Host) (binding : Option (List Category)) (h : Heap)
    (topics : Nat)
    (config : Config) (readTopicIds : JsSet) :
    (∃ ext, (applyFiltersRef host binding h topics config readTopicIds).1 = h ++ ext) ∧
    outcome (applyFiltersRef host binding h topics config readTopicIds) =
      applyFiltersWith host binding (h.read topics) config readTopicIds := by
  unfold applyFiltersRef applyFiltersWith stageCategory outcome
  simp only []
  by_cases hb : config.blockCategories.length > 0
  · rw [if_pos hb, if_pos hb, Heap.read_alloc]
    cases hf : filterE (categoryKept binding config) (h.read topics) with
    | error e => exact ⟨⟨_, rfl⟩, rfl⟩
    | ok kept =>
      simp only []
      obtain ⟨⟨ext, hext⟩, hread⟩ := laterStagesRef_spec host
        ((h.alloc (h.read topics)).1.alloc kept).1 ((h.alloc (h.read topics)).1.alloc kept).2
        config readTopicIds
      rw [Heap.read_alloc] at hread
      refine ⟨⟨[h.read topics] ++ ([kept] ++ ext), ?_⟩, by rw [hread]⟩
      rw [hext]
      simp [Heap.alloc]
  · rw [if_neg hb, if_neg hb]
    simp only []
    obtain ⟨⟨ext, hext⟩, hread⟩ := laterStagesRef_spec host
      (h.alloc (h.read topics)).1 (h.alloc (h.read topics)).2 config readTopicIds
    rw [Heap.read_alloc] at hread
    refine ⟨⟨[h.read topics] ++ ext, ?_⟩, by rw [hread]⟩
    rw [hext]
    simp [Heap.alloc]

/-- C14: the projection is pure. Whatever arrays exist, `applyFilters` and `applySorting`
leave every one of them as it was, the topic list passed in (the topics of the store) among
them: the sort works on the copy it makes and returns that new array, and the filters only
create arrays. What a call returns or throws depends on the content of the list, the
configuration, the read set and the sort type only, so a second call with the same
arguments, made after the first, gives the same result. The configuration and the read set
are only read. -/
theorem C14_projection_is_pure (host : Host) (binding : Option (List Category)) (h : Heap)
    (topics : Nat)
    (config : Config) (readTopicIds : JsSet) (sortType : JsString)
    (hvalid : topics < h.length) :
    (∀ ref, ref < h.length →
      Heap.read (applyFiltersRef host binding h topics config readTopicIds).1 ref = h.read ref) ∧
    (∀ ref, ref < h.length →
      Heap.read (applySortingRef h topics sortType).1 ref = h.read ref) ∧
    Heap.read (applyFiltersRef host binding h topics config readTopicIds).1 topics = h.read topics ∧
    Heap.read (applySortingRef h topics sortType).1 topics = h.read topics ∧
    (applySortingRef h topics sortType).2 = h.length ∧
    outcome (applyFiltersRef host binding h topics config readTopicIds) =
      applyFiltersWith host binding (h.read topics) config readTopicIds ∧
    Heap.read (applySortingRef h topics sortType).1 (applySortingRef h topics sortType).2 =
      applySorting (h.read topics) sortType ∧
    outcome (applyFiltersRef host binding
        (applyFiltersRef host binding h topics config readTopicIds).1 topics config readTopicIds) =
      outcome (applyFiltersRef host binding h topics config readTopicIds) ∧
    Heap.read (applySortingRef (applySortingRef h topics sortType).1 topics sortType).1
        (applySortingRef (applySortingRef h topics sortType).1 topics sortType).2 =
      Heap.read (applySortingRef h topics sortType).1 (applySortingRef h topics sortType).2 := by
  obtain ⟨⟨ext, hext⟩, hout⟩ := applyFiltersRef_spec host binding h topics config readTopicIds
  have hframeF : ∀ ref, ref < h.length →
      Heap.read (applyFiltersRef host binding h topics config readTopicIds).1 ref = h.read ref := by
    intro ref hlt
    rw [hext, Heap.read_append h ext ref hlt]
  have hframeS : ∀ ref, ref < h.length →
      Heap.read (applySortingRef h topics sortType).1 ref = h.read ref := by
    intro ref hlt
    rw [applySortingRef_spec]
    exact Heap.read_append h _ ref hlt
  have hreadS : ∀ (g : Heap), Heap.read (applySortingRef g topics sortType).1
      (applySortingRef g topics sortType).2 = applySorting (g.read topics) sortType := by
    intro g
    rw [applySortingRef_spec]
    exact Heap.read_last g _
  refine ⟨hframeF, hframeS, hframeF topics hvalid, hframeS topics hvalid, ?_, hout,
    hreadS h, ?_, ?_⟩
  · rw [applySortingRef_spec]
  · rw [(applyFiltersRef_spec host binding _ topics config readTopicIds).2, hout,
      hframeF topics hvalid]
  · rw [hreadS, hreadS, hframeS topics hvalid]

/-- C14 on a heap whose array 0 is the topic list of the store: after filtering and after
sorting by replies, array 0 is still that list, while the result of the sort is a different
order of it. -/
theorem C14_projection_is_pure_witness :
    Heap.read (applyFiltersRef latin1Host eventsModuleCATEGORIES exampleHeap 0 strictConfig [4]).1 0 =
      strictTopics ∧
    Heap.read (applySortingRef exampleHeap 0 (str "replies")).1 0 = strictTopics ∧
    (Heap.read (applySortingRef exampleHeap 0 (str "replies")).1
      (applySortingRef exampleHeap 0 (str "replies")).2).map (fun t => t.id) = [2, 5, 4, 1, 3] :=
  have h := C14_projection_is_pure latin1Host eventsModuleCATEGORIES exampleHeap 0 strictConfig [4]
    (str "replies") (by decide)
  ⟨h.2.2.1, h.2.2.2.1, by decide⟩

/-! ## Notifications -/

/-- The loop of `checkKeywordNotifications`: the matching topics are pushed in order and the
callback is called with the title of each. -/
theorem forEach_matched {σ : Type} (send : σ → JsString → σ) (p : Topic → Bool)
    (l : List Topic) (m : List Topic) (st : σ) :
    l.foldl (fun acc t => if p t then (acc.1 ++ [t], send acc.2 t.title) else acc) (m, st) =
      (m ++ l.filter p, (l.filter p).foldl (fun s t => send s t.title) st) := by
  induction l generalizing m st with
  | nil => simp
  | cons t l ih =>
    rw [List.foldl_cons]
    by_cases hp : p t = true
    · rw [if_pos hp, ih, List.filter_cons, if_pos hp]
      simp
    · rw [if_neg hp, ih, List.filter_cons, if_neg hp]

/-- The topics `checkKeywordNotifications` returns, whatever the callback. -/
theorem checkKeywordNotificationsWith_fst (host : Host) {σ : Type} (send : σ → JsString → σ)
    (st : σ)
    (now : Int) (topics : List Topic) (readTopicIds : JsSet) (notifyKeywords : JsString) :
    (checkKeywordNotificationsWith host send st now topics readTopicIds notifyKeywords).1 =
      checkKeywordNotifications host now topics readTopicIds notifyKeywords := by
  unfold checkKeywordNotificationsWith checkKeywordNotifications
  split
  · rfl
  · simp only []
    split
    · rfl
    · rw [forEach_matched]
      rfl

/-- The calls of the callback: one for each returned topic, with its title, in order. -/
theorem checkKeywordNotificationsWith_snd (host : Host) {σ : Type} (send : σ → JsString → σ)
    (st : σ)
    (now : Int) (topics : List Topic) (readTopicIds : JsSet) (notifyKeywords : JsString) :
    (checkKeywordNotificationsWith host send st now topics readTopicIds notifyKeywords).2 =
      (checkKeywordNotifications host now topics readTopicIds notifyKeywords).foldl
        (fun s t => send s t.title) st := by
  unfold checkKeywordNotificationsWith checkKeywordNotifications
  split
  · rfl
  · simp only []
    split
    · rfl
    · rw [forEach_matched]

/-- The topics `checkKeywordNotifications` returns are the candidates of the specification. -/
theorem checkKeywordNotifications_eq_filter (host : Host) (now : Int) (topics : List Topic)
    (readTopicIds : JsSet) (spec : JsString) :
    checkKeywordNotifications host now topics readTopicIds spec =
      topics.filter (specCandidate host now readTopicIds spec) := by
  have hany : ∀ t : Topic,
      (split ',' spec).any (fun piece =>
        !(host.toLowerCase (trim piece)).isEmpty &&
          includes (host.toLowerCase t.title) (host.toLowerCase (trim piece))) =
      (parseKeywords host spec).any (fun k => includes (host.toLowerCase t.title) k) := by
    intro t
    unfold parseKeywords
    generalize split ',' spec = pieces
    induction pieces with
    | nil => rfl
    | cons piece pieces ih =>
      simp only [List.map_cons, List.any_cons, List.filter_cons, ih]
      cases hk : host.toLowerCase (trim piece) with
      | nil => simp [truthyStr]
      | cons c cs => simp [truthyStr]
  unfold checkKeywordNotifications
  split
  · rename_i hfalsy
    have hempty : spec = [] := by
      cases hs : spec with
      | nil => rfl
      | cons c cs => simp [truthyStr, hs] at hfalsy
    subst hempty
    symm
    apply List.filter_eq_nil_iff.mpr
    intro t _
    simp [specCandidate, split, trim, host.toLowerCase_empty]
  · simp only []
    split
    · rename_i hlen
      have hnil : parseKeywords host spec = [] := List.eq_nil_of_length_eq_zero hlen
      symm
      apply List.filter_eq_nil_iff.mpr
      intro t _
      simp [specCandidate, hany, hnil]
    · rw [List.filter_filter]
      apply List.filter_congr
      intro t _
      unfold specCandidate isTopicRecent JsSet.has
      rw [hany]
      cases t.created_at <;> simp [Bool.and_comm, Bool.and_assoc]

/-- C16: keyword notification match. For every topic list, read set, time `now` and keyword
spec, `checkKeywordNotifications` returns, in input order, exactly the topics created less
than 14,400,000 ms before `now`, not in `readTopicIds`, and whose lower-cased title contains
a trimmed, lower-cased, non-empty keyword of the comma-separated spec; it calls
`sendNotification` once for each returned topic, in order, with the title of the topic (for
the callback that records its argument, the record is the list of the titles); and a spec
without a non-empty keyword, the empty one included, returns `[]` and calls nothing. The
lower-casing is the method `toLowerCase` of the host on both sides, for every host, so the
match is the one the titles and keywords have under the case mappings of the engine. -/
theorem C16_keyword_notification_match (host : Host) :
    (∀ (σ : Type) (send : σ → JsString → σ) (st : σ) (now : Int) (topics : List Topic)
        (readTopicIds : JsSet) (spec : JsString),
      (checkKeywordNotificationsWith host send st now topics readTopicIds spec).1 =
        topics.filter (specCandidate host now readTopicIds spec) ∧
      (checkKeywordNotificationsWith host send st now topics readTopicIds spec).2 =
        (topics.filter (specCandidate host now readTopicIds spec)).foldl
          (fun s t => send s t.title) st) ∧
    (∀ (now : Int) (topics : List Topic) (readTopicIds : JsSet) (spec : JsString),
      (checkKeywordNotificationsWith host (fun calls text => calls ++ [text]) [] now topics
          readTopicIds spec).2 =
        (topics.filter (specCandidate host now readTopicIds spec)).map (fun t => t.title)) ∧
    (∀ (σ : Type) (send : σ → JsString → σ) (st : σ) (now : Int) (topics : List Topic)
        (readTopicIds : JsSet) (spec : JsString),
      parseKeywords host spec = [] →
      checkKeywordNotificationsWith host send st now topics readTopicIds spec = ([], st)) := by
  refine ⟨?_, ?_, ?_⟩
  · intro σ send st now topics readTopicIds spec
    rw [checkKeywordNotificationsWith_fst host, checkKeywordNotificationsWith_snd host,
      checkKeywordNotifications_eq_filter host]
    exact ⟨rfl, rfl⟩
  · intro now topics readTopicIds spec
    rw [checkKeywordNotificationsWith_snd host, checkKeywordNotifications_eq_filter host]
    generalize topics.filter (specCandidate host now readTopicIds spec) = matched
    have hgen : ∀ (l : List Topic) (acc : List JsString),
        l.foldl (fun s t => s ++ [t.title]) acc = acc ++ l.map (fun t => t.title) := by
      intro l
      induction l with
      | nil => intro acc; simp
      | cons t l ih => intro acc; simp [ih]
    simpa using hgen matched []
  · intro σ send st now topics readTopicIds spec hnil
    unfold checkKeywordNotificationsWith
    split
    · rfl
    · simp only [hnil, List.length_nil]
      rfl

/-- C16 at the scenario of the specification: the topic 1 with the title `AI news`, created
one hour before `now`, the spec `ai` and an empty read set give that topic, and one call of
`sendNotification` with its title; the blank spec gives nothing. The title
`ÄPFEL im Angebot` matches the keyword `äpfel`. -/
theorem C16_keyword_notification_match_witness :
    checkKeywordNotificationsWith latin1Host (fun calls text => calls ++ [text]) [] 3700000
      [aiTopic] [] (str "ai") = ([aiTopic], [str "AI news"]) ∧
    checkKeywordNotificationsWith latin1Host (fun calls text => calls ++ [text]) [] 3700000
      [aiTopic] [] (str " , ") = ([], []) ∧
    (checkKeywordNotificationsWith latin1Host (fun calls text => calls ++ [text]) [] 3700000
      [umlautTopic] [] (str "äpfel")).1 = [umlautTopic] :=
  ⟨by decide, (C16_keyword_notification_match latin1Host).2.2 (List JsString)
    (fun calls text => calls ++ [text]) [] 3700000 [aiTopic] [] (str " , ") (by decide),
   (((C16_keyword_notification_match latin1Host).1 (List JsString)
    (fun calls text => calls ++ [text]) [] 3700000 [umlautTopic] [] (str "äpfel")).1).trans
      (by decide)⟩

/-- The callback of `notifyIfNeeded`, called for the titles of a list of topics. -/
theorem foldl_sendNotification (now : Int) (l : List Topic) (last : Int)
    (shown : List JsString) :
    l.foldl (fun s t => sendNotification now s t.title) (last, shown) =
      (if l.length > 0 then now else last, shown ++ l.map (fun t => t.title)) := by
  induction l generalizing last shown with
  | nil => simp
  | cons t l ih =>
    rw [List.foldl_cons, sendNotification, ih]
    simp only [List.length_cons, List.map_cons, List.append_assoc, List.singleton_append,
      Nat.succ_pos, gt_iff_lt, if_true]
    split <;> rfl

/-- The method `notifyIfNeeded`, statement by statement, gives the closed form. -/
theorem notifyIfNeeded_eq_steps (host : Host) (last now : Int) (topics : List Topic)
    (readTopicIds : JsSet)
    (notifyKeywords : JsString) :
    notifyIfNeededSteps host last now topics readTopicIds notifyKeywords =
      notifyIfNeeded host last now topics readTopicIds notifyKeywords := by
  unfold notifyIfNeededSteps notifyIfNeeded
  split
  · rfl
  · rw [checkKeywordNotificationsWith_snd host, foldl_sendNotification]
    simp

/-- C17: global cooldown. Every call of `notifyIfNeeded` made at a time `now` with
`now - lastNotificationTime < 5000` shows no notification and leaves `lastNotificationTime`
as it was, whatever the topics, the read set and the keywords are. -/
theorem C17_global_cooldown (host : Host) (last now : Int) (topics : List Topic)
    (readTopicIds : JsSet)
    (notifyKeywords : JsString) (hcool : now - last < 5000) :
    notifyIfNeededSteps host last now topics readTopicIds notifyKeywords = (last, []) ∧
    notifyIfNeeded host last now topics readTopicIds notifyKeywords = (last, []) := by
  have h : notifyIfNeeded host last now topics readTopicIds notifyKeywords = (last, []) := by
    unfold notifyIfNeeded NOTIFICATION_COOLDOWN
    rw [if_pos hcool]
  exact ⟨(notifyIfNeeded_eq_steps host last now topics readTopicIds notifyKeywords).trans h, h⟩

/-- C17, 4999 ms after a notification at the time 200000: two matching, recent, unread
topics are there, and nothing is shown. -/
theorem C17_global_cooldown_witness :
    checkKeywordNotifications latin1Host 204999 [aiTopic, aiTopic2] [] (str "ai") = [aiTopic, aiTopic2] ∧
    notifyIfNeededSteps latin1Host 200000 204999 [aiTopic, aiTopic2] [] (str "ai") = (200000, []) :=
  ⟨by decide, (C17_global_cooldown latin1Host 200000 204999 [aiTopic, aiTopic2] [] (str "ai")
    (by decide)).1⟩

/-- C18 fails on the code: on a fresh notification manager, a first call with two matching
candidates shows two notifications, and the second call, 1000 ms later, none: two
notifications in total, not one. -/
theorem C18_two_candidates_two_notifications :
    checkKeywordNotifications latin1Host 200000 [aiTopic, aiTopic2] [] (str "ai") = [aiTopic, aiTopic2] ∧
    checkKeywordNotifications latin1Host 201000 [aiTopic, aiTopic2] [] (str "ai") = [aiTopic, aiTopic2] ∧
    notifyIfNeededSteps latin1Host 0 200000 [aiTopic, aiTopic2] [] (str "ai") =
      (200000, [str "AI news", str "Fair use"]) ∧
    notifyIfNeededSteps latin1Host 200000 201000 [aiTopic, aiTopic2] [] (str "ai") = (200000, []) ∧
    ((notifyIfNeededSteps latin1Host 0 200000 [aiTopic, aiTopic2] [] (str "ai")).2 ++
      (notifyIfNeededSteps latin1Host
        (notifyIfNeededSteps latin1Host 0 200000 [aiTopic, aiTopic2] [] (str "ai")).1 201000
        [aiTopic, aiTopic2] [] (str "ai")).2).length = 2 := by
  decide

/-- C18, amended: of two `notifyIfNeeded` calls made 1000 ms apart on a fresh notification
manager, at a clock value of at least 5000, the first with at least one matching candidate,
exactly one call shows notifications: the first call shows one notification for each of its
matching candidates, in order, and sets `lastNotificationTime` to its `now`; the second
call shows none and leaves it there. The total is the number of matching candidates of the
first call, so it is one exactly when the first call has one. -/
theorem C18_one_call_notifies (host : Host) (now : Int) (topics1 topics2 : List Topic)
    (readTopicIds1 readTopicIds2 : JsSet) (keywords1 keywords2 : JsString)
    (hclock : 5000 ≤ now)
    (hmatch : checkKeywordNotifications host now topics1 readTopicIds1 keywords1 ≠ []) :
    (notifyIfNeeded host 0 now topics1 readTopicIds1 keywords1).2 =
      (checkKeywordNotifications host now topics1 readTopicIds1 keywords1).map (fun t => t.title) ∧
    (notifyIfNeeded host 0 now topics1 readTopicIds1 keywords1).2 ≠ [] ∧
    (notifyIfNeeded host 0 now topics1 readTopicIds1 keywords1).1 = now ∧
    notifyIfNeeded host (notifyIfNeeded host 0 now topics1 readTopicIds1 keywords1).1 (now + 1000)
      topics2 readTopicIds2 keywords2 = (now, []) ∧
    ((notifyIfNeeded host 0 now topics1 readTopicIds1 keywords1).2 ++
      (notifyIfNeeded host (notifyIfNeeded host 0 now topics1 readTopicIds1 keywords1).1 (now + 1000)
        topics2 readTopicIds2 keywords2).2).length =
      (checkKeywordNotifications host now topics1 readTopicIds1 keywords1).length := by
  have hlen : (checkKeywordNotifications host now topics1 readTopicIds1 keywords1).length > 0 :=
    List.length_pos.mpr hmatch
  have hfirst : notifyIfNeeded host 0 now topics1 readTopicIds1 keywords1 =
      (now, (checkKeywordNotifications host now topics1 readTopicIds1 keywords1).map
        (fun t => t.title)) := by
    unfold notifyIfNeeded NOTIFICATION_COOLDOWN
    rw [if_neg (by omega)]
    simp only [if_pos hlen]
  have hsecond : notifyIfNeeded host now (now + 1000) topics2 readTopicIds2 keywords2 = (now, []) := by
    unfold notifyIfNeeded NOTIFICATION_COOLDOWN
    rw [if_pos (by omega)]
  rw [hfirst]
  refine ⟨rfl, ?_, rfl, hsecond, ?_⟩
  · intro hnil
    exact hmatch (List.map_eq_nil_iff.mp hnil)
  · show (_ ++ (notifyIfNeeded host now (now + 1000) topics2 readTopicIds2 keywords2).2).length = _
    rw [hsecond]
    simp

/-- C18, amended, with one matching candidate in each call: the first call shows its
notification, the second none, one in total. -/
theorem C18_one_call_notifies_witness :
    ((notifyIfNeeded latin1Host 0 200000 [aiTopic] [] (str "ai")).2 ++
      (notifyIfNeeded latin1Host (notifyIfNeeded latin1Host 0 200000 [aiTopic] [] (str "ai")).1 (200000 + 1000)
        [aiTopic2] [] (str "ai")).2).length = 1 :=
  (C18_one_call_notifies latin1Host 200000 [aiTopic] [aiTopic2] [] [] (str "ai") (str "ai")
    (by decide) (by decide)).2.2.2.2.trans (by decide)

/-- C19: the update of `lastNotificationTime`. After a `notifyIfNeeded` call that shows at
least one notification, `lastNotificationTime` is the `now` of that call, however many
topics matched; after a call that shows none it is what it was before, which is the case
when the call is throttled, when the keywords are empty or all blank, and when no topic
matches. -/
theorem C19_lastNotificationTime_update (host : Host) (last now : Int) (topics : List Topic)
    (readTopicIds : JsSet) (notifyKeywords : JsString) :
    ((notifyIfNeededSteps host last now topics readTopicIds notifyKeywords).2 ≠ [] →
      (notifyIfNeededSteps host last now topics readTopicIds notifyKeywords).1 = now) ∧
    ((notifyIfNeededSteps host last now topics readTopicIds notifyKeywords).2 = [] →
      (notifyIfNeededSteps host last now topics readTopicIds notifyKeywords).1 = last) ∧
    (now - last < 5000 →
      notifyIfNeededSteps host last now topics readTopicIds notifyKeywords = (last, [])) ∧
    (parseKeywords host notifyKeywords = [] →
      notifyIfNeededSteps host last now topics readTopicIds notifyKeywords = (last, [])) ∧
    (checkKeywordNotifications host now topics readTopicIds notifyKeywords = [] →
      notifyIfNeededSteps host last now topics readTopicIds notifyKeywords = (last, [])) := by
  rw [notifyIfNeeded_eq_steps host]
  have hnone : checkKeywordNotifications host now topics readTopicIds notifyKeywords = [] →
      notifyIfNeeded host last now topics readTopicIds notifyKeywords = (last, []) := by
    intro hnil
    unfold notifyIfNeeded
    split
    · rfl
    · simp [hnil]
  refine ⟨?_, ?_, ?_, ?_, hnone⟩
  · intro hsent
    unfold notifyIfNeeded at hsent ⊢
    split at hsent
    · exact absurd rfl hsent
    · rename_i hcool
      rw [if_neg hcool]
      simp only []
      have hlen : (checkKeywordNotifications host now topics readTopicIds notifyKeywords).length > 0 := by
        apply List.length_pos.mpr
        intro hnil
        exact hsent (by simp [hnil])
      rw [if_pos hlen]
  · intro hsent
    unfold notifyIfNeeded at hsent ⊢
    split
    · rfl
    · rename_i hcool
      rw [if_neg hcool] at hsent
      simp only [List.map_eq_nil_iff] at hsent
      simp [hsent]
  · intro hcool
    unfold notifyIfNeeded NOTIFICATION_COOLDOWN
    rw [if_pos hcool]
  · intro hkw
    apply hnone
    rw [checkKeywordNotifications_eq_filter host]
    apply List.filter_eq_nil_iff.mpr
    intro t _
    have hany : (split ',' notifyKeywords).any (fun piece =>
        !(host.toLowerCase (trim piece)).isEmpty &&
          includes (host.toLowerCase t.title) (host.toLowerCase (trim piece))) = false := by
      unfold parseKeywords at hkw
      rw [List.any_eq_false]
      intro piece hpiece
      have hmem : host.toLowerCase (trim piece) ∈
          (split ',' notifyKeywords).map (fun k => host.toLowerCase (trim k)) :=
        List.mem_map.mpr ⟨piece, hpiece, rfl⟩
      have hblank : truthyStr (host.toLowerCase (trim piece)) ≠ true := by
        intro htr
        have := List.mem_filter.mpr ⟨hmem, htr⟩
        rw [hkw] at this
        exact absurd this (List.not_mem_nil _)
      cases hk : host.toLowerCase (trim piece) with
      | nil => simp
      | cons c cs => simp [truthyStr, hk] at hblank
    simp [specCandidate, hany]

/-- C19 with two matching topics at the time 200000 on a manager whose last notification was
at 100: both are shown and `lastNotificationTime` is 200000; with the read set 1, 2 nothing
is shown and it stays 100. -/
theorem C19_lastNotificationTime_update_witness :
    notifyIfNeededSteps latin1Host 100 200000 [aiTopic, aiTopic2] [] (str "ai") =
      (200000, [str "AI news", str "Fair use"]) ∧
    (notifyIfNeededSteps latin1Host 100 200000 [aiTopic, aiTopic2] [1, 2] (str "ai")).1 = 100 :=
  ⟨by decide,
   (C19_lastNotificationTime_update latin1Host 100 200000 [aiTopic, aiTopic2] [1, 2] (str "ai")).2.1
    (by decide)⟩

theorem notified_append (a b : List Effect) : notified (a ++ b) = notified a ++ notified b := by
  induction a with
  | nil => rfl
  | cons e a ih => cases e <;> simp [notified, ih]

theorem notified_showNotification (texts : List JsString) :
    notified (texts.map Effect.showNotification) = texts := by
  induction texts with
  | nil => rfl
  | cons t texts ih => simp [notified, ih]

theorem notified_refreshTopicList (host : Host) (now : Int) (state : State)
    (settings : UserSettings) :
    notified (refreshTopicList host now state settings) = [] := by
  unfold refreshTopicList
  split
  · rfl
  · split
    · rfl
    · simp [render, notified]

/-- C15 fails on the code: the topic 1 is fetched by the refresh at the time 200000 and
notified; the refresh at 210000, after the cooldown, fetches it again, still unread and
recent, and it is notified a second time although its id was present in the earlier fetch. -/
theorem C15_seen_topic_notified_again :
    aiTopic ∈ aiResponse.topics ∧
    notified (handleManualRefresh latin1Host 200000 aiPanel DEFAULT_USER_SETTINGS (.ok aiResponse)).log =
      [str "AI news"] ∧
    notified (handleManualRefresh latin1Host 210000
        (handleManualRefresh latin1Host 200000 aiPanel DEFAULT_USER_SETTINGS (.ok aiResponse))
        DEFAULT_USER_SETTINGS (.ok aiResponse)).log =
      [str "AI news", str "AI news"] := by
  decide

/-- C15, amended: a successful refresh passes to the notification sink, when at least 5000 ms
have passed since `lastNotificationTime`, the title of every fetched topic that was created
less than 14,400,000 ms ago, is not in `readTopicIds` and matches a keyword, in the order of
the fetch, whether or not its id was present in an earlier fetch; within the cooldown it
passes nothing. The code keeps no record of the ids of earlier fetches. A keyword matches
under the method `toLowerCase` of the host, for every host. -/
theorem C15_candidates_are_all_fetched_topics (host : Host) (now : Int) (p : Panel)
    (settings : UserSettings)
    (r : FetchResponse) (users : List User) (hb : settings.categoryFilter ≠ str "bookmarks")
    (hs : r.success = true) (hu : r.users = some users) :
    notified (handleManualRefresh host now p settings (.ok r)).log =
      notified p.log ++
        (if now - p.lastNotificationTime < 5000 then []
         else (r.topics.filter
            (specCandidate host now p.store.readTopicIds p.store.config.notifyKeywords)).map
              (fun t => t.title)) ∧
    (handleManualRefresh host now p settings (.ok r)).lastNotificationTime =
      (notifyIfNeeded host p.lastNotificationTime now r.topics p.store.readTopicIds
        p.store.config.notifyKeywords).1 := by
  have hlog : (handleManualRefresh host now p settings (.ok r)).log =
      p.log ++ [Effect.loading true] ++
        (notifyIfNeeded host p.lastNotificationTime now r.topics p.store.readTopicIds
          p.store.config.notifyKeywords).2.map Effect.showNotification ++
        refreshTopicList host now
          (Store.setTopics p.store r.topics
            (some (JsMap.ofEntries (users.map (fun u => (u.id, u)))))) settings ++
        [Effect.loading false] := by
    simp [handleManualRefresh, refreshBody, hb, hs, hu, Store.setTopics]
  have hlast : (handleManualRefresh host now p settings (.ok r)).lastNotificationTime =
      (notifyIfNeeded host p.lastNotificationTime now r.topics p.store.readTopicIds
        p.store.config.notifyKeywords).1 := by
    simp [handleManualRefresh, refreshBody, hb, hs, hu, Store.setTopics]
  refine ⟨?_, hlast⟩
  rw [hlog]
  simp only [notified_append, notified_showNotification, notified_refreshTopicList host,
    List.append_nil]
  have h1 : notified [Effect.loading true] = [] := rfl
  have h2 : notified [Effect.loading false] = [] := rfl
  rw [h1, h2, List.append_nil, List.append_nil]
  congr 1
  unfold notifyIfNeeded NOTIFICATION_COOLDOWN
  split
  · rfl
  · rw [checkKeywordNotifications_eq_filter host]

/-- C15, amended, at the second refresh of the counterexample: 10000 ms after the first
notification the fetched topic 1 is passed to the sink again. -/
theorem C15_candidates_are_all_fetched_topics_witness :
    notified (handleManualRefresh latin1Host 210000
        (handleManualRefresh latin1Host 200000 aiPanel DEFAULT_USER_SETTINGS (.ok aiResponse))
        DEFAULT_USER_SETTINGS (.ok aiResponse)).log =
      [str "AI news"] ++ [str "AI news"] :=
  (C15_candidates_are_all_fetched_topics latin1Host 210000
    (handleManualRefresh latin1Host 200000 aiPanel DEFAULT_USER_SETTINGS (.ok aiResponse))
    DEFAULT_USER_SETTINGS aiResponse [] (by decide) rfl rfl).1.trans (by decide)

/-! ## Bookmarks -/

/-- C20 fails on the code: a logged-in `toggleBookmark(5)` on a set without 5 issues the remote
`addBookmark(5)` while the set is still without 5, and a `toggleBookmark(7)` on a set with 7
issues `removeBookmark(7)` while 7 is still in the set: the set is changed only after the
remote call has resolved. -/
theorem C20_set_unchanged_when_call_issued :
    loggedInManager.isLoggedIn = true ∧
    (toggleBookmark.start loggedInManager 5).2 = .awaiting (.addBookmark 5) ∧
    (toggleBookmark.start loggedInManager 5).1.bookmarkedTopicIds.has 5 = false ∧
    (toggleBookmark.start loggedInManager 7).2 = .awaiting (.removeBookmark 7) ∧
    (toggleBookmark.start loggedInManager 7).1.bookmarkedTopicIds.has 7 = true := by
  decide

/-- C20, amended: for every logged-in `toggleBookmark(id)`, the variables, the set
`bookmarkedTopicIds` among them, are unchanged at the point where the remote call is issued,
and the call is `addBookmark(id)` when the id is absent and `removeBookmark(id)` when it is
present. The set gets the toggled membership of the id when the remote call has resolved
with success, and stays as it is when it has resolved without success. -/
theorem C20_toggle_after_remote_success (m : BookmarksManager) (topicId : Int)
    (hlogged : m.isLoggedIn = true) :
    (toggleBookmark.start m topicId).1 = m ∧
    (toggleBookmark.start m topicId).2 =
      .awaiting (if m.bookmarkedTopicIds.has topicId then .removeBookmark topicId
        else .addBookmark topicId) ∧
    (∀ result, result.success = true →
      ((toggleBookmark.resume m (.addBookmark topicId) result).1.bookmarkedTopicIds.has topicId
        = true) ∧
      ((toggleBookmark.resume m (.removeBookmark topicId) result).1.bookmarkedTopicIds.has
        topicId = false)) ∧
    (∀ call result, result.success = false →
      toggleBookmark.resume m call result = (m, result)) := by
  refine ⟨?_, ?_, ?_, ?_⟩
  · unfold toggleBookmark.start
    rw [hlogged]
    cases m.bookmarkedTopicIds.has topicId <;> rfl
  · unfold toggleBookmark.start
    rw [hlogged]
    cases m.bookmarkedTopicIds.has topicId <;> rfl
  · intro result hs
    constructor
    · simp only [toggleBookmark.resume, hs, if_true]
      rw [JsSet.has_iff, JsSet.mem_add]
      exact Or.inr rfl
    · simp only [toggleBookmark.resume, hs, if_true]
      cases hh : JsSet.has (JsSet.delete m.bookmarkedTopicIds topicId) topicId with
      | false => rfl
      | true =>
        have := (JsSet.mem_delete _ _ _).mp ((JsSet.has_iff _ _).mp hh)
        exact absurd rfl this.2
  · intro call result hf
    cases call <;> simp [toggleBookmark.resume, hf]

/-- C20, amended, on the manager that holds the bookmark 7: toggling 5 issues the call with
the set still 7, and the set is 7, 5 once the call has succeeded. -/
theorem C20_toggle_after_remote_success_witness :
    (toggleBookmark.start loggedInManager 5).1.bookmarkedTopicIds = [7] ∧
    (toggleBookmark loggedInManager 5 (fun _ => { success := true })).1.bookmarkedTopicIds =
      [7, 5] :=
  ⟨congrArg BookmarksManager.bookmarkedTopicIds
      (C20_toggle_after_remote_success loggedInManager 5 rfl).1,
   by decide⟩

/-- C21: bookmark rollback. For every state of a logged-in bookmarks manager and every id,
when the remote call `toggleBookmark(id)` makes resolves without success, the variables
after `toggleBookmark` are the variables before it: the set is the set before the toggle
(a failed add leaves the id absent, a failed remove leaves it present), the change callback
has not been called, and the value returned is the failure result of the remote call. -/
theorem C21_failed_toggle_changes_nothing (m : BookmarksManager) (topicId : Int)
    (remote : BookmarkCall → ToggleResult) (hlogged : m.isLoggedIn = true)
    (hfail : ∀ call, (remote call).success = false) :
    (toggleBookmark m topicId remote).1 = m ∧
    (toggleBookmark m topicId remote).1.bookmarkedTopicIds = m.bookmarkedTopicIds ∧
    (toggleBookmark m topicId remote).1.bookmarkedTopicIds.has topicId =
      m.bookmarkedTopicIds.has topicId ∧
    (toggleBookmark m topicId remote).1.changes = m.changes ∧
    (toggleBookmark m topicId remote).2 =
      remote (if m.bookmarkedTopicIds.has topicId then .removeBookmark topicId
        else .addBookmark topicId) ∧
    (toggleBookmark m topicId remote).2.success = false := by
  have h : toggleBookmark m topicId remote =
      (m, remote (if m.bookmarkedTopicIds.has topicId then .removeBookmark topicId
        else .addBookmark topicId)) := by
    unfold toggleBookmark toggleBookmark.start
    rw [hlogged]
    cases hh : m.bookmarkedTopicIds.has topicId
    · simp [toggleBookmark.resume, hfail]
    · simp [toggleBookmark.resume, hfail]
  rw [h]
  exact ⟨rfl, rfl, rfl, rfl, rfl, hfail _⟩

/-- C21 on the manager that holds the bookmark 7, with a remote side that fails: after a
toggle of 5 and after a toggle of 7 the set is still 7, and no change has been reported. -/
theorem C21_failed_toggle_changes_nothing_witness :
    (toggleBookmark loggedInManager 5 (fun _ => { success := false })).1 = loggedInManager ∧
    (toggleBookmark loggedInManager 7 (fun _ => { success := false })).1 = loggedInManager :=
  ⟨(C21_failed_toggle_changes_nothing loggedInManager 5 (fun _ => { success := false }) rfl
      (fun _ => rfl)).1,
   (C21_failed_toggle_changes_nothing loggedInManager 7 (fun _ => { success := false }) rfl
      (fun _ => rfl)).1⟩

/-- C22 fails on the code: a logged-in manager of v4.5 that holds the bookmark 7 returns the
empty set from `loadBookmarks` when the fetch fails, not the set it holds (which it keeps);
and `refreshBookmarksFromServer` of the refactored panel returns the empty list on a failed
fetch and on no response, whatever was persisted. -/
theorem C22_failed_fetch_yields_empty :
    loggedInManager.bookmarkedTopicIds = [7] ∧
    (BookmarksManager.loadBookmarks loggedInManager { success := false, bookmarks := some [] }).2
      = [] ∧
    (BookmarksManager.loadBookmarks loggedInManager
      { success := false, bookmarks := some [] }).1.bookmarkedTopicIds = [7] ∧
    refreshBookmarksFromServer (some { success := false }) = [] ∧
    refreshBookmarksFromServer none = [] := by
  decide

/-- C22, amended: when the bookmark fetch fails, `loadBookmarks` of v4.5 returns a new empty
set and leaves the variables alone, so the manager keeps the id set it held and
`isBookmarked` answers from it; `refreshBookmarksFromServer` of the refactored panel returns
the empty list. On a successful fetch `loadBookmarks` holds and returns the set of the ids
`topic_id || id` of the fetched bookmarks, and `refreshBookmarksFromServer` returns the
fetched bookmarks. -/
theorem C22_loading_bookmarks (m : BookmarksManager) (hlogged : m.isLoggedIn = true) :
    (∀ result : BookmarksResult, result.success = false →
      BookmarksManager.loadBookmarks m result = (m, []) ∧
      ∀ topicId, (BookmarksManager.loadBookmarks m result).1.isBookmarked topicId =
        m.isBookmarked topicId) ∧
    (∀ r : UserBookmarksResponse, r.success = false →
      refreshBookmarksFromServer (some r) = []) ∧
    (∀ bookmarks : List RemoteBookmark,
      (BookmarksManager.loadBookmarks m { success := true, bookmarks := some bookmarks }).2 =
        (BookmarksManager.loadBookmarks m
          { success := true, bookmarks := some bookmarks }).1.bookmarkedTopicIds ∧
      ∀ x, x ∈ (BookmarksManager.loadBookmarks m
          { success := true, bookmarks := some bookmarks }).1.bookmarkedTopicIds ↔
        ∃ b ∈ bookmarks, bookmarkTopicId b = x) ∧
    (∀ r : UserBookmarksResponse, r.success = true →
      refreshBookmarksFromServer (some r) = r.bookmarks) := by
  refine ⟨?_, ?_, ?_, ?_⟩
  · intro result hfail
    have h : BookmarksManager.loadBookmarks m result = (m, []) := by
      unfold BookmarksManager.loadBookmarks
      rw [hlogged, hfail]
      rfl
    rw [h]
    exact ⟨rfl, fun _ => rfl⟩
  · intro r hfail
    simp [refreshBookmarksFromServer, hfail]
  · intro bookmarks
    have h : BookmarksManager.loadBookmarks m { success := true, bookmarks := some bookmarks } =
        ({ m with bookmarkedTopicIds := JsSet.ofArray (bookmarks.map bookmarkTopicId) },
          JsSet.ofArray (bookmarks.map bookmarkTopicId)) := by
      unfold BookmarksManager.loadBookmarks
      rw [hlogged]
      rfl
    rw [h]
    refine ⟨rfl, ?_⟩
    intro x
    show x ∈ JsSet.ofArray (bookmarks.map bookmarkTopicId) ↔ _
    rw [JsSet.mem_ofArray]
    simp
  · intro r hs
    simp [refreshBookmarksFromServer, hs]

/-- C22, amended, on the manager that holds the bookmark 7: a failed fetch returns the empty
set and keeps 7; a fetch of the bookmarks with the topic ids 3, none (id 9) and 3 gives the
set 3, 9. -/
theorem C22_loading_bookmarks_witness :
    BookmarksManager.loadBookmarks loggedInManager { success := false } =
      (loggedInManager, []) ∧
    (BookmarksManager.loadBookmarks loggedInManager
      { success := true
        bookmarks := some [{ topic_id := some 3, id := 8 }, { id := 9 },
          { topic_id := some 3, id := 10 }] }).2 = [3, 9] :=
  ⟨((C22_loading_bookmarks loggedInManager rfl).1 { success := false } rfl).1, by decide⟩

/-- C26 fails on the code: on the manager that holds the bookmark 7, a second
`toggleBookmark(5)` invoked while the first still awaits issues a second remote call, so two
`addBookmark(5)` calls are in flight at once; and when both have succeeded the id 5 is
bookmarked, although the second toggle came on top of the first. -/
theorem C26_two_calls_in_flight :
    (ToggleSession.run { manager := loggedInManager } [.invoke 5, .invoke 5]).inFlight =
      [.addBookmark 5, .addBookmark 5] ∧
    (ToggleSession.run { manager := loggedInManager }
      [.invoke 5, .invoke 5, .resolve 0 { success := true },
        .resolve 0 { success := true }]).manager.bookmarkedTopicIds = [7, 5] ∧
    (ToggleSession.run { manager := loggedInManager }
      [.invoke 5, .invoke 5, .resolve 0 { success := true },
        .resolve 0 { success := true }]).inFlight = [] := by
  decide

/-- C26, amended: `toggleBookmark` does not coalesce. When a logged-in `toggleBookmark(id)` is
invoked again while the first invocation still awaits its remote call, the second issues a
remote call of the same kind, so both are in flight at once and the variables are still
unchanged; when both calls have resolved with success, the membership of the id is the
opposite of the one before the first toggle, the state each of the two calls asked for. -/
theorem C26_no_coalescing (m : BookmarksManager) (topicId : Int)
    (hlogged : m.isLoggedIn = true) :
    (ToggleSession.run { manager := m } [.invoke topicId, .invoke topicId]).inFlight =
      [if m.bookmarkedTopicIds.has topicId then .removeBookmark topicId
        else .addBookmark topicId,
       if m.bookmarkedTopicIds.has topicId then .removeBookmark topicId
        else .addBookmark topicId] ∧
    (ToggleSession.run { manager := m } [.invoke topicId, .invoke topicId]).manager = m ∧
    (∀ r1 r2 : ToggleResult, r1.success = true → r2.success = true →
      (ToggleSession.run { manager := m }
        [.invoke topicId, .invoke topicId, .resolve 0 r1, .resolve 0 r2]).inFlight = [] ∧
      (ToggleSession.run { manager := m }
        [.invoke topicId, .invoke topicId, .resolve 0 r1,
          .resolve 0 r2]).manager.bookmarkedTopicIds.has topicId =
        !m.bookmarkedTopicIds.has topicId) := by
  have hstart : toggleBookmark.start m topicId =
      (m, .awaiting (if m.bookmarkedTopicIds.has topicId then .removeBookmark topicId
        else .addBookmark topicId)) := by
    unfold toggleBookmark.start
    rw [hlogged]
    cases m.bookmarkedTopicIds.has topicId <;> rfl
  have htwo : ToggleSession.run { manager := m } [.invoke topicId, .invoke topicId] =
      { manager := m
        inFlight := [if m.bookmarkedTopicIds.has topicId then .removeBookmark topicId
            else .addBookmark topicId,
          if m.bookmarkedTopicIds.has topicId then .removeBookmark topicId
            else .addBookmark topicId] } := by
    simp [ToggleSession.run, ToggleSession.step, hstart]
  refine ⟨by rw [htwo], by rw [htwo], ?_⟩
  intro r1 r2 h1 h2
  have hfour : ToggleSession.run { manager := m }
      [.invoke topicId, .invoke topicId, .resolve 0 r1, .resolve 0 r2] =
      ToggleSession.run
        (ToggleSession.run { manager := m } [.invoke topicId, .invoke topicId])
        [.resolve 0 r1, .resolve 0 r2] := by
    simp [ToggleSession.run]
  rw [hfour, htwo]
  cases hh : m.bookmarkedTopicIds.has topicId
  · simp only [ToggleSession.run, List.foldl, ToggleSession.step, List.get?, List.eraseIdx,
      toggleBookmark.resume, h1, h2, if_true, Bool.false_eq_true, if_false, Bool.not_false]
    refine ⟨trivial, ?_⟩
    rw [JsSet.has_iff, JsSet.mem_add]
    exact Or.inr rfl
  · simp only [ToggleSession.run, List.foldl, ToggleSession.step, List.get?, List.eraseIdx,
      toggleBookmark.resume, h1, h2, if_true, Bool.not_true]
    refine ⟨trivial, ?_⟩
    cases hd : JsSet.has (JsSet.delete (JsSet.delete m.bookmarkedTopicIds topicId) topicId)
      topicId with
    | false => rfl
    | true =>
      have := (JsSet.mem_delete _ _ _).mp ((JsSet.has_iff _ _).mp hd)
      exact absurd rfl this.2

/-- C26, amended, on the manager that holds the bookmark 7: two overlapping toggles of 7
put two `removeBookmark(7)` calls in flight, and after both have succeeded 7 is gone. -/
theorem C26_no_coalescing_witness :
    (ToggleSession.run { manager := loggedInManager } [.invoke 7, .invoke 7]).inFlight =
      [.removeBookmark 7, .removeBookmark 7] ∧
    (ToggleSession.run { manager := loggedInManager }
      [.invoke 7, .invoke 7, .resolve 0 { success := true },
        .resolve 0 { success := true }]).manager.bookmarkedTopicIds = [] :=
  ⟨(C26_no_coalescing loggedInManager 7 rfl).1.trans (by decide), by decide⟩

/-! ## Persistence of the read set -/

theorem JsSet.foldl_add_of_nodup (xs : List Int) (acc : JsSet) (h : (acc ++ xs).Nodup) :
    xs.foldl JsSet.add acc = acc ++ xs := by
  induction xs generalizing acc with
  | nil => simp
  | cons x xs ih =>
    have hx : x ∉ acc := by
      intro hmem
      have := List.nodup_append.mp h
      exact this.2.2 hmem (List.mem_cons_self _ _)
    have hadd : JsSet.add acc x = acc ++ [x] := by
      unfold JsSet.add
      rw [if_neg]
      intro hh
      exact hx ((JsSet.has_iff acc x).mp hh)
    rw [List.foldl_cons, hadd, ih (acc ++ [x]) (by simpa using h)]
    simp

/-- A set built from a list without repetition is that list. -/
theorem JsSet.ofArray_of_nodup (xs : List Int) (h : xs.Nodup) : JsSet.ofArray xs = xs := by
  have := JsSet.foldl_add_of_nodup xs [] (by simpa using h)
  simpa [JsSet.ofArray] using this

theorem JsSet.nodup_foldl_add (xs : List Int) (acc : JsSet) (h : acc.Nodup) :
    (xs.foldl JsSet.add acc).Nodup := by
  induction xs generalizing acc with
  | nil => exact h
  | cons x xs ih =>
    rw [List.foldl_cons]
    apply ih
    unfold JsSet.add
    split
    · exact h
    · rename_i hh
      have hx : x ∉ acc := fun hmem => hh ((JsSet.has_iff acc x).mpr hmem)
      rw [List.nodup_append]
      exact ⟨h, List.nodup_singleton x, by
        intro a ha hb
        rw [List.mem_singleton] at hb
        exact hx (hb ▸ ha)⟩

/-- A set built by `new Set(array)` has no repetition. -/
theorem JsSet.nodup_ofArray (xs : List Int) : (JsSet.ofArray xs).Nodup :=
  JsSet.nodup_foldl_add xs [] List.nodup_nil

/-- C23: the round trip of the read ids. For every set `S` of ids (a list without
repetition, in insertion order), `saveReadTopicIds(S)` stores that duplicate-free sequence
under `readTopicIds`, and `loadReadTopicIds` afterwards returns the set `S`, as does
`loadAllData`; read back from any stored array, the set has exactly the elements of the
array; and when the key `readTopicIds` is absent, `loadReadTopicIds` and `loadAllData`
return the empty set. -/
theorem C23_read_ids_round_trip :
    (∀ (st : Storage) (S : JsSet), S.Nodup →
      (storage.saveReadTopicIds st S).readTopicIds = some S ∧
      storage.loadReadTopicIds (storage.saveReadTopicIds st S) = S ∧
      (storage.loadAllData (storage.saveReadTopicIds st S)).readTopicIds = S) ∧
    (∀ (st : Storage) (S : List Int) (x : Int),
      (x ∈ storage.loadReadTopicIds (storage.saveReadTopicIds st S) ↔ x ∈ S) ∧
      (storage.loadReadTopicIds (storage.saveReadTopicIds st S)).Nodup) ∧
    (∀ st : Storage, st.readTopicIds = none →
      storage.loadReadTopicIds st = [] ∧ (storage.loadAllData st).readTopicIds = []) := by
  refine ⟨?_, ?_, ?_⟩
  · intro st S hS
    refine ⟨rfl, ?_, ?_⟩
    · show JsSet.ofArray S = S
      exact JsSet.ofArray_of_nodup S hS
    · show JsSet.ofArray S = S
      exact JsSet.ofArray_of_nodup S hS
  · intro st S x
    constructor
    · show x ∈ JsSet.ofArray S ↔ x ∈ S
      exact JsSet.mem_ofArray S x
    · show (JsSet.ofArray S).Nodup
      exact JsSet.nodup_ofArray S
  · intro st hnone
    constructor
    · unfold storage.loadReadTopicIds
      rw [hnone]
    · unfold storage.loadAllData
      simp only [hnone]

/-- C23 with the set 9, 2, 5 on a storage that held other ids: what is read back is 9, 2, 5;
from the empty storage the empty set is read. -/
theorem C23_read_ids_round_trip_witness :
    storage.loadReadTopicIds
      (storage.saveReadTopicIds { readTopicIds := some [1, 1, 3] } [9, 2, 5]) = [9, 2, 5] ∧
    storage.loadReadTopicIds {} = [] :=
  ⟨(C23_read_ids_round_trip.1 { readTopicIds := some [1, 1, 3] } [9, 2, 5] (by decide)).2.1,
   (C23_read_ids_round_trip.2.2 {} rfl).1⟩

/-! ## Clicks -/

/-- What `handleTopicClick` does when the store holds a topic with the id. -/
theorem handleTopicClick_found (host : Host) (now : Int) (settings : UserSettings) (a : App)
    (topicId : Int)
    (topic : Topic) (h : a.store.topics.find? (fun t => t.id == topicId) = some topic) :
    handleTopicClick host now settings a topicId =
      { store := Store.markAsRead a.store topicId
        reports :=
          if a.store.config.syncReadStatus && topic.highest_post_number != 0 then
            a.reports ++ [(topicId, topic.highest_post_number)]
          else a.reports
        storage := storage.saveReadTopicIds a.storage
          (Store.markAsRead a.store topicId).readTopicIds
        tabs := a.tabs ++
          [(topicId, !decide (a.store.config.clickBehavior = str "background"))]
        view := a.view ++ refreshTopicList host now (Store.markAsRead a.store topicId) settings } := by
  unfold handleTopicClick
  rw [h]

/-- The store holds a topic with the id exactly when `find` finds one, and what it finds has
that id. -/
theorem find_topic (topics : List Topic) (topicId : Int) :
    ((∃ t ∈ topics, t.id = topicId) →
      ∃ topic, topics.find? (fun t => t.id == topicId) = some topic ∧ topic.id = topicId ∧
        topic ∈ topics) ∧
    ((∀ t ∈ topics, t.id ≠ topicId) → topics.find? (fun t => t.id == topicId) = none) := by
  constructor
  · rintro ⟨t, ht, hid⟩
    cases hf : topics.find? (fun t => t.id == topicId) with
    | none =>
      have := List.find?_eq_none.mp hf t ht
      simp [hid] at this
    | some topic =>
      have h1 := List.find?_some hf
      exact ⟨topic, rfl, by simpa using h1, List.mem_of_find?_eq_some hf⟩
  · intro hall
    apply List.find?_eq_none.mpr
    intro t ht
    simpa using hall t ht

/-- C24: every read mutation is persisted in the same call. For every id of a topic the
store holds, `handleTopicClick(id)` adds the id to `readTopicIds` and writes to the storage,
under `readTopicIds`, exactly the read set of the store after the addition;
`__onToggleRead(id)` removes the id and writes exactly the read set after the removal; and
a click on an id that no topic of the store has changes nothing, neither the read set nor
the storage. -/
theorem C24_read_mutations_persisted (host : Host) (now : Int) (settings : UserSettings) (a : App)
    (id : Int) :
    ((∃ t ∈ a.store.topics, t.id = id) →
      (handleTopicClick host now settings a id).store.readTopicIds = a.store.readTopicIds.add id ∧
      id ∈ (handleTopicClick host now settings a id).store.readTopicIds ∧
      (handleTopicClick host now settings a id).storage.readTopicIds =
        some (handleTopicClick host now settings a id).store.readTopicIds) ∧
    ((onToggleRead host now settings a id).store.readTopicIds = a.store.readTopicIds.delete id ∧
      id ∉ (onToggleRead host now settings a id).store.readTopicIds ∧
      (onToggleRead host now settings a id).storage.readTopicIds =
        some (onToggleRead host now settings a id).store.readTopicIds) ∧
    ((∀ t ∈ a.store.topics, t.id ≠ id) → handleTopicClick host now settings a id = a) := by
  refine ⟨?_, ?_, ?_⟩
  · intro hheld
    obtain ⟨topic, hfind, _, _⟩ := (find_topic a.store.topics id).1 hheld
    rw [handleTopicClick_found host now settings a id topic hfind]
    refine ⟨rfl, ?_, rfl⟩
    show id ∈ JsSet.add a.store.readTopicIds id
    rw [JsSet.mem_add]
    exact Or.inr rfl
  · refine ⟨rfl, ?_, rfl⟩
    show id ∉ JsSet.delete a.store.readTopicIds id
    rw [JsSet.mem_delete]
    exact fun h => h.2 rfl
  · intro hnot
    unfold handleTopicClick
    rw [(find_topic a.store.topics id).2 hnot]

/-- C24 on the example panel, whose store holds the topics 7 (read) and 8: a click on 8
stores the read set 7, 8; a toggle of 7 stores the empty read set; a click on 99 changes
nothing. -/
theorem C24_read_mutations_persisted_witness :
    (handleTopicClick latin1Host 0 DEFAULT_USER_SETTINGS exampleApp 8).storage.readTopicIds =
      some [7, 8] ∧
    (onToggleRead latin1Host 0 DEFAULT_USER_SETTINGS exampleApp 7).storage.readTopicIds = some [] ∧
    handleTopicClick latin1Host 0 DEFAULT_USER_SETTINGS exampleApp 99 = exampleApp :=
  ⟨((C24_read_mutations_persisted latin1Host 0 DEFAULT_USER_SETTINGS exampleApp 8).1
      ⟨{ id := 8, title := str "new topic", highest_post_number := 12 }, by decide, rfl⟩).2.2.trans
      (by decide),
   by decide,
   (C24_read_mutations_persisted latin1Host 0 DEFAULT_USER_SETTINGS exampleApp 99).2.2 (by decide)⟩

/-- C25 fails on the code: with `syncReadStatus` enabled, a click on the topic 7, which the
store holds with a `highest_post_number` of 0, sends no read report (the number 0 is falsy
in `config.syncReadStatus && topic.highest_post_number`); the id is marked read all the
same. -/
theorem C25_no_report_for_post_number_zero :
    exampleApp.store.config.syncReadStatus = true ∧
    exampleApp.store.topics.find? (fun t => t.id == 7) =
      some { id := 7, title := str "old topic", highest_post_number := 0 } ∧
    (handleTopicClick latin1Host 0 DEFAULT_USER_SETTINGS exampleApp 7).reports = [] ∧
    7 ∈ (handleTopicClick latin1Host 0 DEFAULT_USER_SETTINGS exampleApp 7).store.readTopicIds := by
  decide

/-- C25, amended: for every click on a topic the store holds, one read report, with the
topic id and the `highest_post_number` of the topic, is sent when `syncReadStatus` is
enabled and `highest_post_number` is not 0; no report is sent when `syncReadStatus` is
disabled, and none when `highest_post_number` is 0. In every case the id is in
`readTopicIds` afterwards; the outcome of the report is not awaited and enters nothing. -/
theorem C25_remote_read_report (host : Host) (now : Int) (settings : UserSettings) (a : App)
    (topicId : Int)
    (topic : Topic) (hfind : a.store.topics.find? (fun t => t.id == topicId) = some topic) :
    (a.store.config.syncReadStatus = true → topic.highest_post_number ≠ 0 →
      (handleTopicClick host now settings a topicId).reports =
        a.reports ++ [(topicId, topic.highest_post_number)]) ∧
    (a.store.config.syncReadStatus = false →
      (handleTopicClick host now settings a topicId).reports = a.reports) ∧
    (topic.highest_post_number = 0 →
      (handleTopicClick host now settings a topicId).reports = a.reports) ∧
    topicId ∈ (handleTopicClick host now settings a topicId).store.readTopicIds := by
  rw [handleTopicClick_found host now settings a topicId topic hfind]
  refine ⟨?_, ?_, ?_, ?_⟩
  · intro hs hn
    have hb : (topic.highest_post_number != 0) = true := bne_iff_ne.mpr hn
    simp only [hs, hb, Bool.and_self, if_true]
  · intro hs
    simp only [hs, Bool.false_and, Bool.false_eq_true, if_false]
  · intro hz
    simp [hz]
  · show topicId ∈ JsSet.add a.store.readTopicIds topicId
    rw [JsSet.mem_add]
    exact Or.inr rfl

/-- C25, amended, on the example panel: a click on the topic 8, which has 12 posts, reports
the post number 12 for the topic 8, and 8 is read afterwards. -/
theorem C25_remote_read_report_witness :
    (handleTopicClick latin1Host 0 DEFAULT_USER_SETTINGS exampleApp 8).reports = [(8, 12)] ∧
    8 ∈ (handleTopicClick latin1Host 0 DEFAULT_USER_SETTINGS exampleApp 8).store.readTopicIds :=
  have h := C25_remote_read_report latin1Host 0 DEFAULT_USER_SETTINGS exampleApp 8
    { id := 8, title := str "new topic", highest_post_number := 12 } (by decide)
  ⟨h.1 (by decide) (by decide), h.2.2.2⟩

/-! ## The local bookmark list -/

/-- C27: the local bookmark list has no duplicates. For every storage whose bookmark list
has pairwise distinct ids and every topic, after `addBookmark(topic)` the list has exactly
one entry with the id of the topic: the new entry is put first when the id was new, and the
list and the storage are left as they were when it was present; all other entries are
unchanged and in order, and the ids stay pairwise distinct. After `removeBookmark(id)` no
entry with that id remains and the other entries are unchanged and in order. So
`isBookmarked(id)` is true after the add and false after the remove. -/
theorem C27_bookmark_list_no_duplicates (now : Int) (st : Storage) (topic : Topic)
    (slug : Option JsString) (topicId : Int)
    (hdistinct : ((storage.loadBookmarks st).map (fun b => b.id)).Nodup) :
    (((storage.loadBookmarks (storage.addBookmark now st topic slug).1).filter
        (fun b => b.id == topic.id)).length = 1) ∧
    ((∀ b ∈ storage.loadBookmarks st, b.id ≠ topic.id) →
      storage.loadBookmarks (storage.addBookmark now st topic slug).1 =
        { id := topic.id, title := topic.title, slug := slug,
          created_at := topic.created_at.getD now, saved_at := now } ::
          storage.loadBookmarks st) ∧
    ((∃ b ∈ storage.loadBookmarks st, b.id = topic.id) →
      (storage.addBookmark now st topic slug).1 = st) ∧
    ((storage.loadBookmarks (storage.addBookmark now st topic slug).1).filter
        (fun b => b.id != topic.id) =
      (storage.loadBookmarks st).filter (fun b => b.id != topic.id)) ∧
    ((storage.loadBookmarks (storage.addBookmark now st topic slug).1).map
        (fun b => b.id)).Nodup ∧
    (storage.addBookmark now st topic slug).2 =
      storage.loadBookmarks (storage.addBookmark now st topic slug).1 ∧
    storage.isBookmarked (storage.addBookmark now st topic slug).1 topic.id = true ∧
    storage.loadBookmarks (storage.removeBookmark st topicId).1 =
      (storage.loadBookmarks st).filter (fun b => b.id != topicId) ∧
    (∀ b ∈ storage.loadBookmarks (storage.removeBookmark st topicId).1, b.id ≠ topicId) ∧
    storage.isBookmarked (storage.removeBookmark st topicId).1 topicId = false := by
  have hcount : ∀ (l : List StoredBookmark) (x : Int), (l.map (fun b => b.id)).Nodup →
      (∃ b ∈ l, b.id = x) → (l.filter (fun b => b.id == x)).length = 1 := by
    intro l x
    induction l with
    | nil => intro _ h; obtain ⟨b, hb, _⟩ := h; exact absurd hb (List.not_mem_nil _)
    | cons c l ih =>
      intro hnd hex
      rw [List.map_cons, List.nodup_cons] at hnd
      by_cases hc : c.id = x
      · have hnone : l.filter (fun b => b.id == x) = [] := by
          apply List.filter_eq_nil_iff.mpr
          intro b hb hbx
          apply hnd.1
          rw [hc]
          exact List.mem_map.mpr ⟨b, hb, by simpa using hbx⟩
        simp [List.filter_cons, hc, hnone]
      · obtain ⟨b, hb, hbx⟩ := hex
        have hbl : b ∈ l := by
          rcases List.mem_cons.mp hb with h | h
          · exact absurd (h ▸ hbx) hc
          · exact h
        simp [List.filter_cons, hc, ih hnd.2 ⟨b, hbl, hbx⟩]
  by_cases hpresent : ∃ b ∈ storage.loadBookmarks st, b.id = topic.id
  · have hfind : ((storage.loadBookmarks st).find? (fun b => b.id == topic.id)).isNone = false := by
      obtain ⟨b, hb, hid⟩ := hpresent
      cases hf : (storage.loadBookmarks st).find? (fun b => b.id == topic.id) with
      | none =>
        have := List.find?_eq_none.mp hf b hb
        simp [hid] at this
      | some _ => rfl
    have hadd : storage.addBookmark now st topic slug = (st, storage.loadBookmarks st) := by
      unfold storage.addBookmark
      simp only [hfind, Bool.false_eq_true, if_false]
    rw [hadd]
    refine ⟨hcount _ _ hdistinct hpresent, ?_, fun _ => rfl, rfl, hdistinct, rfl, ?_, rfl, ?_, ?_⟩
    · intro hall
      obtain ⟨b, hb, hid⟩ := hpresent
      exact absurd hid (hall b hb)
    · obtain ⟨b, hb, hid⟩ := hpresent
      unfold storage.isBookmarked
      rw [List.any_eq_true]
      exact ⟨b, hb, by simpa using hid⟩
    · intro b hb
      have := (List.mem_filter.mp hb).2
      simpa using this
    · unfold storage.isBookmarked
      rw [List.any_eq_false]
      intro b hb
      have := (List.mem_filter.mp hb).2
      simpa using this
  · have hall : ∀ b ∈ storage.loadBookmarks st, b.id ≠ topic.id :=
      fun b hb hid => hpresent ⟨b, hb, hid⟩
    have hfind : ((storage.loadBookmarks st).find? (fun b => b.id == topic.id)).isNone = true := by
      rw [List.find?_eq_none.mpr (fun b hb => by simpa using hall b hb)]
      rfl
    have hadd : storage.addBookmark now st topic slug =
        (storage.saveBookmarks st
          ({ id := topic.id, title := topic.title, slug := slug,
             created_at := topic.created_at.getD now, saved_at := now } ::
            storage.loadBookmarks st),
         { id := topic.id, title := topic.title, slug := slug,
           created_at := topic.created_at.getD now, saved_at := now } ::
            storage.loadBookmarks st) := by
      unfold storage.addBookmark
      simp only [hfind, if_true]
    rw [hadd]
    have hload : ∀ l, storage.loadBookmarks (storage.saveBookmarks st l) = l := fun _ => rfl
    rw [hload]
    have hnone : (storage.loadBookmarks st).filter (fun b => b.id == topic.id) = [] := by
      apply List.filter_eq_nil_iff.mpr
      intro b hb
      simpa using hall b hb
    refine ⟨by simp [List.filter_cons, hnone], fun _ => rfl, ?_, by simp [List.filter_cons],
      ?_, rfl, ?_, rfl, ?_, ?_⟩
    · intro hex
      exact absurd hex hpresent
    · rw [List.map_cons, List.nodup_cons]
      refine ⟨?_, hdistinct⟩
      intro hmem
      obtain ⟨b, hb, hid⟩ := List.mem_map.mp hmem
      exact hall b hb hid
    · unfold storage.isBookmarked
      rw [hload]
      simp
    · intro b hb
      have := (List.mem_filter.mp hb).2
      simpa using this
    · unfold storage.isBookmarked
      rw [List.any_eq_false]
      intro b hb
      have := (List.mem_filter.mp hb).2
      simpa using this

/-- C27 on the storage that holds the bookmarks 4 and 6: adding the topic 5 puts it first,
adding the topic 6 changes nothing, and removing 4 leaves the bookmark 6. -/
theorem C27_bookmark_list_no_duplicates_witness :
    (storage.addBookmark 1000 exampleStorage { id := 5, title := str "five" } none).2 =
      [{ id := 5, title := str "five", created_at := 1000, saved_at := 1000 },
       { id := 4, title := str "four" }, { id := 6, title := str "six" }] ∧
    (storage.addBookmark 1000 exampleStorage { id := 6, title := str "six again" } none).1 =
      exampleStorage ∧
    (storage.removeBookmark exampleStorage 4).2 = [{ id := 6, title := str "six" }] :=
  ⟨by decide,
   (C27_bookmark_list_no_duplicates 1000 exampleStorage { id := 6, title := str "six again" }
      none 4 (by decide)).2.2.1 ⟨{ id := 6, title := str "six" }, by decide, rfl⟩,
   by decide⟩

/-! ## Defaults of the store -/

theorem JsObject.hasKey_iff (o : JsObject) (x : JsString) :
    JsObject.hasKey o x = true ↔ ∃ kv ∈ o, kv.1 = x := by
  simp [JsObject.hasKey]

theorem JsObject.key_assign (o : JsObject) (k : JsString) (v : JsValue) (x : JsString) :
    (∃ kv ∈ JsObject.assign o k v, kv.1 = x) ↔ (∃ kv ∈ o, kv.1 = x) ∨ x = k := by
  induction o with
  | nil => simp [JsObject.assign, eq_comm]
  | cons kv o ih =>
    obtain ⟨k0, v0⟩ := kv
    simp only [JsObject.assign]
    split
    · rename_i hk
      subst hk
      simp only [List.mem_cons, exists_eq_or_imp]
      constructor
      · rintro (h | h)
        · exact Or.inr h.symm
        · exact Or.inl (Or.inr h)
      · rintro ((h | h) | h)
        · exact Or.inl h
        · exact Or.inr h
        · exact Or.inl h.symm
    · simp only [List.mem_cons, exists_eq_or_imp, ih]
      exact or_assoc.symm

theorem JsObject.get_assign_ne (o : JsObject) (k : JsString) (v : JsValue) (x : JsString)
    (hne : x ≠ k) : JsObject.get (JsObject.assign o k v) x = JsObject.get o x := by
  induction o with
  | nil =>
    have hk : (k == x) = false := by simpa using fun h => hne h.symm
    simp [JsObject.assign, JsObject.get, List.find?, hk]
  | cons kv o ih =>
    obtain ⟨k0, v0⟩ := kv
    unfold JsObject.get at ih ⊢
    simp only [JsObject.assign]
    split
    · rename_i hk
      subst hk
      have hk : (k0 == x) = false := by simpa using fun h => hne h.symm
      simp [List.find?, hk]
    · by_cases hx : (k0 == x) = true
      · simp [List.find?, hx]
      · have hx2 : (k0 == x) = false := by simpa using hx
        simp only [List.find?, hx2]
        exact ih

/-- The spread has the keys of both objects. -/
theorem JsObject.key_spread (b a : JsObject) (x : JsString) :
    (∃ kv ∈ JsObject.spread a b, kv.1 = x) ↔ (∃ kv ∈ a, kv.1 = x) ∨ ∃ kv ∈ b, kv.1 = x := by
  unfold JsObject.spread
  induction b generalizing a with
  | nil => simp
  | cons kv b ih =>
    rw [List.foldl_cons, ih, JsObject.key_assign]
    simp only [List.mem_cons, exists_eq_or_imp]
    constructor
    · rintro ((h | h) | h)
      · exact Or.inl h
      · exact Or.inr (Or.inl h.symm)
      · exact Or.inr (Or.inr h)
    · rintro (h | h | h)
      · exact Or.inl (Or.inl h)
      · exact Or.inl (Or.inr h.symm)
      · exact Or.inr h

/-- A key the second object does not set keeps the value of the first in the spread. -/
theorem JsObject.get_spread_of_not (b a : JsObject) (x : JsString)
    (h : ∀ kv ∈ b, kv.1 ≠ x) : JsObject.get (JsObject.spread a b) x = JsObject.get a x := by
  unfold JsObject.spread
  induction b generalizing a with
  | nil => rfl
  | cons kv b ih =>
    rw [List.foldl_cons, ih _ (fun kv2 h2 => h kv2 (List.mem_cons_of_mem _ h2))]
    exact JsObject.get_assign_ne a kv.1 kv.2 x
      (fun hx => h kv (List.mem_cons_self _ _) hx.symm)

/-- The object the constructor merges first has every key of `DEFAULT_CONFIG`, with the
default value for each key that `initialState.config` does not set; and a store built
without a `config` property has exactly the defaults. -/
theorem mergedConfig_has_defaults (initialState : InitialState) (k : JsString)
    (hk : JsObject.hasKey DEFAULT_CONFIG_OBJECT k = true) :
    JsObject.hasKey (mergedConfig initialState) k = true ∧
    ((∀ kv ∈ initialState.config.getD [], kv.1 ≠ k) →
      JsObject.get (mergedConfig initialState) k = JsObject.get DEFAULT_CONFIG_OBJECT k) ∧
    (initialState.config = none → (createStore initialState).config = DEFAULT_CONFIG_OBJECT) := by
  refine ⟨?_, ?_, ?_⟩
  · rw [JsObject.hasKey_iff] at hk ⊢
    exact (JsObject.key_spread _ _ k).mpr (Or.inl hk)
  · intro hnot
    exact JsObject.get_spread_of_not _ _ k hnot
  · intro hnone
    simp [createStore, mergedConfig, hnone, JsObject.spread]

/-- C28, on the code: `createStore({ config: { pollingInterval: 60 } })` builds a store whose
config is the object passed in, with the one key `pollingInterval`: the key `lowDataMode`
of `DEFAULT_CONFIG`, like twelve others, is missing. The constructor first merges the
defaults with the partial config, to an object with all fourteen keys, and then its last
line `...initialState` puts the partial config back in the place of the merged one. The
same happens to `userSettings`. -/
theorem C28_partial_config_loses_defaults :
    (mergedConfig partialInitialState).map (fun kv => kv.1) =
      DEFAULT_CONFIG_OBJECT.map (fun kv => kv.1) ∧
    JsObject.get (mergedConfig partialInitialState) (str "pollingInterval") = some (.num 60) ∧
    JsObject.get (mergedConfig partialInitialState) (str "lowDataMode") =
      some (.bool false) ∧
    (createStore partialInitialState).config = [(str "pollingInterval", .num 60)] ∧
    JsObject.hasKey DEFAULT_CONFIG_OBJECT (str "lowDataMode") = true ∧
    JsObject.hasKey (createStore partialInitialState).config (str "lowDataMode") = false ∧
    ((DEFAULT_CONFIG_OBJECT.filter
      (fun kv => !JsObject.hasKey (createStore partialInitialState).config kv.1)).length = 13) ∧
    (createStore { userSettings := some [(str "sortFilter", .text (str "views"))] }).userSettings
      = [(str "sortFilter", .text (str "views"))] ∧
    (createStore {}).config = DEFAULT_CONFIG_OBJECT ∧
    (createStore {}).userSettings = DEFAULT_USER_SETTINGS_OBJECT := by
  decide

/-! ## Totality of the filters, and successful fetches -/

/-- In `events/index.js`, `applyFilters` raises the reference error whenever the block list
and the topic list are both non-empty, and returns a list exactly when one of them is
empty. -/
theorem applyFilters_raises_iff (host : Host) (topics : List Topic) (config : Config)
    (readTopicIds : JsSet) :
    (config.blockCategories ≠ [] → topics ≠ [] →
      applyFilters host topics config readTopicIds = .error (.referenceError (str "CATEGORIES"))) ∧
    ((∃ res, applyFilters host topics config readTopicIds = .ok res) ↔
      (config.blockCategories = [] ∨ topics = [])) := by
  constructor
  · intro hblock htopics
    cases topics with
    | nil => exact absurd rfl htopics
    | cons t ts =>
      have hlen : config.blockCategories.length > 0 := List.length_pos.mpr hblock
      simp [applyFilters, applyFiltersWith, stageCategory, hlen, filterE, categoryKept,
        eventsModuleCATEGORIES]
  · constructor
    · rintro ⟨res, hres⟩
      exact (applyFilters_ok_inv host topics config readTopicIds res hres).2
    · intro hcat
      exact ⟨_, applyFilters_ok host topics config readTopicIds hcat⟩

/-- C29, on the code: `applyFilters` is not total. The module `events/index.js` neither
imports nor declares the name `CATEGORIES`, so with the block list `job` and one topic, of
the category 4, `applyFilters` raises the reference error of that name instead of
returning a list; with the same block list and no topic it returns the empty list. -/
theorem C29_applyFilters_raises :
    eventsModuleCATEGORIES = none ∧
    applyFilters latin1Host [{ id := 3, title := str "kernel", category_id := some 4 }]
      { DEFAULT_CONFIG with blockCategories := [str "job"] } [] =
      .error (.referenceError (str "CATEGORIES")) ∧
    JsError.message (.referenceError (str "CATEGORIES")) = str "CATEGORIES is not defined" ∧
    applyFilters latin1Host [] { DEFAULT_CONFIG with blockCategories := [str "job"] } [] = .ok [] := by
  decide

/-- A successful response without the `users` field takes the error path: the store is not
touched and the type error is shown. -/
theorem handleManualRefresh_without_users (host : Host) (now : Int) (p : Panel)
    (settings : UserSettings)
    (r : FetchResponse) (hb : settings.categoryFilter ≠ str "bookmarks")
    (hs : r.success = true) (hu : r.users = none) :
    (handleManualRefresh host now p settings (.ok r)).store = p.store ∧
    Effect.showError (str "Cannot read properties of undefined (reading 'map')") ∈
      (handleManualRefresh host now p settings (.ok r)).log := by
  simp [handleManualRefresh, refreshBody, hb, hs, hu, JsError.message]

/-- C30, on the code: a successful fetch whose `users` field is absent is not merged.
`handleManualRefresh` throws a type error at `response.users.map`, before `setTopics`: the
store keeps the topics it had, not the topic of the response, and the error is shown. With
an empty `users` array in its place the same response is merged. -/
theorem C30_success_without_users_not_merged :
    noUsersResponse.success = true ∧
    (handleManualRefresh latin1Host 2000 { store := exampleState } DEFAULT_USER_SETTINGS
      (.ok noUsersResponse)).store = exampleState ∧
    (handleManualRefresh latin1Host 2000 { store := exampleState } DEFAULT_USER_SETTINGS
      (.ok noUsersResponse)).store.topics ≠ noUsersResponse.topics ∧
    Effect.showError (str "Cannot read properties of undefined (reading 'map')") ∈
      (handleManualRefresh latin1Host 2000 { store := exampleState } DEFAULT_USER_SETTINGS
        (.ok noUsersResponse)).log ∧
    (handleManualRefresh latin1Host 2000 { store := exampleState } DEFAULT_USER_SETTINGS
      (.ok { noUsersResponse with users := some [] })).store.topics =
      noUsersResponse.topics := by
  decide

end LinuxDoStream
